import Mathlib

/-!
# T43DR OnPort firmware: backend serial protocol subsystem

A shallow embedding of `src/ntp_handler.cpp` and `src/uart_handler.cpp`, and of
the baud-rate block of `loadSettings` in `src/settings.cpp`.

* An Arduino `String` is a list of bytes; every byte is held as a `Char`
  (code point = byte value).  String literals of the source that contain
  non-ASCII text are written with their UTF-8 bytes escaped.
* All globals of the two translation units live in one record `Sys`,
  together with the millisecond clock, the diagnostic log and the two
  serial ports.  Every function of the source becomes a function on `Sys`.
* `unsigned long` is 32 bits wide on the target; values are naturals and
  every operation that can wrap is reduced modulo `2^32` explicitly.
-/

namespace T43DR

/-! ## Arduino `String` -/

/-- Arduino `String`: a sequence of bytes. -/
abbrev AString := List Char

/-- A string literal of the source. -/
def lit (s : String) : AString := s.toList

/-- `String::substring(left, right)`: the arguments are swapped when they are
out of order, the result is empty when `left` is past the end and `right` is
clamped to the length. -/
def substring (s : AString) (left right : Nat) : AString :=
  let l := if left > right then right else left
  let r := if left > right then left else right
  if l ≥ s.length then []
  else
    let r := if r > s.length then s.length else r
    (s.take r).drop l

/-- `String::charAt(i)`: the byte at `i`, or `0` past the end. -/
def charAt (s : AString) (i : Nat) : Char := s.getD i (Char.ofNat 0)

/-- C `isspace` in the "C" locale. -/
def isSpace (c : Char) : Bool :=
  c = ' ' || c = '\t' || c = '\n' || c = Char.ofNat 11 || c = Char.ofNat 12 || c = '\r'

/-- The digit-accumulating loop of `atol`: stops at the first non-digit. -/
def atolDigits : List Char → Int → Int
  | [], acc => acc
  | c :: cs, acc =>
    if c.isDigit then atolDigits cs (acc * 10 + ((c.toNat : Int) - 48)) else acc

/-- `String::toInt()`, which is `atol` on the buffer: leading white space is
skipped, one optional sign is read, then decimal digits up to the first other
byte.  No digits at all gives `0`. -/
def toInt (s : AString) : Int :=
  match s.dropWhile isSpace with
  | '-' :: cs => - atolDigits cs 0
  | '+' :: cs => atolDigits cs 0
  | cs => atolDigits cs 0

/-- `String(int)`: the decimal text of a signed integer. -/
def ofInt (n : Int) : AString :=
  if n < 0 then '-' :: Nat.toDigits 10 n.natAbs else Nat.toDigits 10 n.toNat

/-- `String(char c)`: the constructor copies the C string made of `c` and a
closing `'\0'`, so the NUL byte gives the empty string. -/
def ofChar (c : Char) : AString := if c = Char.ofNat 0 then [] else [c]

/-! ## Clock, log and serial ports -/

/-- Subtraction of two `unsigned long` values. -/
def u32sub (a b : Nat) : Nat := (a % 4294967296 + (4294967296 - b % 4294967296)) % 4294967296

/-- Modelled from the spec: the log levels of `log_system.h`, which is not
part of the sources; the names are the ones the callers use. -/
inductive LogLevel where
  | ERROR | WARN | INFO | DEBUG | SUCCESS
  deriving DecidableEq

/-- Modelled from the spec: one diagnostic handed to `addLog`. -/
structure LogEntry where
  message : AString
  level : LogLevel
  source : AString
  deriving DecidableEq

/-- A hardware serial port.  Every inbound byte carries the clock value at
which it reaches the receive FIFO; the FIFO is read in order. -/
structure Serial where
  rx : List (Nat × Char)
  tx : List Char
  /-- The rate handed to the latest `begin()`; `none` before the first `begin()`
  and after `end()`. -/
  baud : Option Int
  /-- How many times `begin()` has been called. -/
  begins : Nat
  deriving DecidableEq

/-- Modelled from the spec: `NTPConfig` of `ntp_handler.h`, which is not part
of the sources; the character arrays are held as the C strings they contain. -/
structure NTPConfig where
  ntpServer1 : AString
  ntpServer2 : AString
  timezone : Int
  enabled : Bool
  deriving DecidableEq

/-- Modelled from the spec: `ReceivedTimeData` of `ntp_handler.h`, which is
not part of the sources; the fields are the ones `ntp_handler.cpp` uses. -/
structure ReceivedTimeData where
  date : AString
  time : AString
  isValid : Bool
  lastUpdate : Nat
  deriving DecidableEq

/-- The keys that `ntp_handler.cpp` keeps in the preferences namespace
"ntp-config"; `none` when a key is absent. -/
structure NTPPrefs where
  ntp_server1 : Option AString
  ntp_server2 : Option AString
  timezone : Option Int
  enabled : Option Bool
  deriving DecidableEq

/-- The record `UARTStats` of `uart_handler.cpp`. -/
structure UARTStats where
  totalCommands : Nat
  successfulCommands : Nat
  failedCommands : Nat
  lastSuccessTime : Nat
  lastFailTime : Nat
  deriving DecidableEq

/-- The whole machine: clock, log, ports and the globals of both units.
`clock` is the true number of milliseconds since boot; `millis()` reports it
modulo `2^32`. -/
structure Sys where
  clock : Nat
  log : List LogEntry
  receivedTime : ReceivedTimeData
  backendSerial : Serial
  uart : Serial
  lastResponse : AString
  lastUARTActivity : Nat
  uartErrorCount : Int
  uartHealthy : Bool
  uartStats : UARTStats
  /-- The static local `dataBuffer` of `readBackendData`. -/
  dataBuffer : AString
  /-- The static local `lastActivity` of `readBackendData`; `none` until the
  first call initialises it. -/
  lastActivity : Option Nat
  ntpConfig : NTPConfig
  ntpConfigured : Bool
  /-- The field `settings.currentBaudRate`. -/
  currentBaudRate : Int
  /-- The value stored under the key "baudrate" of the preferences namespace
  "app-settings"; `none` when the key is absent. -/
  storedBaudRate : Option Int
  /-- The preferences namespace "ntp-config". -/
  ntpPrefs : NTPPrefs
  deriving DecidableEq

/-- Arduino `millis()`. -/
def millis (s : Sys) : Nat := s.clock % 4294967296

/-- Arduino `delay(ms)`: the only operation that lets time pass. -/
def delay (s : Sys) (ms : Nat) : Sys := { s with clock := s.clock + ms }

/-- Modelled from the spec: `addLog` of the absent log system appends one
diagnostic to the log. -/
def addLog (s : Sys) (message : AString) (level : LogLevel) (source : AString) : Sys :=
  { s with log := s.log ++ [{ message := message, level := level, source := source }] }

/-! ## `ntp_handler.cpp` -/

/-- The text "Geçersiz Tarih" returned for a date that fails validation. -/
def invalidDate : AString := lit "Ge\xC3\xA7ersiz Tarih"

/-- The text "Geçersiz Saat" returned for a time that fails validation. -/
def invalidTime : AString := lit "Ge\xC3\xA7ersiz Saat"

/-- `formatDate` of `ntp_handler.cpp`. -/
def formatDate (dateStr : AString) : AString :=
  if dateStr.length ≠ 6 then invalidDate
  else
    let day := toInt (substring dateStr 0 2)
    let month := toInt (substring dateStr 2 4)
    let year := 2000 + toInt (substring dateStr 4 6)
    if day < 1 || day > 31 || month < 1 || month > 12 || year < 2020 || year > 2099 then
      invalidDate
    else
      lit (if day < 10 then "0" else "") ++ ofInt day ++ lit "." ++
        lit (if month < 10 then "0" else "") ++ ofInt month ++ lit "." ++ ofInt year

/-- `formatTime` of `ntp_handler.cpp`. -/
def formatTime (timeStr : AString) : AString :=
  if timeStr.length ≠ 6 then invalidTime
  else
    let hour := toInt (substring timeStr 0 2)
    let minute := toInt (substring timeStr 2 4)
    let second := toInt (substring timeStr 4 6)
    if hour > 23 || minute > 59 || second > 59 then
      invalidTime
    else
      lit (if hour < 10 then "0" else "") ++ ofInt hour ++ lit ":" ++
        lit (if minute < 10 then "0" else "") ++ ofInt minute ++ lit ":" ++
        lit (if second < 10 then "0" else "") ++ ofInt second

/-- `parseTimeData` of `ntp_handler.cpp`. -/
def parseTimeData (s : Sys) (data : AString) : Sys :=
  if data.length ≠ 7 then
    addLog s (lit "Arka porttan ge\xC3\xA7ersiz formatta veri: " ++ data) .WARN (lit "NTP")
  else
    let dataOnly := substring data 0 6
    let checksum := charAt data 6
    if 'A' ≤ checksum && checksum ≤ 'Z' then
      let formattedDate := formatDate dataOnly
      if formattedDate ≠ invalidDate then
        { s with receivedTime :=
            { s.receivedTime with date := dataOnly, lastUpdate := millis s } }
      else s
    else if 'a' ≤ checksum && checksum ≤ 'z' then
      let formattedTime := formatTime dataOnly
      if formattedTime ≠ invalidTime then
        { s with receivedTime :=
            { s.receivedTime with time := dataOnly, isValid := true, lastUpdate := millis s } }
      else s
    else
      addLog s (lit "Bilinmeyen checksum karakteri: " ++ ofChar checksum) .WARN (lit "NTP")

/-- `isTimeDataValid` of `ntp_handler.cpp`; the machine is returned next to
the result, as it is by every other function here. -/
def isTimeDataValid (s : Sys) : Bool × Sys :=
  (s.receivedTime.isValid && decide (u32sub (millis s) s.receivedTime.lastUpdate < 60000), s)

/-! ## `uart_handler.cpp` -/

/-- What makes an execution undefined: the loop model ran out of fuel, an
array was indexed outside its bounds, an uninitialised byte was read, or a
signed `int` overflowed. -/
inductive Fault where
  | outOfFuel | outOfBounds | uninitialised | signedOverflow
  deriving DecidableEq

/-- The macro `UART_TIMEOUT`. -/
def UART_TIMEOUT : Nat := 1000

/-- The macro `MAX_RESPONSE_LENGTH`. -/
def MAX_RESPONSE_LENGTH : Nat := 256

/-- The byte `'\0'`. -/
def NUL : Char := Char.ofNat 0

/-- `HardwareSerial::available()` at clock value `now`. -/
def Serial.available (p : Serial) (now : Nat) : Bool :=
  match p.rx with
  | [] => false
  | (t, _) :: _ => decide (t ≤ now)

/-- `HardwareSerial::read()` at clock value `now`: the oldest byte that has
arrived, or `-1` (the byte `0xFF` once narrowed to `char`) when there is none. -/
def Serial.read (p : Serial) (now : Nat) : Char × Serial :=
  match p.rx with
  | [] => (Char.ofNat 255, p)
  | (t, c) :: rest => if t ≤ now then (c, { p with rx := rest }) else (Char.ofNat 255, p)

/-- `HardwareSerial::println(text)`: the text followed by CR LF. -/
def Serial.println (p : Serial) (text : AString) : Serial :=
  { p with tx := p.tx ++ text ++ ['\r', '\n'] }

/-- The loop `while (UART_PORT.available()) UART_PORT.read();` on the receive
FIFO: every byte that has arrived by `now` is dropped. -/
def drain (now : Nat) : List (Nat × Char) → List (Nat × Char)
  | [] => []
  | (t, c) :: rest => if t ≤ now then drain now rest else (t, c) :: rest

/-- The input-clearing loop that opens every exchange. -/
def clearInput (s : Sys) : Sys :=
  { s with uart := { s.uart with rx := drain s.clock s.uart.rx } }

/-- A store `buffer[i] = c` into a local array. -/
def store (buffer : List (Option Char)) (i : Nat) (c : Char) :
    Except Fault (List (Option Char)) :=
  if i < buffer.length then .ok (buffer.set i (some c)) else .error .outOfBounds

/-- `String(buffer)` on a local array: the bytes before the first `'\0'`.
Reading a cell that was never written, or running off the end, is a fault. -/
def cstr : List (Option Char) → Except Fault AString
  | [] => .error .outOfBounds
  | none :: _ => .error .uninitialised
  | some c :: rest => if c = NUL then .ok [] else (cstr rest).map (c :: ·)

/-- The locals of `safeReadUARTResponse` that live across loop passes, next
to the machine. -/
structure ReadState where
  sys : Sys
  buffer : List (Option Char)
  bufferIndex : Nat

/-- How one pass of the `while` loop of `safeReadUARTResponse` ends: the loop
is left with the final value of `response`, or the next pass begins. -/
inductive LoopStep where
  | exit (response : AString) (s : Sys)
  | next (st : ReadState)

/-- One pass of the `while` loop of `safeReadUARTResponse`: the loop condition
followed by the body. -/
def readBody (startTime timeout : Nat) (st : ReadState) : Except Fault LoopStep :=
  let s := st.sys
  if u32sub (millis s) startTime < timeout then
    if s.uart.available s.clock then
      let c := (s.uart.read s.clock).1
      let s1 := { s with uart := (s.uart.read s.clock).2,
                         lastUARTActivity := millis s, uartHealthy := true }
      -- the overflow guard that closes the `if (available)` block, then `delay(1)`
      let guard := fun (buffer : List (Option Char)) (bufferIndex : Nat) =>
        if bufferIndex ≥ MAX_RESPONSE_LENGTH - 1 then
          (store buffer (MAX_RESPONSE_LENGTH - 1) NUL).bind fun buffer =>
          (cstr buffer).bind fun response =>
          .ok (.exit response (addLog s1
            (lit "\xE2\x9A\xA0\xEF\xB8\x8F UART response buffer overflow korumas\xC4\xB1 aktif.")
            .WARN (lit "UART")))
        else .ok (.next { sys := delay s1 1, buffer := buffer, bufferIndex := bufferIndex })
      if c = '\n' || c = '\r' then
        if st.bufferIndex > 0 then
          (store st.buffer st.bufferIndex NUL).bind fun buffer =>
          (cstr buffer).bind fun response =>
          .ok (.exit response s1)
        else guard st.buffer st.bufferIndex
      else if 32 ≤ c.toNat && c.toNat ≤ 126 then
        if st.bufferIndex < MAX_RESPONSE_LENGTH - 1 then
          (store st.buffer st.bufferIndex c).bind fun buffer =>
          guard buffer (st.bufferIndex + 1)
        else guard st.buffer st.bufferIndex
      else guard st.buffer st.bufferIndex
    else .ok (.next { st with sys := delay s 1 })
  else .ok (.exit [] s)

/-- The `while` loop of `safeReadUARTResponse`; one unit of fuel is one pass. -/
def readLoop (startTime timeout : Nat) : Nat → ReadState → Except Fault (AString × Sys)
  | 0, _ => .error .outOfFuel
  | fuel + 1, st =>
    (readBody startTime timeout st).bind fun step =>
      match step with
      | .exit response s => .ok (response, s)
      | .next st => readLoop startTime timeout fuel st

/-- `safeReadUARTResponse` of `uart_handler.cpp`.  The local array starts
uninitialised; `timeout + 1` passes are enough because every pass that stays
in the loop ends in `delay(1)`. -/
def safeReadUARTResponse (s : Sys) (timeout : Nat) : Except Fault (AString × Sys) :=
  readLoop (millis s) timeout (timeout + 1)
    { sys := s, buffer := List.replicate MAX_RESPONSE_LENGTH none, bufferIndex := 0 }

/-- The statement `uartErrorCount++` on a 32-bit `int`. -/
def incErrorCount (s : Sys) : Except Fault Sys :=
  if s.uartErrorCount < 2147483647 then .ok { s with uartErrorCount := s.uartErrorCount + 1 }
  else .error .signedOverflow

/-- The text "UART komut gönderildi: " that opens the debug diagnostic of a
fault request. -/
def sentNote : AString := lit "UART komut g\xC3\xB6nderildi: "

/-- The opening statements shared by the three exchange functions: the
input-clearing loop, `println(command)`, `flush()` (which does not change the
machine) and the debug diagnostic made of `note` and the command. -/
def beginExchange (s : Sys) (command note : AString) : Sys :=
  let s := clearInput s
  let s := { s with uart := s.uart.println command }
  addLog s (note ++ command) .DEBUG (lit "UART")

/-- The common body of `requestFirstFault` and `requestNextFault`, which
differ only in the command and in the text of the failure diagnostic. -/
def requestFault (command failure : AString) (s : Sys) : Except Fault (Bool × Sys) :=
  let s := beginExchange s command sentNote
  (safeReadUARTResponse s UART_TIMEOUT).bind fun (response, s) =>
  let s := { s with lastResponse := response }
  if s.lastResponse.length > 0 then
    .ok (true, addLog s (lit "UART yan\xC4\xB1t al\xC4\xB1nd\xC4\xB1: " ++ s.lastResponse)
      .DEBUG (lit "UART"))
  else
    (incErrorCount s).bind fun s =>
    .ok (false, addLog s failure .ERROR (lit "UART"))

/-- `requestFirstFault` of `uart_handler.cpp`. -/
def requestFirstFault (s : Sys) : Except Fault (Bool × Sys) :=
  requestFault (lit "12345v")
    (lit "\xE2\x9D\x8C \xC4\xB0lk ar\xC4\xB1za bilgisi i\xC3\xA7in yan\xC4\xB1t al\xC4\xB1namad\xC4\xB1.") s

/-- `requestNextFault` of `uart_handler.cpp`. -/
def requestNextFault (s : Sys) : Except Fault (Bool × Sys) :=
  requestFault (lit "n")
    (lit "\xE2\x9D\x8C Sonraki ar\xC4\xB1za bilgisi i\xC3\xA7in yan\xC4\xB1t al\xC4\xB1namad\xC4\xB1.") s

/-- `getLastFaultResponse` of `uart_handler.cpp`. -/
def getLastFaultResponse (s : Sys) : AString := s.lastResponse

/-- `updateUARTStats` of `uart_handler.cpp`; the counters are `unsigned long`. -/
def updateUARTStats (s : Sys) (success : Bool) : Sys :=
  let st := { s.uartStats with totalCommands := (s.uartStats.totalCommands + 1) % 4294967296 }
  if success then
    { s with uartStats := { st with
        successfulCommands := (st.successfulCommands + 1) % 4294967296,
        lastSuccessTime := millis s } }
  else
    { s with uartStats := { st with
        failedCommands := (st.failedCommands + 1) % 4294967296,
        lastFailTime := millis s } }

/-- `sendCustomCommand` of `uart_handler.cpp`.  The reference parameter
`response` is passed in and handed back next to the result. -/
def sendCustomCommand (s : Sys) (command : AString) (response : AString) (timeout : Nat) :
    Except Fault (Bool × AString × Sys) :=
  if command.length = 0 || command.length > 50 then
    .ok (false, response,
      addLog s (lit "\xE2\x9D\x8C Ge\xC3\xA7ersiz komut uzunlu\xC4\x9Fu.") .ERROR (lit "UART"))
  else
    let s := beginExchange s command (lit "\xC3\x96zel UART komut: ")
    (safeReadUARTResponse s (if timeout = 0 then UART_TIMEOUT else timeout)).bind
      fun (response, s) =>
    let success := decide (response.length > 0)
    let s := updateUARTStats s success
    if success then
      .ok (success, response,
        addLog s (lit "\xC3\x96zel komut yan\xC4\xB1t\xC4\xB1: " ++ response) .DEBUG (lit "UART"))
    else
      .ok (success, response,
        addLog s (lit "\xE2\x9D\x8C \xC3\x96zel komut i\xC3\xA7in yan\xC4\xB1t al\xC4\xB1namad\xC4\xB1: " ++ command)
          .ERROR (lit "UART"))

/-- `HardwareSerial::begin(baud, ...)`. -/
def Serial.begin (p : Serial) (rate : Int) : Serial :=
  { p with baud := some rate, begins := p.begins + 1 }

/-- `HardwareSerial::end()`. -/
def Serial.close (p : Serial) : Serial := { p with baud := none }

/-- `initUART` of `uart_handler.cpp`; the two `pinMode` calls do not change
the machine. -/
def initUART (s : Sys) : Sys :=
  let s := { s with uart := s.uart.begin s.currentBaudRate }
  let s := clearInput s
  let s := { s with lastUARTActivity := millis s, uartErrorCount := 0, uartHealthy := true }
  addLog s (lit "\xE2\x9C\x85 UART ba\xC5\x9Flat\xC4\xB1ld\xC4\xB1. BaudRate: " ++ ofInt s.currentBaudRate ++
    lit ", RX: " ++ ofInt 4 ++ lit ", TX: " ++ ofInt 2) .SUCCESS (lit "UART")

/-- The table `validBaudRates` of `changeBaudRate` and `loadSettings`. -/
def validBaudRates : List Int := [9600, 19200, 38400, 57600, 115200, 230400, 460800, 921600]

/-- The search loop `for (i = 0; i < 8; i++) if (rate == validBaudRates[i]) ...`
that both functions run over the table. -/
def isValidBaud (rate : Int) : List Int → Bool
  | [] => false
  | v :: rest => if rate = v then true else isValidBaud rate rest

/-- `changeBaudRate` of `uart_handler.cpp`; `flush()` does not change the
machine. -/
def changeBaudRate (s : Sys) (newBaudRate : Int) : Bool × Sys :=
  if !(isValidBaud newBaudRate validBaudRates) then
    (false, addLog s (lit "\xE2\x9D\x8C Ge\xC3\xA7ersiz BaudRate: " ++ ofInt newBaudRate) .ERROR (lit "UART"))
  else
    let s := delay s 100
    let oldBaudRate := s.currentBaudRate
    let s := { s with currentBaudRate := newBaudRate }
    let s := { s with storedBaudRate := some newBaudRate }
    let s := { s with uart := s.uart.close }
    let s := delay s 100
    let s := initUART s
    (true, addLog s (lit "\xF0\x9F\x94\x84 BaudRate de\xC4\x9Fi\xC5\x9Ftirildi: " ++ ofInt oldBaudRate ++ lit " -> " ++ ofInt newBaudRate)
      .SUCCESS (lit "UART"))

/-- `checkUARTHealth` of `uart_handler.cpp`. -/
def checkUARTHealth (s : Sys) : Sys :=
  let now := millis s
  let s :=
    if u32sub now s.lastUARTActivity > 30000 then
      if s.uartHealthy then
        let s := addLog s (lit "\xE2\x9A\xA0\xEF\xB8\x8F UART 30 saniyedir sessiz.") .WARN (lit "UART")
        { s with uartHealthy := false }
      else s
    else s
  if s.uartErrorCount > 5 then
    let s := addLog s (lit "\xF0\x9F\x94\x84 \xC3\x87ok fazla UART hatas\xC4\xB1. Yeniden ba\xC5\x9Flat\xC4\xB1l\xC4\xB1yor...") .WARN (lit "UART")
    let s := initUART s
    { s with uartErrorCount := 0 }
  else s

/-! ## `settings.cpp` -/

/-- The BaudRate block of `loadSettings` of `settings.cpp` (the statements
from `prefs.getLong("baudrate", 115200)` to the assignment of
`settings.currentBaudRate`); the other blocks of the function write fields of
`settings` that this development does not hold. -/
def loadSettings (s : Sys) : Sys :=
  let baudRate := s.storedBaudRate.getD 115200
  let validBaud := isValidBaud baudRate validBaudRates
  if !validBaud then
    let s := addLog s (lit "Ge\xC3\xA7ersiz BaudRate, varsay\xC4\xB1lan 115200 kullan\xC4\xB1l\xC4\xB1yor.") .WARN (lit "SETTINGS")
    { s with currentBaudRate := 115200 }
  else { s with currentBaudRate := baudRate }

/-! ## `ntp_handler.cpp`: configuration push and backend reader -/

/-- The macro `MAX_DATA_BUFFER`. -/
def MAX_DATA_BUFFER : Nat := 32

/-- The macro `MAX_MESSAGE_LENGTH`. -/
def MAX_MESSAGE_LENGTH : Nat := 128

/-- `String::trim()`: white space is removed from both ends. -/
def trim (s : AString) : AString :=
  ((s.dropWhile isSpace).reverse.dropWhile isSpace).reverse

/-- `String::operator==(const char*)`, which is `strcmp` on the buffer: the
bytes before the first `'\0'` are compared with the literal. -/
def eqLit (s : AString) (literal : AString) : Bool :=
  s.takeWhile (fun c => c ≠ Char.ofNat 0) == literal

/-- The `return` statement through which `sendNTPConfigToBackend` is left:
the empty-server guard, the length guard, the ACK branch, the NACK branch, or
the end of the function after the wait ran out. -/
inductive PushOutcome where
  | noServer | tooLong | ack | nack | timedOut
  deriving DecidableEq

/-- The machine and the local `responseBuffer` of `sendNTPConfigToBackend`. -/
structure AckState where
  sys : Sys
  responseBuffer : AString

/-- How one pass of the wait loop of `sendNTPConfigToBackend` ends: a `return`
inside the loop, the loop condition failing, or the next pass. -/
inductive AckStep where
  | exit (o : PushOutcome) (s : Sys)
  | next (st : AckState)

/-- One pass of the wait loop of `sendNTPConfigToBackend`: the loop condition
followed by the body. -/
def ackBody (startTime : Nat) (st : AckState) : AckStep :=
  let s := st.sys
  if u32sub (millis s) startTime < 3000 then
    if s.backendSerial.available s.clock then
      let c := (s.backendSerial.read s.clock).1
      let s := { s with backendSerial := (s.backendSerial.read s.clock).2 }
      if c = '\n' || c = '\r' then
        let responseBuffer := trim st.responseBuffer
        if eqLit responseBuffer (lit "ACK") then
          .exit .ack (addLog s (lit "\xE2\x9C\x85 Arka porttan NTP ayarlar\xC4\xB1 i\xC3\xA7in ACK al\xC4\xB1nd\xC4\xB1.") .SUCCESS (lit "NTP"))
        else if eqLit responseBuffer (lit "NACK") then
          .exit .nack (addLog s (lit "\xE2\x9D\x8C Arka port NTP ayarlar\xC4\xB1n\xC4\xB1 reddetti.") .ERROR (lit "NTP"))
        else .next { sys := delay s 10, responseBuffer := [] }
      else
        let responseBuffer := st.responseBuffer ++ [c]
        if responseBuffer.length > 10 then
          .next { sys := delay s 10, responseBuffer := [] }
        else .next { sys := delay s 10, responseBuffer := responseBuffer }
    else .next { st with sys := delay s 10 }
  else .exit .timedOut s

/-- The wait loop of `sendNTPConfigToBackend`; one unit of fuel is one pass. -/
def ackLoop (startTime : Nat) : Nat → AckState → Except Fault (PushOutcome × Sys)
  | 0, _ => .error .outOfFuel
  | fuel + 1, st =>
    match ackBody startTime st with
    | .exit o s => .ok (o, s)
    | .next st => ackLoop startTime fuel st

/-- `sendNTPConfigToBackend` of `ntp_handler.cpp`.  The function is `void`;
the value handed back names the `return` taken.  301 passes are enough for
the wait because every pass that stays in the loop ends in `delay(10)`. -/
def sendNTPConfigToBackend (s : Sys) : Except Fault (PushOutcome × Sys) :=
  if s.ntpConfig.ntpServer1.length = 0 then
    .ok (.noServer, addLog s (lit "NTP sunucu adresi bo\xC5\x9F, arka porta g\xC3\xB6nderilmiyor.") .WARN (lit "NTP"))
  else
    let message := lit "NTP_UPDATE;" ++ s.ntpConfig.ntpServer1 ++ lit ";" ++ s.ntpConfig.ntpServer2
    if message.length > MAX_MESSAGE_LENGTH then
      .ok (.tooLong, addLog s (lit "NTP ayar\xC4\xB1 mesaj\xC4\xB1 \xC3\xA7ok uzun, g\xC3\xB6nderilemedi.") .ERROR (lit "NTP"))
    else
      let s := { s with backendSerial := s.backendSerial.println message }
      let s := addLog s (lit "Arka porta NTP ayarlar\xC4\xB1 g\xC3\xB6nderildi: " ++ message) .INFO (lit "NTP")
      (ackLoop (millis s) 301 { sys := s, responseBuffer := [] }).bind fun (o, s) =>
      if o = .timedOut then
        .ok (o, addLog s (lit "\xE2\x9A\xA0\xEF\xB8\x8F Arka porttan ACK al\xC4\xB1namad\xC4\xB1 (timeout).") .WARN (lit "NTP"))
      else .ok (o, s)

/-- The body of the `while` loop of `readBackendData`, for the byte `c` just
read. -/
def backendByte (s : Sys) (c : Char) : Sys :=
  let s := { s with lastActivity := some (millis s) }
  if c = '\n' || c = '\r' then
    if s.dataBuffer.length > 0 then
      let s := parseTimeData s s.dataBuffer
      { s with dataBuffer := [] }
    else s
  else
    let s := { s with dataBuffer := s.dataBuffer ++ [c] }
    if s.dataBuffer.length > MAX_DATA_BUFFER then
      let s := addLog s (lit "Backend veri buffer\x27\xC4\xB1 overflow, temizleniyor.") .WARN (lit "NTP")
      { s with dataBuffer := [] }
    else s

/-- The `while (backendSerial.available())` loop of `readBackendData`, run on
the receive FIFO `fifo` of the machine: no time passes inside the loop, so it
takes every byte that has arrived by now, in order. -/
def backendLoop : List (Nat × Char) → Sys → Sys
  | [], s => s
  | (t, c) :: rest, s =>
    if t ≤ s.clock then
      backendLoop rest
        (backendByte { s with backendSerial := { s.backendSerial with rx := rest } } c)
    else s

/-- `readBackendData` of `ntp_handler.cpp`. -/
def readBackendData (s : Sys) : Sys :=
  let s := match s.lastActivity with
    | none => { s with lastActivity := some (millis s) }
    | some _ => s
  let s := backendLoop s.backendSerial.rx s
  if s.dataBuffer.length > 0 && u32sub (millis s) (s.lastActivity.getD 0) > 5000 then
    { s with dataBuffer := [] }
  else s

/-! ## `ntp_handler.cpp`: stored settings and the periodic processor -/

/-- `String::indexOf(char)`, which is `strchr` on the buffer from position
`i`: the position of the first occurrence of `c` before any `'\0'`, or -1. -/
def indexOfFrom : List Char → Char → Nat → Int
  | [], _, _ => -1
  | x :: xs, c, i =>
    if x = c then (i : Int) else if x = Char.ofNat 0 then -1 else indexOfFrom xs c (i + 1)

/-- `String::indexOf(char)`. -/
def indexOf (s : AString) (c : Char) : Int := indexOfFrom s c 0

/-- `String::toCharArray(buf, bufsize)` for `bufsize > 0`: at most
`bufsize - 1` bytes are copied by `strncpy` and a `'\0'` closes them; the
value is the C string that the array then holds. -/
def toCharArray (s : AString) (bufsize : Nat) : AString :=
  (s.take (bufsize - 1)).takeWhile fun c => c ≠ Char.ofNat 0

/-- Modelled from the spec: the size of the arrays `ntpServer1` and
`ntpServer2` of `NTPConfig`; `ntp_handler.h` is not part of the sources and
the specification gives 63 characters as the longest stored name. -/
def NTP_SERVER_SIZE : Nat := 64

/-- `IPAddress::fromString` of the Arduino core for the ESP32, which
`isValidIPOrDomain` calls; `acc` and `dots` are its two locals.  The core is
not part of the sources. -/
def fromStringLoop : List Char → Nat → Nat → Bool
  | [], _, dots => dots == 3
  | c :: cs, acc, dots =>
    if c = Char.ofNat 0 then dots == 3
    else if '0' ≤ c && c ≤ '9' then
      let acc := acc * 10 + (c.toNat - 48)
      if acc > 255 then false else fromStringLoop cs acc dots
    else if c = '.' then
      if dots = 3 then false else fromStringLoop cs 0 (dots + 1)
    else false

/-- `IPAddress::fromString`. -/
def IPAddress.fromString (address : AString) : Bool := fromStringLoop address 0 0

/-- The `for (char c : address)` loop of `isValidIPOrDomain`: the values of
`dots` and `isIP` when the loop is left. -/
def scanAddress : List Char → Int → Int × Bool
  | [], dots => (dots, true)
  | c :: cs, dots =>
    if c = '.' then scanAddress cs (dots + 1)
    else if c < '0' || c > '9' then (dots, false)
    else scanAddress cs dots

/-- `isValidIPOrDomain` of `ntp_handler.cpp`. -/
def isValidIPOrDomain (address : AString) : Bool :=
  if address.length < 7 || address.length > 253 then false
  else
    let dots := (scanAddress address 0).1
    let isIP := (scanAddress address 0).2
    if isIP && dots == 3 then IPAddress.fromString address
    else if indexOf address '.' > 0 && indexOf address ' ' == -1 then true
    else false

/-- `saveNTPSettings` of `ntp_handler.cpp`. -/
def saveNTPSettings (s : Sys) (server1 server2 : AString) (timezone : Int) :
    Except Fault (Bool × Sys) :=
  if !isValidIPOrDomain server1 then
    .ok (false, addLog s (lit "Ge\xC3\xA7ersiz birincil NTP sunucu adresi.") .ERROR (lit "NTP"))
  else if server2.length > 0 && !isValidIPOrDomain server2 then
    .ok (false, addLog s (lit "Ge\xC3\xA7ersiz ikincil NTP sunucu adresi.") .ERROR (lit "NTP"))
  else if timezone < -12 || timezone > 14 then
    .ok (false, addLog s (lit "Ge\xC3\xA7ersiz zaman dilimi (-12 ile +14 aras\xC4\xB1nda olmal\xC4\xB1).") .ERROR (lit "NTP"))
  else
    let s := { s with ntpPrefs := { ntp_server1 := some server1, ntp_server2 := some server2,
                                    timezone := some timezone, enabled := some true } }
    let s := { s with ntpConfig := { ntpServer1 := toCharArray server1 NTP_SERVER_SIZE,
                                     ntpServer2 := toCharArray server2 NTP_SERVER_SIZE,
                                     timezone := timezone, enabled := true } }
    let s := { s with ntpConfigured := true }
    let s := addLog s (lit "\xE2\x9C\x85 NTP ayarlar\xC4\xB1 kaydedildi: " ++ server1 ++ lit ", " ++ server2) .SUCCESS (lit "NTP")
    (sendNTPConfigToBackend s).bind fun (_, s) => .ok (true, s)

/-- `processReceivedData` of `ntp_handler.cpp`. -/
def processReceivedData (s : Sys) : Sys :=
  let s := readBackendData s
  if s.receivedTime.isValid && u32sub (millis s) s.receivedTime.lastUpdate > 60000 then
    let s := { s with receivedTime := { s.receivedTime with isValid := false } }
    addLog s (lit "\xE2\x9D\x8C Arka porttan 60 saniyedir veri al\xC4\xB1nam\xC4\xB1yor (timeout).") .ERROR (lit "NTP")
  else s

/-! ## Vocabulary of the statements -/

/-- The value of a decimal digit character. -/
def digitVal (c : Char) : Nat := c.toNat - 48

/-- The number written by two decimal digit characters. -/
def twoDigit (a b : Char) : Nat := 10 * digitVal a + digitVal b

/-- A printable ASCII byte, 0x20..0x7E. -/
def Printable (c : Char) : Prop := 32 ≤ c.toNat ∧ c.toNat ≤ 126

/-- The local array of `safeReadUARTResponse` holds exactly the bytes `acc`
in its first cells, `bufferIndex` counts them, and there is room left. -/
def Holds (st : ReadState) (acc : List Char) : Prop :=
  st.buffer.length = 256 ∧ st.bufferIndex = acc.length ∧ acc.length < 255 ∧
    st.buffer.take acc.length = acc.map some ∧ ∀ c ∈ acc, Printable c

/-- What the line reader leaves alone: everything except the clock, the log,
the receive FIFO of the fault channel, `lastUARTActivity` and `uartHealthy`. -/
def Untouched (s s' : Sys) : Prop :=
  s'.uartErrorCount = s.uartErrorCount ∧ s'.uartStats = s.uartStats ∧
    s'.lastResponse = s.lastResponse ∧ s'.receivedTime = s.receivedTime ∧
    s'.backendSerial = s.backendSerial ∧ s'.uart.tx = s.uart.tx

/-- A line terminator, `'\n'` or `'\r'`. -/
def IsTerminator (c : Char) : Prop := c = '\n' ∨ c = '\r'

instance instDecidablePrintable (c : Char) : Decidable (Printable c) :=
  inferInstanceAs (Decidable (32 ≤ c.toNat ∧ c.toNat ≤ 126))

instance instDecidableIsTerminator (c : Char) : Decidable (IsTerminator c) :=
  inferInstanceAs (Decidable (c = '\n' ∨ c = '\r'))

/-- The clock value at which the line reader, polling once per millisecond
from clock value `now` and taking one byte per pass, has got through the
timed bytes `stream`: each byte is taken by the first pass at or after its
arrival, and the pass then ends in `delay(1)`. -/
def finishAt (now : Nat) : List (Nat × Char) → Nat
  | [] => now
  | (a, _) :: rest => finishAt (max a now + 1) rest

/-- The machine after the line reader has taken a byte from a FIFO whose
remaining content is `rest`. -/
def afterByte (s : Sys) (rest : List (Nat × Char)) : Sys :=
  { s with uart := { s.uart with rx := rest }, lastUARTActivity := millis s, uartHealthy := true }

/-- The overflow diagnostic of `safeReadUARTResponse`. -/
def overflowWarning : LogEntry :=
  { message := lit "\xE2\x9A\xA0\xEF\xB8\x8F UART response buffer overflow korumas\xC4\xB1 aktif.",
    level := .WARN, source := lit "UART" }

/-- The debug diagnostic that a fault request logs for the response `line`. -/
def receivedEntry (line : AString) : LogEntry :=
  { message := lit "UART yan\xC4\xB1t al\xC4\xB1nd\xC4\xB1: " ++ line, level := .DEBUG,
    source := lit "UART" }

/-- The debug diagnostic that a fault request logs for the command it sends. -/
def sentEntry (command : AString) : LogEntry :=
  { message := sentNote ++ command, level := .DEBUG, source := lit "UART" }

/-- The overflow diagnostic of `readBackendData`. -/
def backendOverflowWarning : LogEntry :=
  { message := lit "Backend veri buffer\x27\xC4\xB1 overflow, temizleniyor.", level := .WARN, source := lit "NTP" }

/-- The silence diagnostic of `checkUARTHealth`. -/
def silenceWarning : LogEntry :=
  { message := lit "\xE2\x9A\xA0\xEF\xB8\x8F UART 30 saniyedir sessiz.", level := .WARN, source := lit "UART" }

/-- A run of `checkUARTHealth` calls with nothing in between but the passing
of time: before each call the clock advances by the next entry of the list. -/
def healthChecks : List Nat → Sys → Sys
  | [], s => s
  | d :: ds, s => healthChecks ds (checkUARTHealth (delay s d))

/-- One of the eight baud rates 9600, 19200, 38400, 57600, 115200, 230400,
460800, 921600. -/
def OneOfEight (b : Int) : Prop :=
  b = 9600 ∨ b = 19200 ∨ b = 38400 ∨ b = 57600 ∨ b = 115200 ∨ b = 230400 ∨
    b = 460800 ∨ b = 921600

/-- The machines that the modelled firmware can be in once `loadSettings` has
run: whatever `loadSettings` leaves, followed by any calls of
`changeBaudRate`, `checkUARTHealth`, `initUART`, `parseTimeData` and any
passing of time. -/
inductive Reachable : Sys → Prop where
  | boot (s : Sys) : Reachable (loadSettings s)
  | change (s : Sys) (b : Int) : Reachable s → Reachable (changeBaudRate s b).2
  | health (s : Sys) : Reachable s → Reachable (checkUARTHealth s)
  | init (s : Sys) : Reachable s → Reachable (initUART s)
  | parse (s : Sys) (data : AString) : Reachable s → Reachable (parseTimeData s data)
  | tick (s : Sys) (d : Nat) : Reachable s → Reachable (delay s d)

/-- The machine after a byte has been read from the backend FIFO, whose
remaining content is `rest`. -/
def backendPopped (s : Sys) (rest : List (Nat × Char)) : Sys :=
  { s with backendSerial := { s.backendSerial with rx := rest } }

/-- The success diagnostic of `sendNTPConfigToBackend` for an ACK. -/
def ackEntry : LogEntry :=
  { message := lit "\xE2\x9C\x85 Arka porttan NTP ayarlar\xC4\xB1 i\xC3\xA7in ACK al\xC4\xB1nd\xC4\xB1.", level := .SUCCESS, source := lit "NTP" }

/-- The error diagnostic of `sendNTPConfigToBackend` for a NACK. -/
def nackEntry : LogEntry :=
  { message := lit "\xE2\x9D\x8C Arka port NTP ayarlar\xC4\xB1n\xC4\xB1 reddetti.", level := .ERROR, source := lit "NTP" }

/-- The warning of `sendNTPConfigToBackend` when the wait runs out. -/
def timeoutEntry : LogEntry :=
  { message := lit "\xE2\x9A\xA0\xEF\xB8\x8F Arka porttan ACK al\xC4\xB1namad\xC4\xB1 (timeout).", level := .WARN, source := lit "NTP" }

/-- The error diagnostic of `sendNTPConfigToBackend` for a message that is too long. -/
def tooLongEntry : LogEntry :=
  { message := lit "NTP ayar\xC4\xB1 mesaj\xC4\xB1 \xC3\xA7ok uzun, g\xC3\xB6nderilemedi.", level := .ERROR, source := lit "NTP" }

/-- The diagnostic of `sendNTPConfigToBackend` for the message it has written. -/
def pushedEntry (message : AString) : LogEntry :=
  { message := lit "Arka porta NTP ayarlar\xC4\xB1 g\xC3\xB6nderildi: " ++ message, level := .INFO, source := lit "NTP" }

/-- The message that `sendNTPConfigToBackend` builds from the stored configuration. -/
def pushMessage (s : Sys) : AString :=
  lit "NTP_UPDATE;" ++ s.ntpConfig.ntpServer1 ++ lit ";" ++ s.ntpConfig.ntpServer2

/-- The diagnostic that the wait loop of `sendNTPConfigToBackend` logs before
a `return` inside the loop. -/
def outcomeLog : PushOutcome → List LogEntry
  | .ack => [ackEntry]
  | .nack => [nackEntry]
  | _ => []

/-- The clock value of the first pass of the wait loop of
`sendNTPConfigToBackend`, which polls every 10 ms from clock value `now`,
that finds a byte arriving at clock value `a`. -/
def ackPass (now a : Nat) : Nat :=
  if a ≤ now then now else now + 10 * ((a - now + 9) / 10)

/-- The clock value at which the wait loop of `sendNTPConfigToBackend`,
polling every 10 ms from clock value `now` and taking one byte per pass, has
got through the timed bytes `stream` (each pass ends in `delay(10)`). -/
def ackFinish (now : Nat) : List (Nat × Char) → Nat
  | [] => now
  | (a, _) :: rest => ackFinish (ackPass now a + 10) rest

/-- The machine and the empty `responseBuffer` with which the wait loop of
`sendNTPConfigToBackend` is entered, once the message has been written and
logged. -/
def pushed (s : Sys) : AckState :=
  { sys := addLog { s with backendSerial := s.backendSerial.println (pushMessage s) }
      (pushedEntry (pushMessage s)).message .INFO (lit "NTP"),
    responseBuffer := [] }

/-- The tokens of a byte stream as `sendNTPConfigToBackend` delimits them,
for the bytes `bytes` read after `buf`: one token at every terminator, made
of the bytes received since the previous terminator or, when more than 10
bytes had come in since then, since the byte that exceeded the cap of 10
(that byte and all before it are dropped). -/
def tokensFrom : AString → List Char → List AString
  | _, [] => []
  | buf, c :: cs =>
    if IsTerminator c then buf :: tokensFrom [] cs
    else if (buf ++ [c]).length > 10 then tokensFrom [] cs
    else tokensFrom (buf ++ [c]) cs

/-- The byte stream `bytes` has a token that `trim()` and the comparison with
`literal` accept. -/
def HasToken (bytes : List Char) (literal : AString) : Prop :=
  ∃ tok ∈ tokensFrom [] bytes, eqLit (trim tok) literal = true

instance instDecidableHasToken (bytes : List Char) (literal : AString) :
    Decidable (HasToken bytes literal) :=
  inferInstanceAs (Decidable (∃ tok ∈ tokensFrom [] bytes, eqLit (trim tok) literal = true))

/-- The deadline property of `sendCustomCommand` as the specification words
it, for a call made in machine `s` with requested timeout `t`: the call
returns success with a non-empty response no later than `t` ms after it
began, or it returns failure after at least `t` ms have passed. -/
def MeetsDeadline (s : Sys) (command : AString) (t : Nat) : Prop :=
  ∃ r s', (sendCustomCommand s command [] t = .ok (true, r, s') ∧ r ≠ [] ∧
            s'.clock ≤ s.clock + t) ∨
          (sendCustomCommand s command [] t = .ok (false, r, s') ∧ s.clock + t ≤ s'.clock)

/-- The grounds on which `saveNTPSettings` refuses its arguments: the first
server name fails `isValidIPOrDomain`, or the second one is not empty and
fails it, or the time zone is below -12 or above 14. -/
def Refused (server1 server2 : AString) (timezone : Int) : Prop :=
  isValidIPOrDomain server1 = false ∨ (server2 ≠ [] ∧ isValidIPOrDomain server2 = false) ∨
    timezone < -12 ∨ 14 < timezone

/-- A string made only of decimal digits and dots. -/
def DigitsAndDots (a : AString) : Prop := ∀ c ∈ a, c = '.' ∨ c.isDigit = true

/-- The number that `IPAddress::fromString` has accumulated after the digits
`g`, starting from `acc`. -/
def octetFrom (acc : Nat) (g : List Char) : Nat :=
  g.foldl (fun a c => a * 10 + (c.toNat - 48)) acc

/-- The number written by the group of decimal digits `g`. -/
def octet (g : List Char) : Nat := octetFrom 0 g

/-- One step of a run of fault requests: a call of `requestFirstFault`, a
call of `requestNextFault`, or the passing of `ms` milliseconds. -/
inductive FaultStep where
  | first
  | next
  | wait (ms : Nat)

/-- A run of fault requests with nothing in between but the passing of time;
the value lists the results of the calls, in order. -/
def runFaults : List FaultStep → Sys → Except Fault (List Bool × Sys)
  | [], s => .ok ([], s)
  | .wait ms :: rest, s => runFaults rest (delay s ms)
  | .first :: rest, s =>
    (requestFirstFault s).bind fun (ok, s) =>
    (runFaults rest s).bind fun (oks, s) => .ok (ok :: oks, s)
  | .next :: rest, s =>
    (requestNextFault s).bind fun (ok, s) =>
    (runFaults rest s).bind fun (oks, s) => .ok (ok :: oks, s)

/-- A valid date frame: six digits DDMMYY with 01 ≤ DD ≤ 31, 01 ≤ MM ≤ 12 and
20 ≤ YY ≤ 99, closed by a character in 'A'..'Z'. -/
def ValidDateFrame (data : AString) : Prop :=
  ∃ d1 d2 m1 m2 y1 y2 c, data = [d1, d2, m1, m2, y1, y2, c] ∧
    d1.isDigit = true ∧ d2.isDigit = true ∧ m1.isDigit = true ∧ m2.isDigit = true ∧
    y1.isDigit = true ∧ y2.isDigit = true ∧
    (1 ≤ twoDigit d1 d2 ∧ twoDigit d1 d2 ≤ 31) ∧ (1 ≤ twoDigit m1 m2 ∧ twoDigit m1 m2 ≤ 12) ∧
    (20 ≤ twoDigit y1 y2 ∧ twoDigit y1 y2 ≤ 99) ∧ 'A' ≤ c ∧ c ≤ 'Z'

/-- A valid time frame: six digits HHMMSS with HH ≤ 23, MM ≤ 59 and SS ≤ 59,
closed by a character in 'a'..'z'. -/
def ValidTimeFrame (data : AString) : Prop :=
  ∃ a1 a2 m1 m2 s1 s2 c, data = [a1, a2, m1, m2, s1, s2, c] ∧
    a1.isDigit = true ∧ a2.isDigit = true ∧ m1.isDigit = true ∧ m2.isDigit = true ∧
    s1.isDigit = true ∧ s2.isDigit = true ∧
    twoDigit a1 a2 ≤ 23 ∧ twoDigit m1 m2 ≤ 59 ∧ twoDigit s1 s2 ≤ 59 ∧ 'a' ≤ c ∧ c ≤ 'z'

/-- A date frame, valid or not: seven bytes of which the last is in 'A'..'Z'. -/
def DateFrame (data : AString) : Prop :=
  data.length = 7 ∧ 'A' ≤ charAt data 6 ∧ charAt data 6 ≤ 'Z'

/-- A run of `parseTimeData` calls: before each frame is decoded the clock
advances by the number paired with it. -/
def feedFrames : List (Nat × AString) → Sys → Sys
  | [], s => s
  | (d, frame) :: rest, s => feedFrames rest (parseTimeData (delay s d) frame)

/-- The diagnostic of `parseTimeData` for a line that is not 7 bytes long. -/
def formatEntry (data : AString) : LogEntry :=
  { message := lit "Arka porttan ge\xC3\xA7ersiz formatta veri: " ++ data, level := .WARN,
    source := lit "NTP" }

/-- The diagnostic of `processReceivedData` when the time data has gone stale. -/
def staleEntry : LogEntry :=
  { message := lit "\xE2\x9D\x8C Arka porttan 60 saniyedir veri al\xC4\xB1nam\xC4\xB1yor (timeout).",
    level := .ERROR, source := lit "NTP" }

/-! ## Test data -/

/-- A freshly initialised machine at clock value `t` with nothing inbound. -/
def idle (t : Nat) : Sys :=
  { clock := t
    log := []
    receivedTime := { date := [], time := [], isValid := false, lastUpdate := 0 }
    backendSerial := { rx := [], tx := [], baud := none, begins := 0 }
    uart := { rx := [], tx := [], baud := none, begins := 0 }
    lastResponse := []
    lastUARTActivity := 0
    uartErrorCount := 0
    uartHealthy := true
    uartStats := { totalCommands := 0, successfulCommands := 0, failedCommands := 0,
                   lastSuccessTime := 0, lastFailTime := 0 }
    dataBuffer := []
    lastActivity := none
    ntpConfig := { ntpServer1 := [], ntpServer2 := [], timezone := 0, enabled := false }
    ntpConfigured := false
    currentBaudRate := 0
    storedBaudRate := none
    ntpPrefs := { ntp_server1 := none, ntp_server2 := none, timezone := none, enabled := none } }

/-- A machine at clock value 50 whose backend FIFO holds 33 bytes 'X'. -/
def flooded : Sys :=
  { idle 50 with backendSerial := { (idle 50).backendSerial with rx := List.replicate 33 (7, 'X') } }

/-- A machine at clock value 40000 that is Degraded and has 6 errors. -/
def degraded : Sys :=
  { idle 40000 with uartErrorCount := 6, uartHealthy := false }

/-- A machine at clock value `t` that holds the configuration "pool.ntp.org",
"time.google.com" and whose backend channel will deliver `bytes`. -/
def configured (t : Nat) (bytes : List (Nat × Char)) : Sys :=
  { idle t with
    ntpConfig := { ntpServer1 := lit "pool.ntp.org", ntpServer2 := lit "time.google.com",
                   timezone := 3, enabled := true }
    backendSerial := { (idle t).backendSerial with rx := bytes } }

/-- A machine whose stored server names are 63 characters each, so that the
configuration message has 138 bytes. -/
def overlong : Sys :=
  { idle 5 with
    ntpConfig := { ntpServer1 := List.replicate 63 'a', ntpServer2 := List.replicate 63 'b',
                   timezone := 3, enabled := true } }

/-- The bytes of `text`, all arriving at clock value `t`. -/
def arriving (t : Nat) (text : String) : List (Nat × Char) := text.toList.map fun c => (t, c)

/-- A machine at clock value `t` whose backend FIFO holds the bytes of `text`,
all of which arrived at clock value 0. -/
def fed (t : Nat) (text : String) : Sys :=
  { idle t with backendSerial := { (idle t).backendSerial with rx := arriving 0 text } }

/-- A machine with nothing inbound that decoded the time frame "153045b" at
clock value 0 and has reached clock value `t` since. -/
def heard (t : Nat) : Sys := delay (parseTimeData (idle 0) (lit "153045b")) t

/-- A machine whose fault channel will deliver `bytes`. -/
def withRx (t : Nat) (bytes : List (Nat × Char)) : Sys :=
  { idle t with uart := { (idle t).uart with rx := bytes } }

/-! ## Lemmas on digits -/

theorem isDigit_cases (c : Char) (h : c.isDigit = true) :
    c = '0' ∨ c = '1' ∨ c = '2' ∨ c = '3' ∨ c = '4' ∨ c = '5' ∨ c = '6' ∨ c = '7' ∨
      c = '8' ∨ c = '9' := by
  have h1 : 48 ≤ c.toNat ∧ c.toNat ≤ 57 := by
    simp only [Char.isDigit, Bool.and_eq_true, decide_eq_true_eq] at h
    exact ⟨h.1, h.2⟩
  have h2 : c = Char.ofNat c.toNat := (Char.ofNat_toNat c).symm
  obtain ⟨ha, hb⟩ := h1
  generalize c.toNat = n at h2 ha hb
  subst h2
  interval_cases n <;> simp


theorem toInt_two_digits (a b : Char) (ha : a.isDigit = true) (hb : b.isDigit = true) :
    toInt [a, b] = ((twoDigit a b : Nat) : Int) := by
  rcases isDigit_cases a ha with rfl | rfl | rfl | rfl | rfl | rfl | rfl | rfl | rfl | rfl <;>
  rcases isDigit_cases b hb with rfl | rfl | rfl | rfl | rfl | rfl | rfl | rfl | rfl | rfl <;>
  decide

theorem pad_two_digits (a b : Char) (ha : a.isDigit = true) (hb : b.isDigit = true) :
    lit (if ((twoDigit a b : Nat) : Int) < 10 then "0" else "") ++
      ofInt ((twoDigit a b : Nat) : Int) = [a, b] := by
  rcases isDigit_cases a ha with rfl | rfl | rfl | rfl | rfl | rfl | rfl | rfl | rfl | rfl <;>
  rcases isDigit_cases b hb with rfl | rfl | rfl | rfl | rfl | rfl | rfl | rfl | rfl | rfl <;>
  decide

theorem year_two_digits (a b : Char) (ha : a.isDigit = true) (hb : b.isDigit = true) :
    ofInt (2000 + ((twoDigit a b : Nat) : Int)) = ['2', '0', a, b] := by
  rcases isDigit_cases a ha with rfl | rfl | rfl | rfl | rfl | rfl | rfl | rfl | rfl | rfl <;>
  rcases isDigit_cases b hb with rfl | rfl | rfl | rfl | rfl | rfl | rfl | rfl | rfl | rfl <;>
  decide


/-! ## The time frame decoder -/

theorem formatDate_digits (d1 d2 m1 m2 y1 y2 : Char)
    (h1 : d1.isDigit = true) (h2 : d2.isDigit = true) (h3 : m1.isDigit = true)
    (h4 : m2.isDigit = true) (h5 : y1.isDigit = true) (h6 : y2.isDigit = true) :
    formatDate [d1, d2, m1, m2, y1, y2] =
      if twoDigit d1 d2 < 1 ∨ 31 < twoDigit d1 d2 ∨ twoDigit m1 m2 < 1 ∨ 12 < twoDigit m1 m2 ∨
          twoDigit y1 y2 < 20 then invalidDate
      else [d1, d2, '.', m1, m2, '.', '2', '0', y1, y2] := by
  have hy : twoDigit y1 y2 ≤ 99 := by
    rcases isDigit_cases y1 h5 with rfl | rfl | rfl | rfl | rfl | rfl | rfl | rfl | rfl | rfl <;>
    rcases isDigit_cases y2 h6 with rfl | rfl | rfl | rfl | rfl | rfl | rfl | rfl | rfl | rfl <;>
    decide
  have e1 : substring [d1, d2, m1, m2, y1, y2] 0 2 = [d1, d2] := by simp [substring]
  have e2 : substring [d1, d2, m1, m2, y1, y2] 2 4 = [m1, m2] := by simp [substring]
  have e3 : substring [d1, d2, m1, m2, y1, y2] 4 6 = [y1, y2] := by simp [substring]
  unfold formatDate
  simp only [e1, e2, e3, toInt_two_digits _ _ h1 h2, toInt_two_digits _ _ h3 h4,
    toInt_two_digits _ _ h5 h6]
  by_cases hc : twoDigit d1 d2 < 1 ∨ 31 < twoDigit d1 d2 ∨ twoDigit m1 m2 < 1 ∨
      12 < twoDigit m1 m2 ∨ twoDigit y1 y2 < 20
  · rw [if_pos hc]
    have : (decide (((twoDigit d1 d2 : Nat) : Int) < 1) || decide (((twoDigit d1 d2 : Nat) : Int) > 31)
        || decide (((twoDigit m1 m2 : Nat) : Int) < 1) || decide (((twoDigit m1 m2 : Nat) : Int) > 12)
        || decide (2000 + ((twoDigit y1 y2 : Nat) : Int) < 2020)
        || decide (2000 + ((twoDigit y1 y2 : Nat) : Int) > 2099)) = true := by
      simp only [Bool.or_eq_true, decide_eq_true_eq]
      omega
    rw [this]
    simp
  · rw [if_neg hc]
    have : (decide (((twoDigit d1 d2 : Nat) : Int) < 1) || decide (((twoDigit d1 d2 : Nat) : Int) > 31)
        || decide (((twoDigit m1 m2 : Nat) : Int) < 1) || decide (((twoDigit m1 m2 : Nat) : Int) > 12)
        || decide (2000 + ((twoDigit y1 y2 : Nat) : Int) < 2020)
        || decide (2000 + ((twoDigit y1 y2 : Nat) : Int) > 2099)) = false := by
      simp only [Bool.or_eq_false_iff, decide_eq_false_iff_not]
      omega
    rw [this]
    simp only [List.length_cons, List.length_nil, ne_eq, not_true_eq_false, if_false,
      Bool.false_eq_true]
    have p1 := pad_two_digits d1 d2 h1 h2
    have p2 := pad_two_digits m1 m2 h3 h4
    have p3 := year_two_digits y1 y2 h5 h6
    rw [List.append_assoc (lit _ ++ ofInt _ ++ lit "."), List.append_assoc (lit _ ++ ofInt _), p1,
      List.append_assoc _ (lit "."), p2, p3]
    rfl


theorem formatTime_digits (h1 h2 m1 m2 s1 s2 : Char)
    (d1 : h1.isDigit = true) (d2 : h2.isDigit = true) (d3 : m1.isDigit = true)
    (d4 : m2.isDigit = true) (d5 : s1.isDigit = true) (d6 : s2.isDigit = true) :
    formatTime [h1, h2, m1, m2, s1, s2] =
      if 23 < twoDigit h1 h2 ∨ 59 < twoDigit m1 m2 ∨ 59 < twoDigit s1 s2 then invalidTime
      else [h1, h2, ':', m1, m2, ':', s1, s2] := by
  have e1 : substring [h1, h2, m1, m2, s1, s2] 0 2 = [h1, h2] := by simp [substring]
  have e2 : substring [h1, h2, m1, m2, s1, s2] 2 4 = [m1, m2] := by simp [substring]
  have e3 : substring [h1, h2, m1, m2, s1, s2] 4 6 = [s1, s2] := by simp [substring]
  unfold formatTime
  simp only [e1, e2, e3, toInt_two_digits _ _ d1 d2, toInt_two_digits _ _ d3 d4,
    toInt_two_digits _ _ d5 d6]
  by_cases hc : 23 < twoDigit h1 h2 ∨ 59 < twoDigit m1 m2 ∨ 59 < twoDigit s1 s2
  · rw [if_pos hc]
    have : (decide (((twoDigit h1 h2 : Nat) : Int) > 23) || decide (((twoDigit m1 m2 : Nat) : Int) > 59)
        || decide (((twoDigit s1 s2 : Nat) : Int) > 59)) = true := by
      simp only [Bool.or_eq_true, decide_eq_true_eq]
      omega
    rw [this]
    simp
  · rw [if_neg hc]
    have : (decide (((twoDigit h1 h2 : Nat) : Int) > 23) || decide (((twoDigit m1 m2 : Nat) : Int) > 59)
        || decide (((twoDigit s1 s2 : Nat) : Int) > 59)) = false := by
      simp only [Bool.or_eq_false_iff, decide_eq_false_iff_not]
      omega
    rw [this]
    simp only [List.length_cons, List.length_nil, ne_eq, not_true_eq_false, if_false,
      Bool.false_eq_true]
    have p1 := pad_two_digits h1 h2 d1 d2
    have p2 := pad_two_digits m1 m2 d3 d4
    have p3 := pad_two_digits s1 s2 d5 d6
    rw [List.append_assoc _ (lit _) (ofInt _), p3,
      List.append_assoc (lit _ ++ ofInt _ ++ lit ":"), List.append_assoc (lit _ ++ ofInt _), p1,
      List.append_assoc _ (lit ":"), p2]
    rfl

theorem upper_not_lower (c : Char) (h : 'A' ≤ c ∧ c ≤ 'Z') : ¬ ('a' ≤ c ∧ c ≤ 'z') := by
  intro h2
  have a := h.2
  have b := h2.1
  have a1 : c.toNat ≤ 90 := a
  have b1 : 97 ≤ c.toNat := b
  omega

theorem lower_not_upper (c : Char) (h : 'a' ≤ c ∧ c ≤ 'z') : ¬ ('A' ≤ c ∧ c ≤ 'Z') :=
  fun h2 => upper_not_lower c h2 h

theorem invalidDate_length : invalidDate.length = 15 := by decide

theorem invalidTime_length : invalidTime.length = 14 := by decide

theorem parseTimeData_seven (s : Sys) (a b c d e f k : Char) :
    parseTimeData s [a, b, c, d, e, f, k] =
      if 'A' ≤ k ∧ k ≤ 'Z' then
        if formatDate [a, b, c, d, e, f] ≠ invalidDate then
          { s with receivedTime :=
              { s.receivedTime with date := [a, b, c, d, e, f], lastUpdate := millis s } }
        else s
      else if 'a' ≤ k ∧ k ≤ 'z' then
        if formatTime [a, b, c, d, e, f] ≠ invalidTime then
          { s with receivedTime :=
              { s.receivedTime with time := [a, b, c, d, e, f], isValid := true,
                                    lastUpdate := millis s } }
        else s
      else addLog s (lit "Bilinmeyen checksum karakteri: " ++ ofChar k) .WARN (lit "NTP") := by
  have e1 : substring [a, b, c, d, e, f, k] 0 6 = [a, b, c, d, e, f] := by simp [substring]
  have e2 : charAt [a, b, c, d, e, f, k] 6 = k := by simp [charAt]
  unfold parseTimeData
  simp only [e1, e2, List.length_cons, List.length_nil, ne_eq, not_true_eq_false, if_false,
    Bool.and_eq_true, decide_eq_true_eq]


theorem length_seven (data : AString) (h : data.length = 7) :
    ∃ a b c d e f k, data = [a, b, c, d, e, f, k] := by
  match data, h with
  | [a, b, c, d, e, f, k], _ => exact ⟨a, b, c, d, e, f, k, rfl⟩

theorem u32sub_eq (a b : Nat) : ((u32sub a b : Nat) : Int) = ((a : Int) - (b : Int)) % 4294967296 := by
  unfold u32sub
  omega

/-- C1: a 7-character frame of six digits DDMMYY with 01 ≤ DD ≤ 31, 01 ≤ MM ≤ 12 and
20 ≤ YY ≤ 99, closed by a character in 'A'..'Z', makes `parseTimeData` store exactly
the six digits in `receivedTime.date` and the current `millis()` in
`receivedTime.lastUpdate`, leaves `receivedTime.time` and `receivedTime.isValid` alone,
and `formatDate` of the stored date is the ten characters "DD.MM.20YY". -/
theorem parseTimeData_valid_date (s : Sys) (d1 d2 m1 m2 y1 y2 c : Char)
    (h1 : d1.isDigit = true) (h2 : d2.isDigit = true) (h3 : m1.isDigit = true)
    (h4 : m2.isDigit = true) (h5 : y1.isDigit = true) (h6 : y2.isDigit = true)
    (hDD : 1 ≤ twoDigit d1 d2 ∧ twoDigit d1 d2 ≤ 31)
    (hMM : 1 ≤ twoDigit m1 m2 ∧ twoDigit m1 m2 ≤ 12)
    (hYY : 20 ≤ twoDigit y1 y2 ∧ twoDigit y1 y2 ≤ 99)
    (hc : 'A' ≤ c ∧ c ≤ 'Z') :
    (parseTimeData s [d1, d2, m1, m2, y1, y2, c]).receivedTime.date = [d1, d2, m1, m2, y1, y2] ∧
    (parseTimeData s [d1, d2, m1, m2, y1, y2, c]).receivedTime.lastUpdate = millis s ∧
    (parseTimeData s [d1, d2, m1, m2, y1, y2, c]).receivedTime.time = s.receivedTime.time ∧
    (parseTimeData s [d1, d2, m1, m2, y1, y2, c]).receivedTime.isValid = s.receivedTime.isValid ∧
    formatDate (parseTimeData s [d1, d2, m1, m2, y1, y2, c]).receivedTime.date =
      [d1, d2, '.', m1, m2, '.', '2', '0', y1, y2] ∧
    (formatDate (parseTimeData s [d1, d2, m1, m2, y1, y2, c]).receivedTime.date).length = 10 := by
  have hf : formatDate [d1, d2, m1, m2, y1, y2] = [d1, d2, '.', m1, m2, '.', '2', '0', y1, y2] := by
    rw [formatDate_digits d1 d2 m1 m2 y1 y2 h1 h2 h3 h4 h5 h6, if_neg (by omega)]
  have hne : formatDate [d1, d2, m1, m2, y1, y2] ≠ invalidDate := by
    intro h
    have := congrArg List.length h
    rw [hf, invalidDate_length] at this
    simp at this
  rw [parseTimeData_seven, if_pos hc, if_pos hne]
  simp [hf]

theorem parseTimeData_valid_date_witness :
    (parseTimeData (idle 5) (lit "150325A")).receivedTime.date = lit "150325" ∧
    (parseTimeData (idle 5) (lit "150325A")).receivedTime.lastUpdate = 5 ∧
    (parseTimeData (idle 5) (lit "150325A")).receivedTime.time = [] ∧
    (parseTimeData (idle 5) (lit "150325A")).receivedTime.isValid = false ∧
    formatDate (parseTimeData (idle 5) (lit "150325A")).receivedTime.date = lit "15.03.2025" ∧
    (formatDate (parseTimeData (idle 5) (lit "150325A")).receivedTime.date).length = 10 :=
  parseTimeData_valid_date (idle 5) '1' '5' '0' '3' '2' '5' 'A' (by decide) (by decide)
    (by decide) (by decide) (by decide) (by decide) (by decide) (by decide) (by decide)
    (by decide)

/-- C2: a 7-character frame of six digits HHMMSS with HH ≤ 23, MM ≤ 59 and SS ≤ 59,
closed by a character in 'a'..'z', makes `parseTimeData` store exactly the six digits
in `receivedTime.time`, set `receivedTime.isValid` and put the current `millis()` in
`receivedTime.lastUpdate`, leaves `receivedTime.date` alone, and `formatTime` of the
stored time is the eight characters "HH:MM:SS". -/
theorem parseTimeData_valid_time (s : Sys) (a1 a2 m1 m2 s1 s2 c : Char)
    (h1 : a1.isDigit = true) (h2 : a2.isDigit = true) (h3 : m1.isDigit = true)
    (h4 : m2.isDigit = true) (h5 : s1.isDigit = true) (h6 : s2.isDigit = true)
    (hHH : twoDigit a1 a2 ≤ 23) (hMM : twoDigit m1 m2 ≤ 59) (hSS : twoDigit s1 s2 ≤ 59)
    (hc : 'a' ≤ c ∧ c ≤ 'z') :
    (parseTimeData s [a1, a2, m1, m2, s1, s2, c]).receivedTime.time = [a1, a2, m1, m2, s1, s2] ∧
    (parseTimeData s [a1, a2, m1, m2, s1, s2, c]).receivedTime.isValid = true ∧
    (parseTimeData s [a1, a2, m1, m2, s1, s2, c]).receivedTime.lastUpdate = millis s ∧
    (parseTimeData s [a1, a2, m1, m2, s1, s2, c]).receivedTime.date = s.receivedTime.date ∧
    formatTime (parseTimeData s [a1, a2, m1, m2, s1, s2, c]).receivedTime.time =
      [a1, a2, ':', m1, m2, ':', s1, s2] ∧
    (formatTime (parseTimeData s [a1, a2, m1, m2, s1, s2, c]).receivedTime.time).length = 8 := by
  have hf : formatTime [a1, a2, m1, m2, s1, s2] = [a1, a2, ':', m1, m2, ':', s1, s2] := by
    rw [formatTime_digits a1 a2 m1 m2 s1 s2 h1 h2 h3 h4 h5 h6, if_neg (by omega)]
  have hne : formatTime [a1, a2, m1, m2, s1, s2] ≠ invalidTime := by
    intro h
    have := congrArg List.length h
    rw [hf, invalidTime_length] at this
    simp at this
  rw [parseTimeData_seven, if_neg (lower_not_upper c hc), if_pos hc, if_pos hne]
  simp [hf]

theorem parseTimeData_valid_time_witness :
    (parseTimeData (idle 5) (lit "153045b")).receivedTime.time = lit "153045" ∧
    (parseTimeData (idle 5) (lit "153045b")).receivedTime.isValid = true ∧
    (parseTimeData (idle 5) (lit "153045b")).receivedTime.lastUpdate = 5 ∧
    (parseTimeData (idle 5) (lit "153045b")).receivedTime.date = [] ∧
    formatTime (parseTimeData (idle 5) (lit "153045b")).receivedTime.time = lit "15:30:45" ∧
    (formatTime (parseTimeData (idle 5) (lit "153045b")).receivedTime.time).length = 8 :=
  parseTimeData_valid_time (idle 5) '1' '5' '3' '0' '4' '5' 'b' (by decide) (by decide)
    (by decide) (by decide) (by decide) (by decide) (by decide) (by decide) (by decide)
    (by decide)

/-- C3: on a 7-character input whose seventh character is neither in 'A'..'Z' nor in
'a'..'z', `parseTimeData` leaves `receivedTime` as it was and appends exactly one entry
to the log, the unknown-checksum warning; its text is the fixed part followed by the
seventh character, or the fixed part alone when that character is the NUL byte. -/
theorem parseTimeData_unknown_checksum (s : Sys) (data : AString) (hlen : data.length = 7)
    (hck : ¬ (('A' ≤ charAt data 6 ∧ charAt data 6 ≤ 'Z') ∨
              ('a' ≤ charAt data 6 ∧ charAt data 6 ≤ 'z'))) :
    (parseTimeData s data).receivedTime = s.receivedTime ∧
    (parseTimeData s data).log = s.log ++
      [{ message := lit "Bilinmeyen checksum karakteri: " ++ ofChar (charAt data 6),
         level := .WARN, source := lit "NTP" }] ∧
    (parseTimeData s data).log.length = s.log.length + 1 ∧
    (charAt data 6 ≠ Char.ofNat 0 → ofChar (charAt data 6) = [charAt data 6]) ∧
    (charAt data 6 = Char.ofNat 0 → ofChar (charAt data 6) = []) := by
  obtain ⟨a, b, c, d, e, f, k, rfl⟩ := length_seven data hlen
  have e2 : charAt [a, b, c, d, e, f, k] 6 = k := by simp [charAt]
  rw [e2] at hck ⊢
  rw [parseTimeData_seven, if_neg (fun h => hck (Or.inl h)), if_neg (fun h => hck (Or.inr h))]
  refine ⟨rfl, rfl, ?_, ?_, ?_⟩
  · simp [addLog]
  · intro h
    unfold ofChar
    rw [if_neg h]
  · intro h
    unfold ofChar
    rw [if_pos h]

theorem parseTimeData_unknown_checksum_witness :
    ((parseTimeData (idle 5) (lit "150325#")).receivedTime = (idle 5).receivedTime ∧
      (parseTimeData (idle 5) (lit "150325#")).log = (idle 5).log ++
        [{ message := lit "Bilinmeyen checksum karakteri: " ++ ofChar (charAt (lit "150325#") 6),
           level := .WARN, source := lit "NTP" }] ∧
      (parseTimeData (idle 5) (lit "150325#")).log.length = (idle 5).log.length + 1 ∧
      (charAt (lit "150325#") 6 ≠ Char.ofNat 0 →
        ofChar (charAt (lit "150325#") 6) = [charAt (lit "150325#") 6]) ∧
      (charAt (lit "150325#") 6 = Char.ofNat 0 → ofChar (charAt (lit "150325#") 6) = [])) ∧
    (parseTimeData (idle 5) (lit "150325#")).log =
      [{ message := lit "Bilinmeyen checksum karakteri: #", level := .WARN,
         source := lit "NTP" }] ∧
    (parseTimeData (idle 5) (lit "150325" ++ [Char.ofNat 0])).log =
      [{ message := lit "Bilinmeyen checksum karakteri: ", level := .WARN,
         source := lit "NTP" }] ∧
    (parseTimeData (idle 5) (lit "150325" ++ [Char.ofNat 0])).receivedTime =
      (idle 5).receivedTime :=
  ⟨parseTimeData_unknown_checksum (idle 5) (lit "150325#") (by decide) (by decide),
    by decide, by decide, by decide⟩

/-- C4: a 7-character frame of six digits and a letter whose digits fail the range
check of the class the letter selects (date: day outside 1..31, month outside 1..12 or
2000+YY outside 2020..2099; time: hour > 23, minute > 59 or second > 59) leaves the
whole machine, and so every field of `receivedTime`, unchanged. -/
theorem parseTimeData_out_of_range (s : Sys) (a b c d e f k : Char)
    (h1 : a.isDigit = true) (h2 : b.isDigit = true) (h3 : c.isDigit = true)
    (h4 : d.isDigit = true) (h5 : e.isDigit = true) (h6 : f.isDigit = true)
    (hbad : (('A' ≤ k ∧ k ≤ 'Z') ∧
              (twoDigit a b < 1 ∨ 31 < twoDigit a b ∨ twoDigit c d < 1 ∨ 12 < twoDigit c d ∨
                2000 + twoDigit e f < 2020 ∨ 2099 < 2000 + twoDigit e f)) ∨
            (('a' ≤ k ∧ k ≤ 'z') ∧
              (23 < twoDigit a b ∨ 59 < twoDigit c d ∨ 59 < twoDigit e f))) :
    parseTimeData s [a, b, c, d, e, f, k] = s ∧
    (parseTimeData s [a, b, c, d, e, f, k]).receivedTime = s.receivedTime := by
  have hy : twoDigit e f ≤ 99 := by
    rcases isDigit_cases e h5 with rfl | rfl | rfl | rfl | rfl | rfl | rfl | rfl | rfl | rfl <;>
    rcases isDigit_cases f h6 with rfl | rfl | rfl | rfl | rfl | rfl | rfl | rfl | rfl | rfl <;>
    decide
  have key : parseTimeData s [a, b, c, d, e, f, k] = s := by
    rcases hbad with ⟨hk, hr⟩ | ⟨hk, hr⟩
    · have hf : formatDate [a, b, c, d, e, f] = invalidDate := by
        rw [formatDate_digits a b c d e f h1 h2 h3 h4 h5 h6, if_pos (by omega)]
      rw [parseTimeData_seven, if_pos hk, if_neg (by simp [hf])]
    · have hf : formatTime [a, b, c, d, e, f] = invalidTime := by
        rw [formatTime_digits a b c d e f h1 h2 h3 h4 h5 h6, if_pos hr]
      rw [parseTimeData_seven, if_neg (lower_not_upper k hk), if_pos hk, if_neg (by simp [hf])]
  exact ⟨key, by rw [key]⟩

theorem parseTimeData_out_of_range_witness :
    parseTimeData (idle 5) (lit "999999X") = idle 5 ∧
    (parseTimeData (idle 5) (lit "999999X")).receivedTime = (idle 5).receivedTime :=
  parseTimeData_out_of_range (idle 5) '9' '9' '9' '9' '9' '9' 'X' (by decide) (by decide)
    (by decide) (by decide) (by decide) (by decide) (by decide)

/-- C5: `isTimeDataValid` answers true exactly when `receivedTime.isValid` is set and
`millis() - receivedTime.lastUpdate`, taken modulo 2^32, is strictly below 60000; at an
elapsed time of exactly 60000 it answers false; and it hands the machine back
untouched. -/
theorem isTimeDataValid_iff (s : Sys) :
    ((isTimeDataValid s).1 = true ↔
      (s.receivedTime.isValid = true ∧
        ((millis s : Int) - (s.receivedTime.lastUpdate : Int)) % 4294967296 < 60000)) ∧
    (((millis s : Int) - (s.receivedTime.lastUpdate : Int)) % 4294967296 = 60000 →
      (isTimeDataValid s).1 = false) ∧
    (isTimeDataValid s).2 = s := by
  have e := u32sub_eq (millis s) s.receivedTime.lastUpdate
  refine ⟨?_, ?_, rfl⟩
  · simp only [isTimeDataValid, Bool.and_eq_true, decide_eq_true_eq]
    constructor
    · rintro ⟨hv, hl⟩
      exact ⟨hv, by omega⟩
    · rintro ⟨hv, hl⟩
      exact ⟨hv, by omega⟩
  · intro h
    simp only [isTimeDataValid, Bool.and_eq_false_iff, decide_eq_false_iff_not]
    right
    omega

theorem isTimeDataValid_iff_witness :
    (isTimeDataValid { idle 4294967300 with
        receivedTime := { date := [], time := lit "153045", isValid := true,
                          lastUpdate := 4294907300 } }).1 = false :=
  (isTimeDataValid_iff _).2.1 (by decide)


/-! ## The bounded line reader -/

theorem store_ok (buffer : List (Option Char)) (i : Nat) (c : Char) (h : i < buffer.length) :
    store buffer i c = .ok (buffer.set i (some c)) := by
  simp [store, h]

theorem cstr_set (acc : List Char) :
    ∀ buffer : List (Option Char), acc.length < buffer.length →
      buffer.take acc.length = acc.map some → (∀ c ∈ acc, Printable c) →
      cstr (buffer.set acc.length (some NUL)) = .ok acc := by
  induction acc with
  | nil =>
    intro buffer hlen _ _
    cases buffer with
    | nil => simp at hlen
    | cons b rest => simp [cstr]
  | cons a acc ih =>
    intro buffer hlen htake hpr
    cases buffer with
    | nil => simp at hlen
    | cons b rest =>
      simp only [List.length_cons, List.take_succ_cons, List.map_cons, List.cons.injEq] at htake hlen
      obtain ⟨rfl, htake⟩ := htake
      have ha : a ≠ NUL := by
        intro h
        have := (hpr a (List.mem_cons_self _ _)).1
        rw [h] at this
        exact absurd this (by decide)
      have := ih rest (by omega) htake (fun c hc => hpr c (List.mem_cons_of_mem _ hc))
      simp [cstr, ha, this, Except.map]

theorem take_set_append (acc : List Char) (c : Char) :
    ∀ buffer : List (Option Char), acc.length < buffer.length →
      buffer.take acc.length = acc.map some →
      (buffer.set acc.length (some c)).take (acc.length + 1) = (acc ++ [c]).map some := by
  induction acc with
  | nil =>
    intro buffer hlen _
    cases buffer with
    | nil => simp at hlen
    | cons b rest => simp
  | cons a acc ih =>
    intro buffer hlen htake
    cases buffer with
    | nil => simp at hlen
    | cons b rest =>
      simp only [List.length_cons, List.take_succ_cons, List.map_cons, List.cons.injEq] at htake hlen
      obtain ⟨rfl, htake⟩ := htake
      have := ih rest (by omega) htake
      simp [this]


theorem read_tx (p : Serial) (now : Nat) : (p.read now).2.tx = p.tx := by
  unfold Serial.read
  split
  · rfl
  · split <;> rfl

theorem untouched_refl (s : Sys) : Untouched s s := ⟨rfl, rfl, rfl, rfl, rfl, rfl⟩

theorem untouched_trans {a b c : Sys} (h1 : Untouched a b) (h2 : Untouched b c) :
    Untouched a c := by
  unfold Untouched at h1 h2 ⊢
  refine ⟨?_, ?_, ?_, ?_, ?_, ?_⟩
  · rw [h2.1, h1.1]
  · rw [h2.2.1, h1.2.1]
  · rw [h2.2.2.1, h1.2.2.1]
  · rw [h2.2.2.2.1, h1.2.2.2.1]
  · rw [h2.2.2.2.2.1, h1.2.2.2.2.1]
  · rw [h2.2.2.2.2.2, h1.2.2.2.2.2]

theorem readBody_spec (startTime timeout : Nat) (st : ReadState) (acc : List Char)
    (h : Holds st acc) :
    (∃ r s', readBody startTime timeout st = .ok (.exit r s') ∧ r.length ≤ 255 ∧
        (∀ c ∈ r, Printable c) ∧ s'.clock = st.sys.clock ∧ Untouched st.sys s' ∧
        (r = [] ↔ ¬ u32sub (millis st.sys) startTime < timeout)) ∨
    (∃ st' acc', readBody startTime timeout st = .ok (.next st') ∧ Holds st' acc' ∧
        st'.sys.clock = st.sys.clock + 1 ∧ Untouched st.sys st'.sys ∧
        u32sub (millis st.sys) startTime < timeout) := by
  obtain ⟨hlen, hidx, hacc, htake, hpr⟩ := h
  unfold readBody
  by_cases ht : u32sub (millis st.sys) startTime < timeout
  swap
  · left
    refine ⟨[], st.sys, by simp [ht], by simp, by simp, rfl, untouched_refl _, by simp [ht]⟩
  by_cases hav : st.sys.uart.available st.sys.clock = true
  swap
  · right
    refine ⟨{ st with sys := delay st.sys 1 }, acc, by simp [ht, hav],
      ⟨hlen, hidx, hacc, htake, hpr⟩, rfl, ⟨rfl, rfl, rfl, rfl, rfl, rfl⟩, ht⟩
  dsimp only
  rw [if_pos ht, if_pos hav]
  generalize (st.sys.uart.read st.sys.clock).1 = c
  have htx := read_tx st.sys.uart st.sys.clock
  generalize (st.sys.uart.read st.sys.clock).2 = u at htx
  have hfr : Untouched st.sys
      { st.sys with uart := u, lastUARTActivity := millis st.sys, uartHealthy := true } :=
    ⟨rfl, rfl, rfl, rfl, rfl, htx⟩
  have hguard : ∃ st' acc', (Except.ok (LoopStep.next
        { sys := delay { st.sys with uart := u, lastUARTActivity := millis st.sys,
                                     uartHealthy := true } 1,
          buffer := st.buffer, bufferIndex := st.bufferIndex }) : Except Fault LoopStep) =
        .ok (.next st') ∧ Holds st' acc' ∧
      st'.sys.clock = st.sys.clock + 1 ∧ Untouched st.sys st'.sys ∧
      u32sub (millis st.sys) startTime < timeout :=
    ⟨_, acc, rfl, ⟨hlen, hidx, hacc, htake, hpr⟩, rfl, hfr, ht⟩
  have hnot : ¬ (st.bufferIndex ≥ MAX_RESPONSE_LENGTH - 1) := by
    simp only [MAX_RESPONSE_LENGTH]
    omega
  by_cases hterm : (c = '\n' || c = '\r') = true
  · rw [if_pos hterm]
    by_cases hpos : st.bufferIndex > 0
    · left
      rw [if_pos hpos]
      have hs := store_ok st.buffer st.bufferIndex NUL (by omega)
      have hcs := cstr_set acc st.buffer (by omega) htake hpr
      rw [← hidx] at hcs
      refine ⟨acc, { st.sys with uart := u, lastUARTActivity := millis st.sys,
                                 uartHealthy := true },
        by simp [hs, hcs, Except.bind], by omega, hpr, rfl, hfr, ?_⟩
      constructor
      · intro h0
        rw [h0] at hidx
        simp at hidx
        omega
      · intro h0
        exact absurd ht h0
    · right
      rw [if_neg hpos, if_neg hnot]
      exact hguard
  · rw [if_neg hterm]
    by_cases hprint : (decide (32 ≤ c.toNat) && decide (c.toNat ≤ 126)) = true
    swap
    · right
      rw [if_neg hprint, if_neg hnot]
      exact hguard
    · rw [if_pos hprint]
      have hlt : st.bufferIndex < MAX_RESPONSE_LENGTH - 1 := by
        simp only [MAX_RESPONSE_LENGTH]
        omega
      rw [if_pos hlt]
      have hs := store_ok st.buffer st.bufferIndex c (by omega)
      have hcp : Printable c := by
        simp only [Bool.and_eq_true, decide_eq_true_eq] at hprint
        exact hprint
      have hpr2 : ∀ x ∈ acc ++ [c], Printable x := by
        intro x hx
        rcases List.mem_append.mp hx with hx | hx
        · exact hpr x hx
        · rw [List.mem_singleton.mp hx]
          exact hcp
      have htk := take_set_append acc c st.buffer (by omega) htake
      rw [← hidx] at htk
      have hl1 : (acc ++ [c]).length = st.bufferIndex + 1 := by simp [hidx]
      rw [hs]
      simp only [Except.bind]
      by_cases hfull : st.bufferIndex + 1 ≥ MAX_RESPONSE_LENGTH - 1
      · left
        rw [if_pos hfull]
        have h254 : st.bufferIndex = 254 := by
          simp only [MAX_RESPONSE_LENGTH] at hfull
          omega
        have hs2 := store_ok (st.buffer.set st.bufferIndex (some c)) (MAX_RESPONSE_LENGTH - 1) NUL
          (by simp [hlen, MAX_RESPONSE_LENGTH])
        have hcs := cstr_set (acc ++ [c]) (st.buffer.set st.bufferIndex (some c))
          (by simp [hlen]; omega) (by rw [hl1]; exact htk) hpr2
        rw [hl1, h254] at hcs
        rw [hs2]
        simp only [MAX_RESPONSE_LENGTH, h254] at hcs ⊢
        rw [hcs]
        refine ⟨acc ++ [c], _, rfl, by omega, hpr2, rfl, ⟨rfl, rfl, rfl, rfl, rfl, htx⟩, ?_⟩
        constructor
        · intro h0
          simp at h0
        · intro h0
          exact absurd ht h0
      · right
        rw [if_neg hfull]
        refine ⟨_, acc ++ [c], rfl, ⟨by simp [hlen], hl1.symm, ?_, ?_, hpr2⟩, rfl, hfr, ht⟩
        · simp only [MAX_RESPONSE_LENGTH] at hfull
          omega
        · rw [hl1]
          exact htk


theorem elapsed_eq (start now : Nat) (h1 : start ≤ now) (h2 : now - start < 4294967296) :
    u32sub (now % 4294967296) (start % 4294967296) = now - start := by
  unfold u32sub
  omega

theorem readLoop_spec (start timeout : Nat) (ht : timeout < 4294967296) :
    ∀ (fuel : Nat) (st : ReadState) (acc : List Char), Holds st acc →
      start ≤ st.sys.clock → st.sys.clock ≤ start + timeout →
      start + timeout + 1 ≤ fuel + st.sys.clock →
      ∃ r s', readLoop (start % 4294967296) timeout fuel st = .ok (r, s') ∧
        r.length ≤ 255 ∧ (∀ c ∈ r, Printable c) ∧ Untouched st.sys s' ∧
        (r = [] → s'.clock = start + timeout) ∧ (r ≠ [] → s'.clock < start + timeout) ∧
        st.sys.clock ≤ s'.clock := by
  intro fuel
  induction fuel with
  | zero =>
    intro st acc _ _ h2 h3
    omega
  | succ fuel ih =>
    intro st acc hh h1 h2 h3
    have hel := elapsed_eq start st.sys.clock h1 (by omega)
    have hm : millis st.sys = st.sys.clock % 4294967296 := rfl
    rcases readBody_spec (start % 4294967296) timeout st acc hh with
      ⟨r, s', hb, hr1, hr2, hck, hun, hiff⟩ | ⟨st', acc', hb, hh', hck, hun, hlt⟩
    · refine ⟨r, s', by simp [readLoop, hb, Except.bind], hr1, hr2, hun, ?_, ?_, by omega⟩
      · intro h0
        have := hiff.mp h0
        rw [hm, hel] at this
        omega
      · intro h0
        have : u32sub (millis st.sys) (start % 4294967296) < timeout := by
          by_contra hn
          exact h0 (hiff.mpr hn)
        rw [hm, hel] at this
        omega
    · rw [hm, hel] at hlt
      obtain ⟨r, s', hl, hr1, hr2, hun2, ha, hb2, hc⟩ :=
        ih st' acc' hh' (by omega) (by omega) (by omega)
      exact ⟨r, s', by simp [readLoop, hb, Except.bind, hl], hr1, hr2,
        untouched_trans hun hun2, ha, hb2, by omega⟩

theorem safeReadUARTResponse_spec (s : Sys) (timeout : Nat) (ht : timeout < 4294967296) :
    ∃ r s', safeReadUARTResponse s timeout = .ok (r, s') ∧
      r.length ≤ 255 ∧ (∀ c ∈ r, Printable c) ∧ Untouched s s' ∧
      (r = [] → s'.clock = s.clock + timeout) ∧ (r ≠ [] → s'.clock < s.clock + timeout) := by
  have hh : Holds { sys := s, buffer := List.replicate MAX_RESPONSE_LENGTH none, bufferIndex := 0 }
      [] := by
    refine ⟨List.length_replicate _ _, rfl, by decide, rfl, ?_⟩
    intro c hc
    cases hc
  obtain ⟨r, s', h, h1, h2, h3, h4, h5, _⟩ :=
    readLoop_spec s.clock timeout ht (timeout + 1) _ [] hh (le_refl _) (by simp) (by simp; omega)
  exact ⟨r, s', h, h1, h2, h3, h4, h5⟩


/-! ## The fault query exchange -/

theorem beginExchange_frame (s : Sys) (command note : AString) :
    (beginExchange s command note).clock = s.clock ∧
    (beginExchange s command note).uartErrorCount = s.uartErrorCount ∧
    (beginExchange s command note).uartStats = s.uartStats ∧
    (beginExchange s command note).uart.rx = drain s.clock s.uart.rx :=
  ⟨rfl, rfl, rfl, rfl⟩

theorem readLoop_silent (a t : Nat) :
    ∀ (fuel : Nat) (st : ReadState) (r : AString) (s' : Sys), st.sys.uart.rx = [] →
      readLoop a t fuel st = .ok (r, s') → r = [] := by
  intro fuel
  induction fuel with
  | zero =>
    intro st r s' _ h
    simp [readLoop] at h
  | succ fuel ih =>
    intro st r s' hrx h
    have hav : st.sys.uart.available st.sys.clock = false := by simp [Serial.available, hrx]
    by_cases hc : u32sub (millis st.sys) a < t
    · have hb : readBody a t st = .ok (.next { st with sys := delay st.sys 1 }) := by
        simp [readBody, hc, hav]
      simp only [readLoop, hb, Except.bind] at h
      exact ih { st with sys := delay st.sys 1 } r s' hrx h
    · have hb : readBody a t st = .ok (.exit [] st.sys) := by
        simp [readBody, hc]
      simp only [readLoop, hb, Except.bind, Except.ok.injEq, Prod.mk.injEq] at h
      exact h.1.symm

theorem requestFault_spec (command failure : AString) (s : Sys)
    (h : s.uartErrorCount < 2147483647) :
    ∃ line s1 s', safeReadUARTResponse (beginExchange s command sentNote) UART_TIMEOUT =
        .ok (line, s1) ∧
      requestFault command failure s = .ok (decide (line ≠ []), s') ∧
      (line ≠ [] → getLastFaultResponse s' = line ∧ s'.clock < s.clock + 1000 ∧
        s'.uartErrorCount = s.uartErrorCount) ∧
      (line = [] → s'.uartErrorCount = s.uartErrorCount + 1 ∧ s'.clock = s.clock + 1000) ∧
      s'.uartStats = s.uartStats := by
  obtain ⟨line, s1, hr, _, _, hun, he, hne⟩ :=
    safeReadUARTResponse_spec (beginExchange s command sentNote) UART_TIMEOUT (by decide)
  obtain ⟨u1, u2, _, _, _, _⟩ := hun
  obtain ⟨b1, b2, b3, _⟩ := beginExchange_frame s command sentNote
  rw [b1] at he hne
  rw [b2] at u1
  rw [b3] at u2
  by_cases hl : line = []
  · subst hl
    have hinc : incErrorCount { s1 with lastResponse := [] } =
        .ok { s1 with lastResponse := [], uartErrorCount := s1.uartErrorCount + 1 } := by
      simp only [incErrorCount]
      rw [if_pos (by show s1.uartErrorCount < 2147483647; omega)]
    have hq : requestFault command failure s = .ok (decide (([] : AString) ≠ []),
        addLog { s1 with lastResponse := [], uartErrorCount := s1.uartErrorCount + 1 }
          failure .ERROR (lit "UART")) := by
      simp only [requestFault, hr, Except.bind, List.length_nil, gt_iff_lt, lt_self_iff_false,
        if_false, hinc, ne_eq, not_true_eq_false, decide_False]
    refine ⟨[], s1, _, hr, hq, by simp, ?_, ?_⟩
    · intro _
      exact ⟨by simp [addLog, u1], by simp [addLog, he rfl, UART_TIMEOUT]⟩
    · simp [addLog, u2]
  · have hpos : line.length > 0 := List.length_pos.mpr hl
    have hq : requestFault command failure s = .ok (decide (line ≠ []),
        addLog { s1 with lastResponse := line }
          (lit "UART yan\xC4\xB1t al\xC4\xB1nd\xC4\xB1: " ++ line) .DEBUG (lit "UART")) := by
      simp only [requestFault, hr, Except.bind, hpos, if_true, ne_eq, hl, not_false_eq_true,
        decide_True]
    refine ⟨line, s1, _, hr, hq, ?_, by simp [hl], ?_⟩
    · intro _
      exact ⟨rfl, by simpa [addLog, UART_TIMEOUT] using hne hl, by simp [addLog, u1]⟩
    · simp [addLog, u2]

/-- C6: for `requestFirstFault` and `requestNextFault` on any machine (any inbound byte
stream), with `line` the result of the line reader run for 1000 ms on the machine left
by sending the command: the call returns true exactly when `line` is non-empty, which
the reader delivers before the 1000 ms are over, and then `getLastFaultResponse` is
`line`; otherwise it returns false and `uartErrorCount` is one more than before. -/
theorem requestFault_result (s : Sys) (h : s.uartErrorCount < 2147483647) :
    (∃ line s1 s', safeReadUARTResponse (beginExchange s (lit "12345v") sentNote) 1000 =
        .ok (line, s1) ∧
      requestFirstFault s = .ok (decide (line ≠ []), s') ∧
      (line ≠ [] → getLastFaultResponse s' = line ∧ s'.clock < s.clock + 1000) ∧
      (line = [] → s'.uartErrorCount = s.uartErrorCount + 1)) ∧
    (∃ line s1 s', safeReadUARTResponse (beginExchange s (lit "n") sentNote) 1000 =
        .ok (line, s1) ∧
      requestNextFault s = .ok (decide (line ≠ []), s') ∧
      (line ≠ [] → getLastFaultResponse s' = line ∧ s'.clock < s.clock + 1000) ∧
      (line = [] → s'.uartErrorCount = s.uartErrorCount + 1)) := by
  constructor
  · obtain ⟨line, s1, s', h1, h2, h3, h4, _⟩ := requestFault_spec (lit "12345v")
      (lit "\xE2\x9D\x8C \xC4\xB0lk ar\xC4\xB1za bilgisi i\xC3\xA7in yan\xC4\xB1t al\xC4\xB1namad\xC4\xB1.") s h
    exact ⟨line, s1, s', h1, h2, fun hl => ⟨(h3 hl).1, (h3 hl).2.1⟩, fun hl => (h4 hl).1⟩
  · obtain ⟨line, s1, s', h1, h2, h3, h4, _⟩ := requestFault_spec (lit "n")
      (lit "\xE2\x9D\x8C Sonraki ar\xC4\xB1za bilgisi i\xC3\xA7in yan\xC4\xB1t al\xC4\xB1namad\xC4\xB1.") s h
    exact ⟨line, s1, s', h1, h2, fun hl => ⟨(h3 hl).1, (h3 hl).2.1⟩, fun hl => (h4 hl).1⟩


theorem requestFault_result_witness :
    (idle 7).uartErrorCount < 2147483647 ∧
    ((∃ line s1 s', safeReadUARTResponse (beginExchange (idle 7) (lit "12345v") sentNote) 1000 =
        .ok (line, s1) ∧
      requestFirstFault (idle 7) = .ok (decide (line ≠ []), s') ∧
      (line ≠ [] → getLastFaultResponse s' = line ∧ s'.clock < (idle 7).clock + 1000) ∧
      (line = [] → s'.uartErrorCount = (idle 7).uartErrorCount + 1)) ∧
    (∃ line s1 s', safeReadUARTResponse (beginExchange (idle 7) (lit "n") sentNote) 1000 =
        .ok (line, s1) ∧
      requestNextFault (idle 7) = .ok (decide (line ≠ []), s') ∧
      (line ≠ [] → getLastFaultResponse s' = line ∧ s'.clock < (idle 7).clock + 1000) ∧
      (line = [] → s'.uartErrorCount = (idle 7).uartErrorCount + 1))) :=
  ⟨by decide, requestFault_result (idle 7) (by decide)⟩

theorem requestFault_silent (command failure : AString) (s : Sys) (hrx : s.uart.rx = [])
    (h : s.uartErrorCount < 2147483647) :
    ∃ s', requestFault command failure s = .ok (false, s') ∧ s'.uartStats = s.uartStats ∧
      s'.uartErrorCount = s.uartErrorCount + 1 := by
  obtain ⟨line, s1, s', h1, h2, _, h4, h5⟩ := requestFault_spec command failure s h
  have hl : line = [] := by
    refine readLoop_silent _ _ _ _ line s1 ?_ h1
    show (beginExchange s command sentNote).uart.rx = []
    rw [(beginExchange_frame s command sentNote).2.2.2, hrx]
    rfl
  subst hl
  exact ⟨s', by simpa using h2, h5, (h4 rfl).1⟩

/-- C7: when no byte arrives on the fault channel, `requestFirstFault` and
`requestNextFault` return failure and leave `uartStats` exactly as it was: neither
`totalCommands` nor `failedCommands` is incremented by a fault request. -/
theorem requestFault_leaves_stats (s : Sys) (hrx : s.uart.rx = [])
    (h : s.uartErrorCount < 2147483647) :
    (∃ s', requestFirstFault s = .ok (false, s') ∧
      s'.uartStats.totalCommands = s.uartStats.totalCommands ∧
      s'.uartStats.failedCommands = s.uartStats.failedCommands) ∧
    (∃ s', requestNextFault s = .ok (false, s') ∧
      s'.uartStats.totalCommands = s.uartStats.totalCommands ∧
      s'.uartStats.failedCommands = s.uartStats.failedCommands) := by
  constructor
  · obtain ⟨s', h1, h2, _⟩ := requestFault_silent (lit "12345v")
      (lit "\xE2\x9D\x8C \xC4\xB0lk ar\xC4\xB1za bilgisi i\xC3\xA7in yan\xC4\xB1t al\xC4\xB1namad\xC4\xB1.") s hrx h
    exact ⟨s', h1, by rw [h2], by rw [h2]⟩
  · obtain ⟨s', h1, h2, _⟩ := requestFault_silent (lit "n")
      (lit "\xE2\x9D\x8C Sonraki ar\xC4\xB1za bilgisi i\xC3\xA7in yan\xC4\xB1t al\xC4\xB1namad\xC4\xB1.") s hrx h
    exact ⟨s', h1, by rw [h2], by rw [h2]⟩

theorem requestFault_leaves_stats_witness :
    (∃ s', requestFirstFault (idle 0) = .ok (false, s') ∧
      s'.uartStats.totalCommands = 0 ∧ s'.uartStats.failedCommands = 0) ∧
    (∃ s', requestNextFault (idle 0) = .ok (false, s') ∧
      s'.uartStats.totalCommands = 0 ∧ s'.uartStats.failedCommands = 0) :=
  requestFault_leaves_stats (idle 0) rfl (by decide)

/-- C8: a command longer than 50 characters makes `sendCustomCommand` return false at
once: the fault channel is as before (nothing written, nothing consumed), `response`
is handed back as it came in, and `uartStats`, `uartErrorCount`, `lastUARTActivity`,
`uartHealthy` and the clock are unchanged. -/
theorem sendCustomCommand_too_long (s : Sys) (command response : AString) (timeout : Nat)
    (h : 50 < command.length) :
    ∃ s', sendCustomCommand s command response timeout = .ok (false, response, s') ∧
      s'.uart = s.uart ∧ s'.uartStats = s.uartStats ∧ s'.uartErrorCount = s.uartErrorCount ∧
      s'.lastUARTActivity = s.lastUARTActivity ∧ s'.uartHealthy = s.uartHealthy ∧
      s'.clock = s.clock := by
  refine ⟨addLog s (lit "\xE2\x9D\x8C Ge\xC3\xA7ersiz komut uzunlu\xC4\x9Fu.") .ERROR (lit "UART"),
    ?_, rfl, rfl, rfl, rfl, rfl, rfl⟩
  unfold sendCustomCommand
  rw [if_pos (by simp [h])]

theorem sendCustomCommand_too_long_witness :
    ∃ s', sendCustomCommand (withRx 3 [(1, 'x')]) (List.replicate 51 'a') (lit "old") 1000 =
        .ok (false, lit "old", s') ∧
      s'.uart = (withRx 3 [(1, 'x')]).uart ∧ s'.uartStats = (withRx 3 [(1, 'x')]).uartStats ∧
      s'.uartErrorCount = (withRx 3 [(1, 'x')]).uartErrorCount ∧
      s'.lastUARTActivity = (withRx 3 [(1, 'x')]).lastUARTActivity ∧
      s'.uartHealthy = (withRx 3 [(1, 'x')]).uartHealthy ∧
      s'.clock = (withRx 3 [(1, 'x')]).clock :=
  sendCustomCommand_too_long (withRx 3 [(1, 'x')]) (List.replicate 51 'a') (lit "old") 1000
    (by decide)


theorem updateUARTStats_clock (s : Sys) (b : Bool) : (updateUARTStats s b).clock = s.clock := by
  unfold updateUARTStats
  split <;> rfl

theorem sendCustomCommand_spec (s : Sys) (command response : AString) (t : Nat)
    (h1 : 1 ≤ command.length) (h2 : command.length ≤ 50) (ht : t < 4294967296) :
    ∃ r s1, safeReadUARTResponse (beginExchange s command (lit "\xC3\x96zel UART komut: "))
          (if t = 0 then UART_TIMEOUT else t) = .ok (r, s1) ∧
      ∃ s', sendCustomCommand s command response t = .ok (decide (r.length > 0), r, s') ∧
        s'.clock = s1.clock ∧
        s'.uartStats = (updateUARTStats s1 (decide (r.length > 0))).uartStats ∧
        s'.uartErrorCount = s.uartErrorCount ∧
        (r = [] → s1.clock = s.clock + (if t = 0 then 1000 else t)) ∧
        (r ≠ [] → s1.clock < s.clock + (if t = 0 then 1000 else t)) ∧
        s1.uartStats = s.uartStats := by
  have hT : (if t = 0 then UART_TIMEOUT else t) < 4294967296 := by
    split
    · decide
    · exact ht
  obtain ⟨r, s1, hr, _, _, hun, he, hne⟩ :=
    safeReadUARTResponse_spec (beginExchange s command (lit "\xC3\x96zel UART komut: "))
      (if t = 0 then UART_TIMEOUT else t) hT
  obtain ⟨u1, u2, _, _, _, _⟩ := hun
  have hg : ¬ ((command.length = 0 || decide (command.length > 50)) = true) := by
    simp only [Bool.or_eq_true, decide_eq_true_eq, beq_iff_eq]
    omega
  refine ⟨r, s1, hr, ?_⟩
  unfold sendCustomCommand
  rw [if_neg hg]
  simp only [hr, Except.bind]
  by_cases hl : (decide (r.length > 0)) = true
  · rw [if_pos hl]
    exact ⟨_, rfl, by simp [addLog, updateUARTStats_clock], rfl,
      by simp only [addLog, updateUARTStats, hl, if_true]; exact u1, he, hne, u2⟩
  · rw [if_neg hl]
    exact ⟨_, rfl, by simp [addLog, updateUARTStats_clock], rfl,
      by simp only [addLog, updateUARTStats, hl, if_false]; exact u1, he, hne, u2⟩

set_option maxRecDepth 100000

/-- C9, as stated, fails twice.  An empty command is turned away at once: with a
requested timeout of 1000 ms the call fails although no time has passed.  And a
requested timeout of 0 selects the default of 1000 ms: a line that arrives 5 ms after
the call is returned as a success 7 ms after the call, later than the 0 ms asked for. -/
theorem sendCustomCommand_deadline_counterexample :
    ¬ MeetsDeadline (idle 0) [] 1000 ∧
    ¬ MeetsDeadline (withRx 0 [(5, 'O'), (5, 'K'), (5, '\n')]) (lit "x") 0 := by
  constructor
  · rintro ⟨r, s', h | h⟩
    · have he : (sendCustomCommand (idle 0) [] [] 1000).toOption.map (fun x => x.1) =
          some false := by decide
      rw [h.1] at he
      simp [Except.toOption] at he
    · have he : (sendCustomCommand (idle 0) [] [] 1000).toOption.map (fun x => x.2.2.clock) =
          some 0 := by decide
      rw [h.1] at he
      simp only [Except.toOption, Option.map_some', Option.some.injEq] at he
      have := h.2
      simp only [idle] at this
      omega
  · rintro ⟨r, s', h | h⟩
    · have he : (sendCustomCommand (withRx 0 [(5, 'O'), (5, 'K'), (5, '\n')]) (lit "x") [] 0
          ).toOption.map (fun x => x.2.2.clock) = some 7 := by decide
      rw [h.1] at he
      simp only [Except.toOption, Option.map_some', Option.some.injEq] at he
      have := h.2.2
      simp only [withRx, idle] at this
      omega
    · have he : (sendCustomCommand (withRx 0 [(5, 'O'), (5, 'K'), (5, '\n')]) (lit "x") [] 0
          ).toOption.map (fun x => x.1) = some true := by decide
      rw [h.1] at he
      simp [Except.toOption] at he

/-- C9, amended: for every command of 1 to 50 characters and every requested timeout
`t` below 2^32, with `T` the timeout in force (1000 when `t = 0`, else `t`),
`sendCustomCommand` returns either success with a non-empty response less than `T` ms
after the call began, or failure with an empty response exactly `T` ms after the call
began. -/
theorem sendCustomCommand_deadline (s : Sys) (command response : AString) (t : Nat)
    (h1 : 1 ≤ command.length) (h2 : command.length ≤ 50) (ht : t < 4294967296) :
    ∃ r s', (sendCustomCommand s command response t = .ok (true, r, s') ∧ r ≠ [] ∧
              s'.clock < s.clock + (if t = 0 then 1000 else t)) ∨
            (sendCustomCommand s command response t = .ok (false, r, s') ∧ r = [] ∧
              s'.clock = s.clock + (if t = 0 then 1000 else t)) := by
  obtain ⟨r, s1, _, s', hq, hc, _, _, he, hne, _⟩ :=
    sendCustomCommand_spec s command response t h1 h2 ht
  refine ⟨r, s', ?_⟩
  by_cases hl : r = []
  · right
    subst hl
    exact ⟨by simpa using hq, rfl, by rw [hc]; exact he rfl⟩
  · left
    have hpos : r.length > 0 := List.length_pos.mpr hl
    exact ⟨by simpa [hpos] using hq, hl, by rw [hc]; exact hne hl⟩

theorem sendCustomCommand_deadline_witness :
    ∃ r s', (sendCustomCommand (withRx 0 [(5, 'O'), (5, 'K'), (5, '\n')]) (lit "x") [] 0 =
                .ok (true, r, s') ∧ r ≠ [] ∧
              s'.clock < (withRx 0 [(5, 'O'), (5, 'K'), (5, '\n')]).clock +
                (if (0 : Nat) = 0 then 1000 else 0)) ∨
            (sendCustomCommand (withRx 0 [(5, 'O'), (5, 'K'), (5, '\n')]) (lit "x") [] 0 =
                .ok (false, r, s') ∧ r = [] ∧
              s'.clock = (withRx 0 [(5, 'O'), (5, 'K'), (5, '\n')]).clock +
                (if (0 : Nat) = 0 then 1000 else 0)) :=
  sendCustomCommand_deadline (withRx 0 [(5, 'O'), (5, 'K'), (5, '\n')]) (lit "x") [] 0
    (by decide) (by decide) (by decide)

/-- C10: for every machine (every inbound byte stream) and every timeout below 2^32,
`safeReadUARTResponse` runs to its `return` without a fault, so the 256-cell array is
never indexed outside 0..255 and no unwritten cell is read; the string it returns has
at most 255 characters, each in 0x20..0x7E, hence none is a line feed or a carriage
return. -/
theorem safeReadUARTResponse_bounded (s : Sys) (timeout : Nat) (ht : timeout < 4294967296) :
    ∃ r s', safeReadUARTResponse s timeout = .ok (r, s') ∧
      safeReadUARTResponse s timeout ≠ .error .outOfBounds ∧
      r.length ≤ 255 ∧
      ∀ c ∈ r, (32 ≤ c.toNat ∧ c.toNat ≤ 126) ∧ c ≠ '\n' ∧ c ≠ '\r' := by
  obtain ⟨r, s', h, hlen, hpr, _⟩ := safeReadUARTResponse_spec s timeout ht
  refine ⟨r, s', h, by rw [h]; simp, hlen, ?_⟩
  intro c hc
  have hp := hpr c hc
  refine ⟨hp, ?_, ?_⟩
  · intro h0
    rw [h0] at hp
    exact absurd hp.1 (by decide)
  · intro h0
    rw [h0] at hp
    exact absurd hp.1 (by decide)

theorem safeReadUARTResponse_bounded_witness :
    ∃ r s', safeReadUARTResponse (withRx 0 [(1, '\t'), (2, 'O'), (3, 'K'), (4, '\r')]) 1000 =
        .ok (r, s') ∧
      safeReadUARTResponse (withRx 0 [(1, '\t'), (2, 'O'), (3, 'K'), (4, '\r')]) 1000 ≠
        .error .outOfBounds ∧
      r.length ≤ 255 ∧
      ∀ c ∈ r, (32 ≤ c.toNat ∧ c.toNat ≤ 126) ∧ c ≠ '\n' ∧ c ≠ '\r' :=
  safeReadUARTResponse_bounded (withRx 0 [(1, '\t'), (2, 'O'), (3, 'K'), (4, '\r')]) 1000
    (by decide)


/-! ## The line reader, byte by byte -/

theorem le_finishAt (l : List (Nat × Char)) : ∀ now, now ≤ finishAt now l := by
  induction l with
  | nil => intro now; exact le_refl _
  | cons x rest ih =>
    intro now
    have := ih (max x.1 now + 1)
    simp only [finishAt]
    omega

theorem available_cons (p : Serial) (now a : Nat) (c : Char) (rest : List (Nat × Char))
    (h : p.rx = (a, c) :: rest) : p.available now = decide (a ≤ now) := by
  simp [Serial.available, h]

theorem read_cons (p : Serial) (now a : Nat) (c : Char) (rest : List (Nat × Char))
    (h : p.rx = (a, c) :: rest) (ha : a ≤ now) : p.read now = (c, { p with rx := rest }) := by
  simp [Serial.read, h, ha]

theorem printable_not_terminator (c : Char) (h : Printable c) :
    (decide (c = '\n') || decide (c = '\r')) = false := by
  have h1 : c ≠ '\n' := by
    intro h0
    rw [h0] at h
    exact absurd h.1 (by decide)
  have h2 : c ≠ '\r' := by
    intro h0
    rw [h0] at h
    exact absurd h.1 (by decide)
  simp [h1, h2]

theorem readBody_wait (startTime timeout : Nat) (st : ReadState) (a : Nat) (c : Char)
    (rest : List (Nat × Char)) (ht : u32sub (millis st.sys) startTime < timeout)
    (hrx : st.sys.uart.rx = (a, c) :: rest) (ha : ¬ a ≤ st.sys.clock) :
    readBody startTime timeout st = .ok (.next { st with sys := delay st.sys 1 }) := by
  have hav : st.sys.uart.available st.sys.clock = false := by
    rw [available_cons _ _ a c rest hrx]
    simp [ha]
  simp [readBody, ht, hav]

theorem readBody_skip (startTime timeout : Nat) (st : ReadState) (acc : List Char) (a : Nat)
    (c : Char) (rest : List (Nat × Char)) (hh : Holds st acc)
    (ht : u32sub (millis st.sys) startTime < timeout)
    (hrx : st.sys.uart.rx = (a, c) :: rest) (ha : a ≤ st.sys.clock)
    (hc : (IsTerminator c ∧ acc = []) ∨ (¬ IsTerminator c ∧ ¬ Printable c)) :
    readBody startTime timeout st =
      .ok (.next { st with sys := delay (afterByte st.sys rest) 1 }) := by
  obtain ⟨hlen, hidx, hacc, _, _⟩ := hh
  have hav : st.sys.uart.available st.sys.clock = true := by
    rw [available_cons _ _ a c rest hrx]
    simp [ha]
  have hrd := read_cons st.sys.uart st.sys.clock a c rest hrx ha
  have hnot : ¬ (st.bufferIndex ≥ MAX_RESPONSE_LENGTH - 1) := by
    simp only [MAX_RESPONSE_LENGTH]
    omega
  unfold readBody
  dsimp only
  rw [if_pos ht, if_pos hav, hrd]
  dsimp only
  rcases hc with ⟨hterm, h0⟩ | ⟨hterm, hpr⟩
  · have h1 : (decide (c = '\n') || decide (c = '\r')) = true := by
      rcases hterm with h | h <;> simp [h]
    have h2 : ¬ st.bufferIndex > 0 := by
      rw [hidx, h0]
      simp
    rw [if_pos h1, if_neg h2, if_neg hnot]
    rfl
  · have h1 : ¬ (decide (c = '\n') || decide (c = '\r')) = true := by
      intro h
      simp only [Bool.or_eq_true, decide_eq_true_eq] at h
      exact hterm h
    have h2 : ¬ (decide (32 ≤ c.toNat) && decide (c.toNat ≤ 126)) = true := by
      intro h
      simp only [Bool.and_eq_true, decide_eq_true_eq] at h
      exact hpr h
    rw [if_neg h1, if_neg h2, if_neg hnot]
    rfl


theorem readBody_push (startTime timeout : Nat) (st : ReadState) (acc : List Char) (a : Nat)
    (c : Char) (rest : List (Nat × Char)) (hh : Holds st acc)
    (ht : u32sub (millis st.sys) startTime < timeout)
    (hrx : st.sys.uart.rx = (a, c) :: rest) (ha : a ≤ st.sys.clock)
    (hc : Printable c) (hroom : acc.length + 1 < 255) :
    readBody startTime timeout st =
      .ok (.next { sys := delay (afterByte st.sys rest) 1,
                   buffer := st.buffer.set st.bufferIndex (some c),
                   bufferIndex := st.bufferIndex + 1 }) ∧
    Holds { sys := delay (afterByte st.sys rest) 1,
            buffer := st.buffer.set st.bufferIndex (some c),
            bufferIndex := st.bufferIndex + 1 } (acc ++ [c]) := by
  obtain ⟨hlen, hidx, hacc, htake, hpr⟩ := hh
  have hav : st.sys.uart.available st.sys.clock = true := by
    rw [available_cons _ _ a c rest hrx]
    simp [ha]
  have hrd := read_cons st.sys.uart st.sys.clock a c rest hrx ha
  have h1 := printable_not_terminator c hc
  have h2 : (decide (32 ≤ c.toNat) && decide (c.toNat ≤ 126)) = true := by
    simp only [Bool.and_eq_true, decide_eq_true_eq]
    exact hc
  have hlt : st.bufferIndex < MAX_RESPONSE_LENGTH - 1 := by
    simp only [MAX_RESPONSE_LENGTH]
    omega
  have hfull : ¬ (st.bufferIndex + 1 ≥ MAX_RESPONSE_LENGTH - 1) := by
    simp only [MAX_RESPONSE_LENGTH]
    omega
  have hs := store_ok st.buffer st.bufferIndex c (by omega)
  have hl1 : (acc ++ [c]).length = st.bufferIndex + 1 := by simp [hidx]
  constructor
  · unfold readBody
    dsimp only
    rw [if_pos ht, if_pos hav, hrd]
    dsimp only
    rw [h1, if_neg (by simp), if_pos h2, if_pos hlt, hs]
    simp only [Except.bind]
    rw [if_neg hfull]
    rfl
  · refine ⟨by simp [hlen], hl1.symm, by simp; omega, ?_, ?_⟩
    · have htk := take_set_append acc c st.buffer (by omega) htake
      rw [hl1, hidx]
      exact htk
    · intro x hx
      rcases List.mem_append.mp hx with hx | hx
      · exact hpr x hx
      · rw [List.mem_singleton.mp hx]
        exact hc

theorem readBody_line (startTime timeout : Nat) (st : ReadState) (acc : List Char) (a : Nat)
    (c : Char) (rest : List (Nat × Char)) (hh : Holds st acc)
    (ht : u32sub (millis st.sys) startTime < timeout)
    (hrx : st.sys.uart.rx = (a, c) :: rest) (ha : a ≤ st.sys.clock)
    (hc : IsTerminator c) (hne : acc ≠ []) :
    readBody startTime timeout st = .ok (.exit acc (afterByte st.sys rest)) := by
  obtain ⟨hlen, hidx, hacc, htake, hpr⟩ := hh
  have hav : st.sys.uart.available st.sys.clock = true := by
    rw [available_cons _ _ a c rest hrx]
    simp [ha]
  have hrd := read_cons st.sys.uart st.sys.clock a c rest hrx ha
  have h1 : (decide (c = '\n') || decide (c = '\r')) = true := by
    rcases hc with h | h <;> simp [h]
  have hpos : st.bufferIndex > 0 := by
    rw [hidx]
    exact List.length_pos.mpr hne
  have hs := store_ok st.buffer st.bufferIndex NUL (by omega)
  have hcs := cstr_set acc st.buffer (by omega) htake hpr
  rw [← hidx] at hcs
  unfold readBody
  dsimp only
  rw [if_pos ht, if_pos hav, hrd]
  dsimp only
  rw [if_pos h1, if_pos hpos, hs]
  simp only [Except.bind, hcs]
  rfl

theorem readBody_full (startTime timeout : Nat) (st : ReadState) (acc : List Char) (a : Nat)
    (c : Char) (rest : List (Nat × Char)) (hh : Holds st acc)
    (ht : u32sub (millis st.sys) startTime < timeout)
    (hrx : st.sys.uart.rx = (a, c) :: rest) (ha : a ≤ st.sys.clock)
    (hc : Printable c) (hfull : acc.length = 254) :
    readBody startTime timeout st =
      .ok (.exit (acc ++ [c])
        { afterByte st.sys rest with log := st.sys.log ++ [overflowWarning] }) := by
  obtain ⟨hlen, hidx, hacc, htake, hpr⟩ := hh
  have hav : st.sys.uart.available st.sys.clock = true := by
    rw [available_cons _ _ a c rest hrx]
    simp [ha]
  have hrd := read_cons st.sys.uart st.sys.clock a c rest hrx ha
  have h1 := printable_not_terminator c hc
  have h2 : (decide (32 ≤ c.toNat) && decide (c.toNat ≤ 126)) = true := by
    simp only [Bool.and_eq_true, decide_eq_true_eq]
    exact hc
  have hlt : st.bufferIndex < MAX_RESPONSE_LENGTH - 1 := by
    simp only [MAX_RESPONSE_LENGTH]
    omega
  have hge : st.bufferIndex + 1 ≥ MAX_RESPONSE_LENGTH - 1 := by
    simp only [MAX_RESPONSE_LENGTH]
    omega
  have hs := store_ok st.buffer st.bufferIndex c (by omega)
  have hl1 : (acc ++ [c]).length = st.bufferIndex + 1 := by simp [hidx]
  have hpr2 : ∀ x ∈ acc ++ [c], Printable x := by
    intro x hx
    rcases List.mem_append.mp hx with hx | hx
    · exact hpr x hx
    · rw [List.mem_singleton.mp hx]
      exact hc
  have htk := take_set_append acc c st.buffer (by omega) htake
  rw [← hidx] at htk
  have hs2 := store_ok (st.buffer.set st.bufferIndex (some c)) (MAX_RESPONSE_LENGTH - 1) NUL
    (by simp [hlen, MAX_RESPONSE_LENGTH])
  have hcs := cstr_set (acc ++ [c]) (st.buffer.set st.bufferIndex (some c))
    (by simp [hlen]; omega) (by rw [hl1]; exact htk) hpr2
  have h255 : (acc ++ [c]).length = MAX_RESPONSE_LENGTH - 1 := by
    simp [hfull, MAX_RESPONSE_LENGTH]
  rw [h255] at hcs
  unfold readBody
  dsimp only
  rw [if_pos ht, if_pos hav, hrd]
  dsimp only
  rw [h1, if_neg (by simp), if_pos h2, if_pos hlt, hs]
  simp only [Except.bind]
  rw [if_pos hge, hs2]
  simp only [hcs]
  rfl


theorem finishAt_cons_gt (now : Nat) (x : Nat × Char) (l : List (Nat × Char)) :
    now + 1 ≤ finishAt now (x :: l) := by
  have := le_finishAt l (max x.1 now + 1)
  simp only [finishAt]
  omega

theorem readLoop_next (a t fuel : Nat) (st st' : ReadState)
    (h : readBody a t st = .ok (.next st')) :
    readLoop a t (fuel + 1) st = readLoop a t fuel st' := by
  simp only [readLoop, h, Except.bind]

theorem readLoop_exit (a t fuel : Nat) (st : ReadState) (r : AString) (s' : Sys)
    (h : readBody a t st = .ok (.exit r s')) :
    readLoop a t (fuel + 1) st = .ok (r, s') := by
  simp only [readLoop, h, Except.bind]

theorem readLoop_run (start timeout : Nat) (ht : timeout < 4294967296) :
    ∀ (fuel : Nat) (st : ReadState) (acc : List Char) (TP TL : List (Nat × Char))
      (e : Nat × Char) (R : List (Nat × Char)),
      Holds st acc → st.sys.uart.rx = TP ++ TL ++ e :: R →
      (∀ x ∈ TP, ¬ Printable x.2) → (∀ x ∈ TL, Printable x.2) →
      (TP ≠ [] → acc = []) → acc.length + TL.length ≤ 254 →
      start ≤ st.sys.clock → finishAt st.sys.clock (TP ++ TL ++ [e]) ≤ start + timeout →
      start + timeout + 1 ≤ fuel + st.sys.clock →
      ∃ fuel' st', readLoop (start % 4294967296) timeout fuel st =
          readLoop (start % 4294967296) timeout (fuel' + 1) st' ∧
        Holds st' (acc ++ TL.map Prod.snd) ∧ st'.sys.uart.rx = e :: R ∧
        e.1 ≤ st'.sys.clock ∧ start ≤ st'.sys.clock ∧ st'.sys.clock < start + timeout ∧
        st'.sys.log = st.sys.log ∧ Untouched st.sys st'.sys := by
  intro fuel
  induction fuel with
  | zero =>
    intro st acc TP TL e R _ _ _ _ _ _ _ hfin hfuel
    have hX : ∃ h tl, TP ++ TL ++ [e] = h :: tl := by
      cases TP with
      | nil => cases TL with
        | nil => exact ⟨e, [], rfl⟩
        | cons x l => exact ⟨x, l ++ [e], rfl⟩
      | cons x l => exact ⟨x, l ++ TL ++ [e], rfl⟩
    obtain ⟨h, tl, hX⟩ := hX
    have := finishAt_cons_gt st.sys.clock h tl
    rw [hX] at hfin
    omega
  | succ fuel ih =>
    intro st acc TP TL e R hh hrx hP hL hPacc hroom hstart hfin hfuel
    have hlt : st.sys.clock < start + timeout := by
      have hX : ∃ h tl, TP ++ TL ++ [e] = h :: tl := by
        cases TP with
        | nil => cases TL with
          | nil => exact ⟨e, [], rfl⟩
          | cons x l => exact ⟨x, l ++ [e], rfl⟩
        | cons x l => exact ⟨x, l ++ TL ++ [e], rfl⟩
      obtain ⟨h, tl, hX⟩ := hX
      have := finishAt_cons_gt st.sys.clock h tl
      rw [hX] at hfin
      omega
    have hel : u32sub (millis st.sys) (start % 4294967296) < timeout := by
      have := elapsed_eq start st.sys.clock hstart (by omega)
      show u32sub (st.sys.clock % 4294967296) (start % 4294967296) < timeout
      omega
    have hwait : ∀ (a : Nat) (c : Char) (tl tl2 : List (Nat × Char)),
        st.sys.uart.rx = (a, c) :: tl → TP ++ TL ++ [e] = (a, c) :: tl2 →
        ¬ a ≤ st.sys.clock →
        ∃ fuel' st', readLoop (start % 4294967296) timeout (fuel + 1) st =
            readLoop (start % 4294967296) timeout (fuel' + 1) st' ∧
          Holds st' (acc ++ TL.map Prod.snd) ∧ st'.sys.uart.rx = e :: R ∧
          e.1 ≤ st'.sys.clock ∧ start ≤ st'.sys.clock ∧ st'.sys.clock < start + timeout ∧
          st'.sys.log = st.sys.log ∧ Untouched st.sys st'.sys := by
      intro a c tl tl2 hrx' hX hna
      have hb := readBody_wait (start % 4294967296) timeout st a c tl hel hrx' hna
      have hfin' : finishAt (st.sys.clock + 1) (TP ++ TL ++ [e]) ≤ start + timeout := by
        rw [hX] at hfin ⊢
        simp only [finishAt] at hfin ⊢
        have e1 : max a (st.sys.clock + 1) = max a st.sys.clock := by omega
        rw [e1]
        exact hfin
      obtain ⟨fuel', st', h1, h2, h3, h4, h5, h6, h7, h8⟩ :=
        ih { st with sys := delay st.sys 1 } acc TP TL e R hh hrx hP hL hPacc hroom
          (by show start ≤ st.sys.clock + 1; omega) hfin'
          (by show start + timeout + 1 ≤ fuel + (st.sys.clock + 1); omega)
      exact ⟨fuel', st', by rw [readLoop_next _ _ _ _ _ hb]; exact h1, h2, h3, h4, h5, h6, h7, h8⟩
    cases TP with
    | cons x TP' =>
      obtain ⟨a, c⟩ := x
      have hrx' : st.sys.uart.rx = (a, c) :: (TP' ++ TL ++ e :: R) := by
        rw [hrx]
        simp
      by_cases ha : a ≤ st.sys.clock
      · have hacc : acc = [] := hPacc (by simp)
        have hnp : ¬ Printable c := hP (a, c) (List.mem_cons_self _ _)
        have hb := readBody_skip (start % 4294967296) timeout st acc a c _ hh hel hrx' ha (by
          by_cases hterm : IsTerminator c
          · exact Or.inl ⟨hterm, hacc⟩
          · exact Or.inr ⟨hterm, hnp⟩)
        have hfin' : finishAt (st.sys.clock + 1) (TP' ++ TL ++ [e]) ≤ start + timeout := by
          have e1 : max a st.sys.clock = st.sys.clock := by omega
          simp only [List.cons_append, finishAt, e1] at hfin
          exact hfin
        obtain ⟨fuel', st', h1, h2, h3, h4, h5, h6, h7, h8⟩ :=
          ih { st with sys := delay (afterByte st.sys (TP' ++ TL ++ e :: R)) 1 } acc TP' TL e R
            hh rfl (fun y hy => hP y (List.mem_cons_of_mem _ hy)) hL (fun _ => hacc) hroom
            (by show start ≤ st.sys.clock + 1; omega) hfin'
            (by show start + timeout + 1 ≤ fuel + (st.sys.clock + 1); omega)
        exact ⟨fuel', st', by rw [readLoop_next _ _ _ _ _ hb]; exact h1, h2, h3, h4, h5, h6, h7,
          untouched_trans ⟨rfl, rfl, rfl, rfl, rfl, rfl⟩ h8⟩
      · exact hwait a c _ (TP' ++ TL ++ [e]) hrx' (by simp) ha
    | nil =>
      cases TL with
      | cons x TL' =>
        obtain ⟨a, c⟩ := x
        have hrx' : st.sys.uart.rx = (a, c) :: (TL' ++ e :: R) := by
          rw [hrx]
          simp
        by_cases ha : a ≤ st.sys.clock
        · have hpc : Printable c := hL (a, c) (List.mem_cons_self _ _)
          simp only [List.length_cons] at hroom
          obtain ⟨hb, hh'⟩ := readBody_push (start % 4294967296) timeout st acc a c _ hh hel hrx'
            ha hpc (by omega)
          have hfin' : finishAt (st.sys.clock + 1) ([] ++ TL' ++ [e]) ≤ start + timeout := by
            have e1 : max a st.sys.clock = st.sys.clock := by omega
            simp only [List.nil_append, List.cons_append, finishAt, e1] at hfin ⊢
            exact hfin
          obtain ⟨fuel', st', h1, h2, h3, h4, h5, h6, h7, h8⟩ :=
            ih _ (acc ++ [c]) [] TL' e R hh' rfl (fun y hy => absurd hy (List.not_mem_nil y))
              (fun y hy => hL y (List.mem_cons_of_mem _ hy)) (fun h => absurd rfl h)
              (by simp only [List.length_append, List.length_singleton]; omega)
              (by show start ≤ st.sys.clock + 1; omega) hfin'
              (by show start + timeout + 1 ≤ fuel + (st.sys.clock + 1); omega)
          refine ⟨fuel', st', by rw [readLoop_next _ _ _ _ _ hb]; exact h1, ?_, h3, h4, h5, h6, h7,
            untouched_trans ⟨rfl, rfl, rfl, rfl, rfl, rfl⟩ h8⟩
          simpa using h2
        · exact hwait a c _ (TL' ++ [e]) hrx' (by simp) ha
      | nil =>
        obtain ⟨a, c⟩ := e
        have hrx' : st.sys.uart.rx = (a, c) :: R := by
          rw [hrx]
          simp
        by_cases ha : a ≤ st.sys.clock
        · exact ⟨fuel, st, rfl, by simpa using hh, hrx', ha, hstart, hlt, rfl, untouched_refl _⟩
        · exact hwait a c _ [] hrx' (by simp) ha


theorem terminator_not_printable (c : Char) (h : IsTerminator c) : ¬ Printable c := by
  intro hp
  have := printable_not_terminator c hp
  rcases h with h | h <;> simp [h] at this

theorem holds_init (s : Sys) :
    Holds { sys := s, buffer := List.replicate MAX_RESPONSE_LENGTH none, bufferIndex := 0 } [] := by
  refine ⟨List.length_replicate _ _, rfl, by decide, rfl, ?_⟩
  intro c hc
  cases hc

theorem safeReadUARTResponse_run (s : Sys) (timeout : Nat) (P L R : List (Nat × Char))
    (e : Nat × Char) (ht : timeout < 4294967296) (hrx : s.uart.rx = P ++ L ++ e :: R)
    (hP : ∀ x ∈ P, ¬ Printable x.2) (hL : ∀ x ∈ L, Printable x.2) (hlen : L.length ≤ 254)
    (hin : finishAt s.clock (P ++ L ++ [e]) ≤ s.clock + timeout) :
    ∃ fuel' st', safeReadUARTResponse s timeout =
        readLoop (millis s) timeout (fuel' + 1) st' ∧
      Holds st' (L.map Prod.snd) ∧ st'.sys.uart.rx = e :: R ∧ e.1 ≤ st'.sys.clock ∧
      u32sub (millis st'.sys) (millis s) < timeout ∧ st'.sys.clock < s.clock + timeout ∧
      st'.sys.log = s.log ∧ Untouched s st'.sys := by
  obtain ⟨fuel', st', h1, h2, h3, h4, h5, h6, h7, h8⟩ :=
    readLoop_run s.clock timeout ht (timeout + 1)
      { sys := s, buffer := List.replicate MAX_RESPONSE_LENGTH none, bufferIndex := 0 } []
      P L e R (holds_init s) hrx hP hL (fun _ => rfl) (by simpa using hlen) (le_refl _) hin
      (by show s.clock + timeout + 1 ≤ timeout + 1 + s.clock; omega)
  refine ⟨fuel', st', h1, by simpa using h2, h3, h4, ?_, h6, h7, h8⟩
  have := elapsed_eq s.clock st'.sys.clock h5 (by omega)
  show u32sub (st'.sys.clock % 4294967296) (s.clock % 4294967296) < timeout
  omega

/-- C11: for every inbound stream `P ++ L ++ [t] ++ R` on the fault channel, where `P`
holds only terminators and non-printable bytes, `L` is 1 to 254 printable bytes, `t` is
a terminator and `R` is arbitrary, and which is delivered before the timeout (the pass
that takes `t` begins before the timeout has elapsed, the reader taking each byte in
the first 1 ms pass at or after its arrival), `safeReadUARTResponse` returns exactly
`L` and leaves `R` in the FIFO. -/
theorem safeReadUARTResponse_line (s : Sys) (timeout : Nat) (P L R : List (Nat × Char))
    (t : Nat × Char) (ht : timeout < 4294967296) (hrx : s.uart.rx = P ++ L ++ [t] ++ R)
    (hP : ∀ x ∈ P, IsTerminator x.2 ∨ ¬ Printable x.2)
    (hL : ∀ x ∈ L, Printable x.2) (hL1 : 1 ≤ L.length) (hL2 : L.length ≤ 254)
    (hterm : IsTerminator t.2)
    (hin : finishAt s.clock (P ++ L ++ [t]) ≤ s.clock + timeout) :
    ∃ s', safeReadUARTResponse s timeout = .ok (L.map Prod.snd, s') ∧ s'.uart.rx = R := by
  have hP' : ∀ x ∈ P, ¬ Printable x.2 := by
    intro x hx
    rcases hP x hx with h | h
    · exact terminator_not_printable _ h
    · exact h
  obtain ⟨fuel', st', h1, h2, h3, h4, h5, _, _, _⟩ :=
    safeReadUARTResponse_run s timeout P L R t ht (by rw [hrx]; simp) hP' hL hL2 hin
  have hne : L.map Prod.snd ≠ [] := by
    intro h0
    have := congrArg List.length h0
    rw [List.length_map, List.length_nil] at this
    omega
  have hb := readBody_line (millis s) timeout st' (L.map Prod.snd) t.1 t.2 R h2 h5 h3 h4 hterm hne
  exact ⟨afterByte st'.sys R, by rw [h1, readLoop_exit _ _ _ _ _ _ hb], rfl⟩

theorem safeReadUARTResponse_line_witness :
    ∃ s', safeReadUARTResponse
        (withRx 0 [(0, '\r'), (0, '\n'), (2, 'O'), (2, 'K'), (9, '\r'), (9, '\n'), (9, 'Z')]) 1000 =
        .ok ([(2, 'O'), (2, 'K')].map Prod.snd, s') ∧ s'.uart.rx = [(9, '\n'), (9, 'Z')] :=
  safeReadUARTResponse_line
    (withRx 0 [(0, '\r'), (0, '\n'), (2, 'O'), (2, 'K'), (9, '\r'), (9, '\n'), (9, 'Z')]) 1000
    [(0, '\r'), (0, '\n')] [(2, 'O'), (2, 'K')] [(9, '\n'), (9, 'Z')] (9, '\r')
    (by decide) rfl (by decide) (by decide) (by decide) (by decide) (by decide) (by decide)


theorem safeReadUARTResponse_overflow (s : Sys) (timeout : Nat) (L0 R : List (Nat × Char))
    (e : Nat × Char) (ht : timeout < 4294967296) (hrx : s.uart.rx = L0 ++ e :: R)
    (hL : ∀ x ∈ L0, Printable x.2) (he : Printable e.2) (hlen : L0.length = 254)
    (hin : finishAt s.clock (L0 ++ [e]) ≤ s.clock + timeout) :
    ∃ s1, safeReadUARTResponse s timeout = .ok (L0.map Prod.snd ++ [e.2], s1) ∧
      s1.log = s.log ++ [overflowWarning] ∧ s1.uart.rx = R := by
  obtain ⟨fuel', st', h1, h2, h3, h4, h5, _, h7, _⟩ :=
    safeReadUARTResponse_run s timeout [] L0 R e ht (by rw [hrx]; simp)
      (fun x hx => absurd hx (List.not_mem_nil x)) hL (by omega) (by simpa using hin)
  have hb := readBody_full (millis s) timeout st' (L0.map Prod.snd) e.1 e.2 R h2 h5 h3 h4 he
    (by rw [List.length_map]; exact hlen)
  refine ⟨_, by rw [h1, readLoop_exit _ _ _ _ _ _ hb], ?_, rfl⟩
  show st'.sys.log ++ [overflowWarning] = s.log ++ [overflowWarning]
  rw [h7]

theorem drain_fresh (now : Nat) (rx : List (Nat × Char))
    (h : ∀ x ∈ rx.head?, now < x.1) : drain now rx = rx := by
  cases rx with
  | nil => rfl
  | cons x rest =>
    obtain ⟨a, c⟩ := x
    have := h (a, c) (by simp)
    simp only [drain]
    rw [if_neg (by omega)]

theorem requestFault_success (command failure : AString) (s : Sys) (line : AString) (s1 : Sys)
    (hr : safeReadUARTResponse (beginExchange s command sentNote) UART_TIMEOUT = .ok (line, s1))
    (hpos : line.length > 0) :
    requestFault command failure s = .ok (true, addLog { s1 with lastResponse := line }
      (lit "UART yan\xC4\xB1t al\xC4\xB1nd\xC4\xB1: " ++ line) .DEBUG (lit "UART")) := by
  simp only [requestFault, hr, Except.bind, hpos, if_true]

theorem requestFault_overflow (command failure : AString) (s : Sys) (L0 R : List (Nat × Char))
    (e : Nat × Char) (hrx : s.uart.rx = L0 ++ e :: R)
    (hnew : ∀ x ∈ L0 ++ [e], s.clock < x.1)
    (hL : ∀ x ∈ L0, Printable x.2) (he : Printable e.2) (hlen : L0.length = 254)
    (hin : finishAt s.clock (L0 ++ [e]) ≤ s.clock + 1000) :
    ∃ s', requestFault command failure s = .ok (true, s') ∧
      getLastFaultResponse s' = L0.map Prod.snd ++ [e.2] ∧
      s'.log = s.log ++ [sentEntry command, overflowWarning,
        receivedEntry (L0.map Prod.snd ++ [e.2])] := by
  have hdr : (beginExchange s command sentNote).uart.rx = L0 ++ e :: R := by
    rw [(beginExchange_frame s command sentNote).2.2.2, hrx]
    apply drain_fresh
    intro x hx
    apply hnew x
    cases L0 with
    | nil =>
      simp only [List.nil_append, List.head?_cons, Option.mem_def, Option.some.injEq] at hx
      simp [hx]
    | cons y l =>
      simp only [List.cons_append, List.head?_cons, Option.mem_def, Option.some.injEq] at hx
      simp [hx]
  obtain ⟨s1, hr, hlog, _⟩ := safeReadUARTResponse_overflow (beginExchange s command sentNote)
    UART_TIMEOUT L0 R e (by decide) hdr hL he hlen hin
  have hpos : (L0.map Prod.snd ++ [e.2]).length > 0 := by simp
  refine ⟨_, requestFault_success command failure s _ s1 hr hpos, rfl, ?_⟩
  show s1.log ++ [receivedEntry (L0.map Prod.snd ++ [e.2])] = _
  rw [hlog]
  simp [beginExchange, addLog, clearInput, sentEntry]

/-- C12, as stated, fails: 255 printable bytes with no terminator are not discarded.  A
fault request fed 255 bytes 'a' reports success, and the response it keeps is those 255
bytes. -/
theorem requestFirstFault_overflow_counterexample :
    ∃ s', requestFirstFault (withRx 0 (List.replicate 254 (1, 'a') ++ [(1, 'a')])) =
        .ok (true, s') ∧
      getLastFaultResponse s' = List.replicate 255 'a' := by
  obtain ⟨s', h1, h2, _⟩ := requestFault_overflow (lit "12345v")
    (lit "\xE2\x9D\x8C \xC4\xB0lk ar\xC4\xB1za bilgisi i\xC3\xA7in yan\xC4\xB1t al\xC4\xB1namad\xC4\xB1.")
    (withRx 0 (List.replicate 254 (1, 'a') ++ [(1, 'a')])) (List.replicate 254 (1, 'a')) []
    (1, 'a') rfl (by decide) (by decide) (by decide) (by decide) (by decide)
  exact ⟨s', h1, by rw [h2]; decide⟩


/-- C12, amended: when 255 printable bytes arrive on the fault channel with no
terminator (each after the call began, and early enough for the reader, which takes one
byte per 1 ms pass, to get through them within 1000 ms), `safeReadUARTResponse` logs
exactly one overflow warning and returns those 255 bytes as its response; a
`requestFirstFault` fed such a stream reports success, keeps the 255 bytes as the last
response, and its log gains the sent entry, one overflow warning and the received
entry. -/
theorem requestFirstFault_overflow (s : Sys) (L R : List (Nat × Char))
    (hrx : s.uart.rx = L ++ R) (hnew : ∀ x ∈ L, s.clock < x.1)
    (hL : ∀ x ∈ L, Printable x.2) (hlen : L.length = 255)
    (hin : finishAt s.clock L ≤ s.clock + 1000) :
    (∃ s1, safeReadUARTResponse s 1000 = .ok (L.map Prod.snd, s1) ∧
      s1.log = s.log ++ [overflowWarning]) ∧
    (∃ s', requestFirstFault s = .ok (true, s') ∧ getLastFaultResponse s' = L.map Prod.snd ∧
      s'.log = s.log ++ [sentEntry (lit "12345v"), overflowWarning,
        receivedEntry (L.map Prod.snd)]) := by
  rcases List.eq_nil_or_concat L with h0 | ⟨L0, e, h0⟩
  · rw [h0] at hlen
    simp at hlen
  · rw [List.concat_eq_append] at h0
    subst h0
    have h254 : L0.length = 254 := by
      simp only [List.length_append, List.length_singleton] at hlen
      omega
    have hL0 : ∀ x ∈ L0, Printable x.2 := fun x hx => hL x (List.mem_append_left _ hx)
    have he : Printable e.2 := hL e (by simp)
    have hm : (L0 ++ [e]).map Prod.snd = L0.map Prod.snd ++ [e.2] := by simp
    have hrx' : s.uart.rx = L0 ++ e :: R := by
      rw [hrx]
      simp
    rw [hm]
    constructor
    · obtain ⟨s1, h1, h2, _⟩ :=
        safeReadUARTResponse_overflow s 1000 L0 R e (by decide) hrx' hL0 he h254 hin
      exact ⟨s1, h1, h2⟩
    · exact requestFault_overflow (lit "12345v") _ s L0 R e hrx' hnew hL0 he h254 hin

theorem requestFirstFault_overflow_witness :
    (∃ s1, safeReadUARTResponse (withRx 0 (List.replicate 255 (1, 'b') ++ [(1, '\n')])) 1000 =
        .ok ((List.replicate 255 (1, 'b')).map Prod.snd, s1) ∧
      s1.log = (withRx 0 (List.replicate 255 (1, 'b') ++ [(1, '\n')])).log ++
        [overflowWarning]) ∧
    (∃ s', requestFirstFault (withRx 0 (List.replicate 255 (1, 'b') ++ [(1, '\n')])) =
        .ok (true, s') ∧
      getLastFaultResponse s' = (List.replicate 255 (1, 'b')).map Prod.snd ∧
      s'.log = (withRx 0 (List.replicate 255 (1, 'b') ++ [(1, '\n')])).log ++
        [sentEntry (lit "12345v"), overflowWarning,
          receivedEntry ((List.replicate 255 (1, 'b')).map Prod.snd)]) :=
  requestFirstFault_overflow (withRx 0 (List.replicate 255 (1, 'b') ++ [(1, '\n')]))
    (List.replicate 255 (1, 'b')) [(1, '\n')] rfl (by decide) (by decide) (by decide)
    (by decide)


/-! ## The backend reader -/

theorem backendByte_bound (s : Sys) (c : Char) (h : s.dataBuffer.length ≤ 32) :
    (backendByte s c).dataBuffer.length ≤ 32 := by
  unfold backendByte
  dsimp only
  split
  · split
    · simp
    · exact h
  · split
    · simp
    · rename_i h1 h2
      have h3 : ¬ (s.dataBuffer ++ [c]).length > 32 := h2
      exact Nat.le_of_not_lt h3

theorem backendLoop_bound (rx : List (Nat × Char)) :
    ∀ s : Sys, s.dataBuffer.length ≤ 32 → (backendLoop rx s).dataBuffer.length ≤ 32 := by
  induction rx with
  | nil => intro s h; exact h
  | cons x rest ih =>
    intro s h
    obtain ⟨a, c⟩ := x
    simp only [backendLoop]
    split
    · exact ih _ (backendByte_bound _ c h)
    · exact h

theorem backendByte_keep (s : Sys) (c : Char) (hc : ¬ IsTerminator c)
    (h : s.dataBuffer.length < 32) :
    (backendByte s c).dataBuffer = s.dataBuffer ++ [c] ∧ (backendByte s c).log = s.log ∧
    (backendByte s c).receivedTime = s.receivedTime ∧
    (backendByte s c).backendSerial = s.backendSerial ∧ (backendByte s c).clock = s.clock := by
  have h1 : ¬ (decide (c = '\n') || decide (c = '\r')) = true := by
    intro h
    simp only [Bool.or_eq_true, decide_eq_true_eq] at h
    exact hc h
  have h2 : ¬ (s.dataBuffer ++ [c]).length > MAX_DATA_BUFFER := by
    simp only [MAX_DATA_BUFFER, List.length_append, List.length_singleton]
    omega
  unfold backendByte
  dsimp only
  rw [if_neg h1, if_neg h2]
  exact ⟨rfl, rfl, rfl, rfl, rfl⟩

theorem backendByte_overflow (s : Sys) (c : Char) (hc : ¬ IsTerminator c)
    (h : s.dataBuffer.length = 32) :
    (backendByte s c).dataBuffer = [] ∧
    (backendByte s c).log = s.log ++ [backendOverflowWarning] ∧
    (backendByte s c).receivedTime = s.receivedTime ∧
    (backendByte s c).backendSerial = s.backendSerial ∧ (backendByte s c).clock = s.clock := by
  have h1 : ¬ (decide (c = '\n') || decide (c = '\r')) = true := by
    intro h
    simp only [Bool.or_eq_true, decide_eq_true_eq] at h
    exact hc h
  have h2 : (s.dataBuffer ++ [c]).length > MAX_DATA_BUFFER := by
    simp only [MAX_DATA_BUFFER, List.length_append, List.length_singleton]
    omega
  unfold backendByte
  dsimp only
  rw [if_neg h1, if_pos h2]
  exact ⟨rfl, rfl, rfl, rfl, rfl⟩

theorem backendLoop_fill (rx : List (Nat × Char)) :
    ∀ s : Sys, rx ≠ [] → s.dataBuffer.length + rx.length = 33 →
      (∀ x ∈ rx, x.1 ≤ s.clock ∧ ¬ IsTerminator x.2) →
      (backendLoop rx s).dataBuffer = [] ∧
      (backendLoop rx s).log = s.log ++ [backendOverflowWarning] ∧
      (backendLoop rx s).receivedTime = s.receivedTime ∧
      (backendLoop rx s).backendSerial.rx = [] := by
  induction rx with
  | nil => intro s h; exact absurd rfl h
  | cons x rest ih =>
    intro s _ hlen hall
    obtain ⟨a, c⟩ := x
    have hx := hall (a, c) (List.mem_cons_self _ _)
    simp only [backendLoop]
    rw [if_pos hx.1]
    cases rest with
    | nil =>
      simp only [List.length_cons, List.length_nil] at hlen
      obtain ⟨h1, h2, h3, h4, _⟩ := backendByte_overflow
        { s with backendSerial := { s.backendSerial with rx := [] } } c hx.2
        (by show s.dataBuffer.length = 32; omega)
      simp only [backendLoop]
      exact ⟨h1, h2, h3, by rw [h4]⟩
    | cons y rest' =>
      simp only [List.length_cons] at hlen
      obtain ⟨h1, h2, h3, _, h5⟩ := backendByte_keep
        { s with backendSerial := { s.backendSerial with rx := y :: rest' } } c hx.2
        (by show s.dataBuffer.length < 32; omega)
      have h1' : (backendByte
          { s with backendSerial := { s.backendSerial with rx := y :: rest' } } c).dataBuffer =
          s.dataBuffer ++ [c] := h1
      have h5' : (backendByte
          { s with backendSerial := { s.backendSerial with rx := y :: rest' } } c).clock =
          s.clock := h5
      obtain ⟨g1, g2, g3, g4⟩ := ih
        (backendByte { s with backendSerial := { s.backendSerial with rx := y :: rest' } } c)
        (by simp)
        (by rw [h1']; simp only [List.length_append, List.length_cons, List.length_nil]; omega)
        (by
          intro z hz
          rw [h5']
          exact hall z (List.mem_cons_of_mem _ hz))
      exact ⟨g1, by rw [g2, h2], by rw [g3, h3], g4⟩

/-- C13: starting from an empty accumulation buffer, after each byte that
`readBackendData` takes from the FIFO (any prefix of its content) the buffer holds at
most 32 characters, and so it does when `readBackendData` returns; and when the FIFO
holds exactly 33 bytes, none a terminator and all arrived, `readBackendData` leaves the
buffer empty, appends exactly the one overflow warning to the log and leaves
`receivedTime` as it was, so no frame has gone to `parseTimeData`. -/
theorem readBackendData_bounded (s : Sys) (k : Nat) (h0 : s.dataBuffer = []) :
    (backendLoop (s.backendSerial.rx.take k) s).dataBuffer.length ≤ 32 ∧
    (readBackendData s).dataBuffer.length ≤ 32 ∧
    (s.backendSerial.rx.length = 33 →
      (∀ x ∈ s.backendSerial.rx, x.1 ≤ s.clock ∧ ¬ IsTerminator x.2) →
      (readBackendData s).dataBuffer = [] ∧
      (readBackendData s).log = s.log ++ [backendOverflowWarning] ∧
      (readBackendData s).receivedTime = s.receivedTime ∧
      (readBackendData s).backendSerial.rx = []) := by
  have hinit : ∀ u : Sys, (match s.lastActivity with
      | none => { s with lastActivity := some (millis s) }
      | some _ => s) = u →
      u.dataBuffer = [] ∧ u.backendSerial = s.backendSerial ∧ u.log = s.log ∧
        u.receivedTime = s.receivedTime ∧ u.clock = s.clock := by
    intro u hu
    subst hu
    cases s.lastActivity <;> exact ⟨h0, rfl, rfl, rfl, rfl⟩
  obtain ⟨i1, i2, i3, i4, i5⟩ := hinit _ rfl
  refine ⟨backendLoop_bound _ s (by rw [h0]; simp), ?_, ?_⟩
  · have hb := backendLoop_bound s.backendSerial.rx _ (by rw [i1]; simp : (match s.lastActivity with
      | none => { s with lastActivity := some (millis s) }
      | some _ => s).dataBuffer.length ≤ 32)
    unfold readBackendData
    dsimp only
    rw [i2]
    split
    · simp
    · exact hb
  · intro hlen hall
    obtain ⟨g1, g2, g3, g4⟩ := backendLoop_fill s.backendSerial.rx (match s.lastActivity with
      | none => { s with lastActivity := some (millis s) }
      | some _ => s)
      (by intro h; rw [h] at hlen; simp at hlen) (by rw [i1, hlen]; rfl)
      (by intro x hx; rw [i5]; exact hall x hx)
    unfold readBackendData
    dsimp only
    rw [i2]
    rw [if_neg (by rw [g1]; simp)]
    exact ⟨g1, by rw [g2, i3], by rw [g3, i4], g4⟩


theorem readBackendData_bounded_witness :
    (backendLoop (flooded.backendSerial.rx.take 5) flooded).dataBuffer.length ≤ 32 ∧
    (readBackendData flooded).dataBuffer.length ≤ 32 ∧
    (readBackendData flooded).dataBuffer = [] ∧
    (readBackendData flooded).log = flooded.log ++ [backendOverflowWarning] ∧
    (readBackendData flooded).receivedTime = flooded.receivedTime ∧
    (readBackendData flooded).backendSerial.rx = [] :=
  ⟨(readBackendData_bounded flooded 5 rfl).1, (readBackendData_bounded flooded 5 rfl).2.1,
    (readBackendData_bounded flooded 5 rfl).2.2 (by decide) (by decide)⟩

/-! ## The health monitor -/

theorem initUART_fields (s : Sys) :
    (initUART s).uartHealthy = true ∧ (initUART s).uartErrorCount = 0 ∧
    (initUART s).lastUARTActivity = millis s ∧ (initUART s).uart.begins = s.uart.begins + 1 ∧
    (initUART s).currentBaudRate = s.currentBaudRate ∧
    (initUART s).uart.baud = some s.currentBaudRate ∧ (initUART s).clock = s.clock :=
  ⟨rfl, rfl, rfl, rfl, rfl, rfl, rfl⟩

theorem checkUARTHealth_quiet (s : Sys) (h : s.uartErrorCount ≤ 5) :
    checkUARTHealth s =
      if u32sub (millis s) s.lastUARTActivity > 30000 ∧ s.uartHealthy = true then
        { s with log := s.log ++ [silenceWarning], uartHealthy := false }
      else s := by
  have hcnt : ¬ s.uartErrorCount > 5 := by omega
  unfold checkUARTHealth
  by_cases h1 : u32sub (millis s) s.lastUARTActivity > 30000
  · by_cases h2 : s.uartHealthy = true
    · simp only [h1, h2, if_true, and_self]
      split
      · rename_i hc
        exact absurd hc hcnt
      · rfl
    · simp only [h1, h2, if_true, and_false, if_false, Bool.false_eq_true]
      split
      · rename_i hc
        exact absurd hc hcnt
      · rfl
  · simp only [h1, false_and, if_false]
    split
    · rename_i hc
      exact absurd hc hcnt
    · rfl

theorem healthChecks_degraded (ds : List Nat) :
    ∀ s : Sys, s.uartErrorCount ≤ 5 → s.uartHealthy = false →
      (healthChecks ds s).log = s.log := by
  induction ds with
  | nil => intro s _ _; rfl
  | cons d ds ih =>
    intro s h1 h2
    have hq := checkUARTHealth_quiet (delay s d) h1
    rw [if_neg (by
      intro hh
      have : s.uartHealthy = true := hh.2
      rw [h2] at this
      exact absurd this (by decide))] at hq
    simp only [healthChecks, hq]
    exact ih (delay s d) h1 h2

theorem healthChecks_once (ds : List Nat) :
    ∀ s : Sys, s.uartErrorCount ≤ 5 →
      (healthChecks ds s).log = s.log ∨ (healthChecks ds s).log = s.log ++ [silenceWarning] := by
  induction ds with
  | nil => intro s _; exact Or.inl rfl
  | cons d ds ih =>
    intro s h1
    have hq := checkUARTHealth_quiet (delay s d) h1
    by_cases hc : u32sub (millis (delay s d)) (delay s d).lastUARTActivity > 30000 ∧
        (delay s d).uartHealthy = true
    · rw [if_pos hc] at hq
      right
      simp only [healthChecks, hq]
      exact healthChecks_degraded ds _ h1 rfl
    · rw [if_neg hc] at hq
      simp only [healthChecks, hq]
      exact ih (delay s d) h1

theorem healthChecks_stays (ds : List Nat) :
    ∀ s : Sys, s.uartErrorCount ≤ 5 → s.uartHealthy = false →
      (healthChecks ds s).uartHealthy = false := by
  induction ds with
  | nil => intro s _ h2; exact h2
  | cons d ds ih =>
    intro s h1 h2
    have hq := checkUARTHealth_quiet (delay s d) h1
    rw [if_neg (by
      intro hh
      have : s.uartHealthy = true := hh.2
      rw [h2] at this
      exact absurd this (by decide))] at hq
    simp only [healthChecks, hq]
    exact ih (delay s d) h1 h2

theorem healthChecks_log (ds : List Nat) :
    ∀ s : Sys, s.uartErrorCount ≤ 5 →
      (healthChecks ds s).log =
        if s.uartHealthy = true ∧ (healthChecks ds s).uartHealthy = false then
          s.log ++ [silenceWarning]
        else s.log := by
  induction ds with
  | nil =>
    intro s _
    have hn : ¬ (s.uartHealthy = true ∧ (healthChecks [] s).uartHealthy = false) := by
      rintro ⟨a, b⟩
      have b1 : s.uartHealthy = false := b
      rw [a] at b1
      exact absurd b1 (by decide)
    rw [if_neg hn]
    rfl
  | cons d ds ih =>
    intro s h1
    have hq := checkUARTHealth_quiet (delay s d) h1
    by_cases hc : u32sub (millis (delay s d)) (delay s d).lastUARTActivity > 30000 ∧
        (delay s d).uartHealthy = true
    · rw [if_pos hc] at hq
      have hh : s.uartHealthy = true := hc.2
      have hlog := healthChecks_degraded ds
        { delay s d with log := (delay s d).log ++ [silenceWarning], uartHealthy := false } h1 rfl
      have hst := healthChecks_stays ds
        { delay s d with log := (delay s d).log ++ [silenceWarning], uartHealthy := false } h1 rfl
      have e : healthChecks (d :: ds) s = healthChecks ds
          { delay s d with log := (delay s d).log ++ [silenceWarning], uartHealthy := false } := by
        simp only [healthChecks, hq]
      rw [e, if_pos ⟨hh, hst⟩, hlog]
      rfl
    · rw [if_neg hc] at hq
      have e : healthChecks (d :: ds) s = healthChecks ds (delay s d) := by
        simp only [healthChecks, hq]
      rw [e]
      exact ih (delay s d) h1

/-- C14: with `uartErrorCount ≤ 5`, `checkUARTHealth` leaves `uartHealthy` false when
`millis() - lastUARTActivity`, taken modulo 2^32, exceeds 30000 and leaves it as it was
otherwise (so also at exactly 30000).  The call appends exactly the one silence warning
to the log when it takes `uartHealthy` from true to false and appends nothing when it
does not.  Over any run of `checkUARTHealth` calls with only time passing in between,
the log gains exactly the one silence warning when the run takes `uartHealthy` from
true to false and gains nothing otherwise, so at most one warning is logged. -/
theorem checkUARTHealth_silence (s : Sys) (ds : List Nat) (h : s.uartErrorCount ≤ 5) :
    (30000 < ((millis s : Int) - (s.lastUARTActivity : Int)) % 4294967296 →
      (checkUARTHealth s).uartHealthy = false) ∧
    (((millis s : Int) - (s.lastUARTActivity : Int)) % 4294967296 ≤ 30000 →
      (checkUARTHealth s).uartHealthy = s.uartHealthy) ∧
    ((healthChecks ds s).log = s.log ∨ (healthChecks ds s).log = s.log ++ [silenceWarning]) ∧
    (s.uartHealthy = true ∧ (checkUARTHealth s).uartHealthy = false →
      (checkUARTHealth s).log = s.log ++ [silenceWarning]) ∧
    (¬ (s.uartHealthy = true ∧ (checkUARTHealth s).uartHealthy = false) →
      (checkUARTHealth s).log = s.log) ∧
    (s.uartHealthy = true ∧ (healthChecks ds s).uartHealthy = false →
      (healthChecks ds s).log = s.log ++ [silenceWarning]) ∧
    (¬ (s.uartHealthy = true ∧ (healthChecks ds s).uartHealthy = false) →
      (healthChecks ds s).log = s.log) := by
  have e := u32sub_eq (millis s) s.lastUARTActivity
  have hq := checkUARTHealth_quiet s h
  have hrun := healthChecks_log ds s h
  refine ⟨?_, ?_, healthChecks_once ds s h, ?_, ?_, ?_, ?_⟩
  · intro hgt
    have h1 : u32sub (millis s) s.lastUARTActivity > 30000 := by omega
    by_cases h2 : s.uartHealthy = true
    · rw [hq, if_pos ⟨h1, h2⟩]
    · rw [hq, if_neg (fun hh => h2 hh.2)]
      simpa using h2
  · intro hle
    have h1 : ¬ u32sub (millis s) s.lastUARTActivity > 30000 := by omega
    rw [hq, if_neg (fun hh => h1 hh.1)]
  · rintro ⟨a, b⟩
    by_cases hc : u32sub (millis s) s.lastUARTActivity > 30000 ∧ s.uartHealthy = true
    · rw [hq, if_pos hc]
    · rw [hq, if_neg hc] at b
      rw [a] at b
      exact absurd b (by decide)
  · intro hn
    by_cases hc : u32sub (millis s) s.lastUARTActivity > 30000 ∧ s.uartHealthy = true
    · exfalso
      apply hn
      refine ⟨hc.2, ?_⟩
      rw [hq, if_pos hc]
    · rw [hq, if_neg hc]
  · intro hc
    rw [hrun, if_pos hc]
  · intro hn
    rw [hrun, if_neg hn]

theorem checkUARTHealth_silence_witness :
    (checkUARTHealth { idle 30001 with uartErrorCount := 5 }).uartHealthy = false ∧
    (checkUARTHealth { idle 30000 with uartErrorCount := 5 }).uartHealthy = true ∧
    ((healthChecks [40000, 1, 50000] (idle 0)).log = (idle 0).log ∨
      (healthChecks [40000, 1, 50000] (idle 0)).log = (idle 0).log ++ [silenceWarning]) ∧
    (checkUARTHealth (idle 30001)).log = (idle 30001).log ++ [silenceWarning] ∧
    (checkUARTHealth (idle 30000)).log = (idle 30000).log ∧
    (healthChecks [40000, 1, 50000] (idle 0)).log = (idle 0).log ++ [silenceWarning] ∧
    (healthChecks [10000, 1, 19999] (idle 0)).log = (idle 0).log :=
  ⟨(checkUARTHealth_silence { idle 30001 with uartErrorCount := 5 } [] (by decide)).1
      (by decide),
    (checkUARTHealth_silence { idle 30000 with uartErrorCount := 5 } [] (by decide)).2.1
      (by decide),
    (checkUARTHealth_silence (idle 0) [40000, 1, 50000] (by decide)).2.2.1,
    (checkUARTHealth_silence (idle 30001) [] (by decide)).2.2.2.1 (by decide),
    (checkUARTHealth_silence (idle 30000) [] (by decide)).2.2.2.2.1 (by decide),
    (checkUARTHealth_silence (idle 0) [40000, 1, 50000] (by decide)).2.2.2.2.2.1 (by decide),
    (checkUARTHealth_silence (idle 0) [10000, 1, 19999] (by decide)).2.2.2.2.2.2 (by decide)⟩


theorem checkUARTHealth_forced (s : Sys) (h : s.uartErrorCount > 5) :
    (checkUARTHealth s).uart.begins = s.uart.begins + 1 ∧
    (checkUARTHealth s).uartErrorCount = 0 ∧ (checkUARTHealth s).uartHealthy = true ∧
    (checkUARTHealth s).lastUARTActivity = millis s := by
  unfold checkUARTHealth
  by_cases h1 : u32sub (millis s) s.lastUARTActivity > 30000
  · by_cases h2 : s.uartHealthy = true
    · simp only [h1, h2, if_true]
      split
      · exact ⟨rfl, rfl, rfl, rfl⟩
      · rename_i hc
        exact absurd h hc
    · simp only [h1, h2, if_true, if_false, Bool.false_eq_true]
      split
      · exact ⟨rfl, rfl, rfl, rfl⟩
      · rename_i hc
        exact absurd h hc
  · simp only [h1, if_false]
    split
    · exact ⟨rfl, rfl, rfl, rfl⟩
    · rename_i hc
      exact absurd h hc

theorem healthChecks_begins (ds : List Nat) :
    ∀ s : Sys, s.uartErrorCount ≤ 5 → (healthChecks ds s).uart.begins = s.uart.begins := by
  induction ds with
  | nil => intro s _; rfl
  | cons d ds ih =>
    intro s h1
    have hq := checkUARTHealth_quiet (delay s d) h1
    simp only [healthChecks]
    by_cases hc : u32sub (millis (delay s d)) (delay s d).lastUARTActivity > 30000 ∧
        (delay s d).uartHealthy = true
    · rw [if_pos hc] at hq
      rw [hq]
      exact ih _ h1
    · rw [if_neg hc] at hq
      rw [hq]
      exact ih (delay s d) h1

/-- C15: `checkUARTHealth` reinitialises the fault channel (one more `begin()` on the
port) exactly when `uartErrorCount > 5` on entry, and then `uartErrorCount` is 0; with
`uartErrorCount ≤ 5`, so also at exactly 5, there is no reinitialisation and the count
is kept; and after a forced reinitialisation any further run of `checkUARTHealth` calls,
with only time passing in between, performs none. -/
theorem checkUARTHealth_reinit (s : Sys) (ds : List Nat) :
    (s.uartErrorCount > 5 →
      (checkUARTHealth s).uart.begins = s.uart.begins + 1 ∧
      (checkUARTHealth s).uartErrorCount = 0) ∧
    (s.uartErrorCount ≤ 5 →
      (checkUARTHealth s).uart.begins = s.uart.begins ∧
      (checkUARTHealth s).uartErrorCount = s.uartErrorCount) ∧
    (s.uartErrorCount > 5 →
      (healthChecks ds (checkUARTHealth s)).uart.begins = s.uart.begins + 1) := by
  refine ⟨fun h => ⟨(checkUARTHealth_forced s h).1, (checkUARTHealth_forced s h).2.1⟩, ?_, ?_⟩
  · intro h
    have hq := checkUARTHealth_quiet s h
    by_cases hc : u32sub (millis s) s.lastUARTActivity > 30000 ∧ s.uartHealthy = true
    · rw [if_pos hc] at hq
      rw [hq]
      exact ⟨rfl, rfl⟩
    · rw [if_neg hc] at hq
      rw [hq]
      exact ⟨rfl, rfl⟩
  · intro h
    obtain ⟨h1, h2, _, _⟩ := checkUARTHealth_forced s h
    rw [healthChecks_begins ds _ (by rw [h2]; decide), h1]

theorem checkUARTHealth_reinit_witness :
    ((checkUARTHealth degraded).uart.begins = degraded.uart.begins + 1 ∧
      (checkUARTHealth degraded).uartErrorCount = 0) ∧
    ((checkUARTHealth { idle 7 with uartErrorCount := 5 }).uart.begins =
        ({ idle 7 with uartErrorCount := 5 } : Sys).uart.begins ∧
      (checkUARTHealth { idle 7 with uartErrorCount := 5 }).uartErrorCount = 5) ∧
    (healthChecks [1, 31000, 2] (checkUARTHealth degraded)).uart.begins =
      degraded.uart.begins + 1 :=
  ⟨(checkUARTHealth_reinit degraded []).1 (by decide),
    (checkUARTHealth_reinit { idle 7 with uartErrorCount := 5 } []).2.1 (by decide),
    (checkUARTHealth_reinit degraded [1, 31000, 2]).2.2 (by decide)⟩

/-- C16, as stated, fails: the machine `degraded` is Degraded with 6 errors; the
reinitialisation step `initUART` turns `uartHealthy` from false to true, and the
channel is Healthy when `checkUARTHealth` returns. -/
theorem checkUARTHealth_health_counterexample :
    degraded.uartErrorCount > 5 ∧ degraded.uartHealthy = false ∧
    (initUART degraded).uartHealthy ≠ degraded.uartHealthy ∧
    (checkUARTHealth degraded).uartHealthy = true := by
  refine ⟨by decide, rfl, by decide, ?_⟩
  exact (checkUARTHealth_forced degraded (by decide)).2.2.1

/-- C16, amended: a forced reinitialisation performed by `checkUARTHealth`
(`uartErrorCount > 5`) makes the channel Healthy: `initUART` sets `uartHealthy` to true
whatever it was, so when `checkUARTHealth` returns `uartHealthy` is true and
`lastUARTActivity` is the current `millis()`. -/
theorem forced_reinit_heals (s : Sys) (h : s.uartErrorCount > 5) :
    (initUART s).uartHealthy = true ∧ (checkUARTHealth s).uartHealthy = true ∧
    (checkUARTHealth s).lastUARTActivity = millis s :=
  ⟨rfl, (checkUARTHealth_forced s h).2.2.1, (checkUARTHealth_forced s h).2.2.2⟩

theorem forced_reinit_heals_witness :
    (initUART degraded).uartHealthy = true ∧ (checkUARTHealth degraded).uartHealthy = true ∧
    (checkUARTHealth degraded).lastUARTActivity = millis degraded :=
  forced_reinit_heals degraded (by decide)

/-! ## The baud rate -/

theorem isValidBaud_iff (b : Int) :
    isValidBaud b validBaudRates = true ↔
      (b = 9600 ∨ b = 19200 ∨ b = 38400 ∨ b = 57600 ∨ b = 115200 ∨ b = 230400 ∨
        b = 460800 ∨ b = 921600) := by
  simp only [isValidBaud, validBaudRates]
  constructor
  · intro h
    by_contra hn
    simp only [not_or] at hn
    obtain ⟨n1, n2, n3, n4, n5, n6, n7, n8⟩ := hn
    simp [n1, n2, n3, n4, n5, n6, n7, n8] at h
  · intro h
    rcases h with h | h | h | h | h | h | h | h <;> subst h <;> decide

theorem changeBaudRate_rejects (s : Sys) (b : Int) (h : isValidBaud b validBaudRates = false) :
    changeBaudRate s b = (false,
      addLog s (lit "\xE2\x9D\x8C Ge\xC3\xA7ersiz BaudRate: " ++ ofInt b) .ERROR (lit "UART")) := by
  simp [changeBaudRate, h]

theorem changeBaudRate_accepts (s : Sys) (b : Int) (h : isValidBaud b validBaudRates = true) :
    (changeBaudRate s b).1 = true ∧ (changeBaudRate s b).2.currentBaudRate = b ∧
    (changeBaudRate s b).2.storedBaudRate = some b ∧
    (changeBaudRate s b).2.uart.begins = s.uart.begins + 1 ∧
    (changeBaudRate s b).2.uart.baud = some b := by
  unfold changeBaudRate
  rw [h]
  exact ⟨rfl, rfl, rfl, rfl, rfl⟩


theorem checkUARTHealth_baud (s : Sys) :
    (checkUARTHealth s).currentBaudRate = s.currentBaudRate := by
  unfold checkUARTHealth
  by_cases h1 : u32sub (millis s) s.lastUARTActivity > 30000
  · by_cases h2 : s.uartHealthy = true
    · simp only [h1, h2, if_true]
      split <;> rfl
    · simp only [h1, h2, if_true, if_false, Bool.false_eq_true]
      split <;> rfl
  · simp only [h1, if_false]
    split <;> rfl

theorem parseTimeData_baud (s : Sys) (data : AString) :
    (parseTimeData s data).currentBaudRate = s.currentBaudRate := by
  unfold parseTimeData
  dsimp only
  split
  · rfl
  · split
    · split <;> rfl
    · split
      · split <;> rfl
      · rfl

theorem loadSettings_baud (s : Sys) : OneOfEight (loadSettings s).currentBaudRate := by
  unfold loadSettings
  dsimp only
  by_cases h : isValidBaud (s.storedBaudRate.getD 115200) validBaudRates = true
  · rw [h]
    exact (isValidBaud_iff _).mp h
  · have h' : isValidBaud (s.storedBaudRate.getD 115200) validBaudRates = false := by
      simpa using h
    rw [h']
    show OneOfEight 115200
    unfold OneOfEight
    decide

theorem reachable_baud (u : Sys) (h : Reachable u) : OneOfEight u.currentBaudRate := by
  induction h with
  | boot s => exact loadSettings_baud s
  | change s b _ ih =>
    by_cases hv : isValidBaud b validBaudRates = true
    · rw [(changeBaudRate_accepts s b hv).2.1]
      exact (isValidBaud_iff b).mp hv
    · have hv' : isValidBaud b validBaudRates = false := by simpa using hv
      rw [changeBaudRate_rejects s b hv']
      exact ih
  | health s _ ih =>
    rw [checkUARTHealth_baud]
    exact ih
  | init s _ ih => exact ih
  | parse s data _ ih =>
    rw [parseTimeData_baud]
    exact ih
  | tick s d _ ih => exact ih

/-- C20: `changeBaudRate(b)` returns true exactly when `b` is one of 9600, 19200,
38400, 57600, 115200, 230400, 460800, 921600; when it returns false
`settings.currentBaudRate`, `uartErrorCount`, `uartHealthy` and the port (so the number
of `begin()` calls) are as before; when it returns true `settings.currentBaudRate` is
`b`; and in every machine reachable after `loadSettings` the rate in
`settings.currentBaudRate` is one of the eight. -/
theorem changeBaudRate_valid (s : Sys) (b : Int) :
    ((changeBaudRate s b).1 = true ↔ OneOfEight b) ∧
    ((changeBaudRate s b).1 = false →
      (changeBaudRate s b).2.currentBaudRate = s.currentBaudRate ∧
      (changeBaudRate s b).2.uartErrorCount = s.uartErrorCount ∧
      (changeBaudRate s b).2.uartHealthy = s.uartHealthy ∧
      (changeBaudRate s b).2.uart = s.uart) ∧
    ((changeBaudRate s b).1 = true → (changeBaudRate s b).2.currentBaudRate = b) ∧
    (∀ u : Sys, Reachable u → OneOfEight u.currentBaudRate) := by
  by_cases hv : isValidBaud b validBaudRates = true
  · have ha := changeBaudRate_accepts s b hv
    refine ⟨⟨fun _ => (isValidBaud_iff b).mp hv, fun _ => ha.1⟩, ?_, fun _ => ha.2.1,
      reachable_baud⟩
    intro hf
    rw [ha.1] at hf
    exact absurd hf (by decide)
  · have hv' : isValidBaud b validBaudRates = false := by simpa using hv
    have hr := changeBaudRate_rejects s b hv'
    refine ⟨⟨?_, fun h => absurd ((isValidBaud_iff b).mpr h) hv⟩, ?_, ?_, reachable_baud⟩
    · intro ht
      rw [hr] at ht
      exact absurd ht Bool.false_ne_true
    · intro _
      rw [hr]
      exact ⟨rfl, rfl, rfl, rfl⟩
    · intro ht
      rw [hr] at ht
      exact absurd ht Bool.false_ne_true

theorem changeBaudRate_valid_witness :
    (changeBaudRate (idle 4) 9601).2.currentBaudRate = (idle 4).currentBaudRate ∧
    (changeBaudRate (idle 4) 9601).2.uartErrorCount = (idle 4).uartErrorCount ∧
    (changeBaudRate (idle 4) 9601).2.uartHealthy = (idle 4).uartHealthy ∧
    (changeBaudRate (idle 4) 9601).2.uart = (idle 4).uart ∧
    (changeBaudRate (idle 4) 9600).2.currentBaudRate = 9600 ∧
    OneOfEight (changeBaudRate (loadSettings (idle 4)) 9601).2.currentBaudRate :=
  ⟨((changeBaudRate_valid (idle 4) 9601).2.1 (by decide)).1,
    ((changeBaudRate_valid (idle 4) 9601).2.1 (by decide)).2.1,
    ((changeBaudRate_valid (idle 4) 9601).2.1 (by decide)).2.2.1,
    ((changeBaudRate_valid (idle 4) 9601).2.1 (by decide)).2.2.2,
    (changeBaudRate_valid (idle 4) 9600).2.2.1 (by decide),
    (changeBaudRate_valid (idle 4) 9600).2.2.2 _
      (Reachable.change _ 9601 (Reachable.boot (idle 4)))⟩


/-! ## The configuration push -/

theorem ackBody_timeout (start : Nat) (st : AckState)
    (ht : ¬ u32sub (millis st.sys) start < 3000) :
    ackBody start st = .exit .timedOut st.sys := by
  simp [ackBody, ht]

theorem ackBody_wait (start : Nat) (st : AckState)
    (ht : u32sub (millis st.sys) start < 3000)
    (hrx : ∀ x ∈ st.sys.backendSerial.rx.head?, st.sys.clock < x.1) :
    ackBody start st = .next { st with sys := delay st.sys 10 } := by
  have hav : st.sys.backendSerial.available st.sys.clock = false := by
    unfold Serial.available
    split
    · rfl
    · rename_i t c rest heq
      have := hrx (t, c) (by rw [heq]; simp)
      simp only [decide_eq_false_iff_not]
      omega
  simp [ackBody, ht, hav]

theorem ackBody_take (start : Nat) (st : AckState) (a : Nat) (c : Char)
    (rest : List (Nat × Char)) (ht : u32sub (millis st.sys) start < 3000)
    (hrx : st.sys.backendSerial.rx = (a, c) :: rest) (ha : a ≤ st.sys.clock) :
    ackBody start st =
      if IsTerminator c then
        if eqLit (trim st.responseBuffer) (lit "ACK") = true then
          .exit .ack { backendPopped st.sys rest with log := st.sys.log ++ [ackEntry] }
        else if eqLit (trim st.responseBuffer) (lit "NACK") = true then
          .exit .nack { backendPopped st.sys rest with log := st.sys.log ++ [nackEntry] }
        else .next { sys := delay (backendPopped st.sys rest) 10, responseBuffer := [] }
      else if (st.responseBuffer ++ [c]).length > 10 then
        .next { sys := delay (backendPopped st.sys rest) 10, responseBuffer := [] }
      else .next { sys := delay (backendPopped st.sys rest) 10,
                   responseBuffer := st.responseBuffer ++ [c] } := by
  have hav : st.sys.backendSerial.available st.sys.clock = true := by
    rw [available_cons _ _ a c rest hrx]
    simp [ha]
  have hrd := read_cons st.sys.backendSerial st.sys.clock a c rest hrx ha
  unfold ackBody
  dsimp only
  rw [if_pos ht, if_pos hav, hrd]
  dsimp only
  by_cases hterm : IsTerminator c
  · have h1 : (decide (c = '\n') || decide (c = '\r')) = true := by
      rcases hterm with h | h <;> simp [h]
    rw [if_pos h1, if_pos hterm]
    rfl
  · have h1 : ¬ (decide (c = '\n') || decide (c = '\r')) = true := by
      intro h
      simp only [Bool.or_eq_true, decide_eq_true_eq] at h
      exact hterm h
    rw [if_neg h1, if_neg hterm]
    rfl


theorem ackLoop_next (start fuel : Nat) (st st' : AckState) (h : ackBody start st = .next st') :
    ackLoop start (fuel + 1) st = ackLoop start fuel st' := by
  simp only [ackLoop, h]

theorem ackLoop_exit (start fuel : Nat) (st : AckState) (o : PushOutcome) (s' : Sys)
    (h : ackBody start st = .exit o s') : ackLoop start (fuel + 1) st = .ok (o, s') := by
  simp only [ackLoop, h]

theorem ackLoop_total (start : Nat) :
    ∀ (fuel : Nat) (st : AckState), start ≤ st.sys.clock → st.sys.clock < start + 3010 →
      start + 3010 ≤ 10 * fuel + st.sys.clock →
      ∃ o s', ackLoop (start % 4294967296) fuel st = .ok (o, s') ∧
        s'.backendSerial.tx = st.sys.backendSerial.tx ∧
        s'.log = st.sys.log ++ outcomeLog o ∧
        (o = .timedOut ∨ o = .ack ∨ o = .nack) ∧
        (o = .timedOut → start + 3000 ≤ s'.clock) ∧
        (o ≠ .timedOut → s'.clock < start + 3000) := by
  intro fuel
  induction fuel with
  | zero =>
    intro st _ h2 h3
    omega
  | succ fuel ih =>
    intro st h1 h2 h3
    have hel := elapsed_eq start st.sys.clock h1 (by omega)
    have hm : millis st.sys = st.sys.clock % 4294967296 := rfl
    by_cases ht : u32sub (millis st.sys) (start % 4294967296) < 3000
    swap
    · refine ⟨.timedOut, st.sys, ackLoop_exit _ _ _ _ _ (ackBody_timeout _ st ht), rfl,
        by simp [outcomeLog], Or.inl rfl, ?_, fun h => absurd rfl h⟩
      intro _
      rw [hm, hel] at ht
      omega
    have hlt : st.sys.clock < start + 3000 := by
      rw [hm, hel] at ht
      omega
    have hstep : ∀ st' : AckState, ackBody (start % 4294967296) st = .next st' →
        st'.sys.clock = st.sys.clock + 10 →
        st'.sys.backendSerial.tx = st.sys.backendSerial.tx → st'.sys.log = st.sys.log →
        ∃ o s', ackLoop (start % 4294967296) (fuel + 1) st = .ok (o, s') ∧
          s'.backendSerial.tx = st.sys.backendSerial.tx ∧
          s'.log = st.sys.log ++ outcomeLog o ∧
          (o = .timedOut ∨ o = .ack ∨ o = .nack) ∧
          (o = .timedOut → start + 3000 ≤ s'.clock) ∧
          (o ≠ .timedOut → s'.clock < start + 3000) := by
      intro st' hb hck htx hlog
      obtain ⟨o, s', g1, g2, g3, g4, g5, g6⟩ := ih st' (by omega) (by omega) (by omega)
      exact ⟨o, s', by rw [ackLoop_next _ _ _ _ hb]; exact g1, by rw [g2, htx],
        by rw [g3, hlog], g4, g5, g6⟩
    cases hrx : st.sys.backendSerial.rx with
    | nil =>
      exact hstep _ (ackBody_wait _ st ht (by rw [hrx]; simp)) rfl rfl rfl
    | cons x rest =>
      obtain ⟨a, c⟩ := x
      by_cases ha : a ≤ st.sys.clock
      swap
      · exact hstep _ (ackBody_wait _ st ht (by
          rw [hrx]
          intro y hy
          simp only [List.head?_cons, Option.mem_def, Option.some.injEq] at hy
          rw [← hy]
          show st.sys.clock < a
          omega)) rfl rfl rfl
      have hb := ackBody_take (start % 4294967296) st a c rest ht hrx ha
      by_cases hterm : IsTerminator c
      · rw [if_pos hterm] at hb
        by_cases hack : eqLit (trim st.responseBuffer) (lit "ACK") = true
        · rw [if_pos hack] at hb
          exact ⟨.ack, _, ackLoop_exit _ _ _ _ _ hb, rfl, rfl, Or.inr (Or.inl rfl),
            fun h => absurd h (by decide), fun _ => hlt⟩
        · rw [if_neg hack] at hb
          by_cases hnack : eqLit (trim st.responseBuffer) (lit "NACK") = true
          · rw [if_pos hnack] at hb
            exact ⟨.nack, _, ackLoop_exit _ _ _ _ _ hb, rfl, rfl, Or.inr (Or.inr rfl),
              fun h => absurd h (by decide), fun _ => hlt⟩
          · rw [if_neg hnack] at hb
            exact hstep _ hb rfl rfl rfl
      · rw [if_neg hterm] at hb
        by_cases hov : (st.responseBuffer ++ [c]).length > 10
        · rw [if_pos hov] at hb
          exact hstep _ hb rfl rfl rfl
        · rw [if_neg hov] at hb
          exact hstep _ hb rfl rfl rfl

theorem sendNTPConfigToBackend_sent (s : Sys) (h1 : s.ntpConfig.ntpServer1 ≠ [])
    (h2 : (pushMessage s).length ≤ 128) :
    ∃ o s1, ackLoop (s.clock % 4294967296) 301
        { sys := addLog { s with backendSerial := s.backendSerial.println (pushMessage s) }
            (pushedEntry (pushMessage s)).message .INFO (lit "NTP"),
          responseBuffer := [] } = .ok (o, s1) ∧
      sendNTPConfigToBackend s =
        .ok (o, if o = .timedOut then { s1 with log := s1.log ++ [timeoutEntry] } else s1) := by
  obtain ⟨o, s1, g1, _⟩ := ackLoop_total s.clock 301
    { sys := addLog { s with backendSerial := s.backendSerial.println (pushMessage s) }
        (pushedEntry (pushMessage s)).message .INFO (lit "NTP"),
      responseBuffer := [] } (le_refl _) (by show s.clock < s.clock + 3010; omega)
    (by show s.clock + 3010 ≤ 10 * 301 + s.clock; omega)
  refine ⟨o, s1, g1, ?_⟩
  have hne : ¬ s.ntpConfig.ntpServer1.length = 0 := by
    intro h
    exact h1 (List.length_eq_zero.mp h)
  have hfit : ¬ (lit "NTP_UPDATE;" ++ s.ntpConfig.ntpServer1 ++ lit ";" ++
      s.ntpConfig.ntpServer2).length > MAX_MESSAGE_LENGTH := by
    have : (pushMessage s).length ≤ 128 := h2
    unfold pushMessage at this
    simp only [MAX_MESSAGE_LENGTH]
    omega
  unfold sendNTPConfigToBackend
  rw [if_neg hne]
  dsimp only
  rw [if_neg hfit]
  have g1' := g1
  simp only [pushMessage, pushedEntry] at g1'
  show Except.bind (ackLoop (s.clock % 4294967296) 301 _) _ = _
  rw [g1']
  simp only [Except.bind]
  by_cases ho : o = .timedOut
  · rw [if_pos ho, if_pos ho]
    rfl
  · rw [if_neg ho, if_neg ho]


/-- C17: with a non-empty `ntpServer1`, `sendNTPConfigToBackend` builds the message
"NTP_UPDATE;" ++ server1 ++ ";" ++ server2; when the message is longer than 128 bytes
the function returns with the machine unchanged except for the one error entry in the
log, so nothing is written to the backend channel; otherwise, also at exactly 128 bytes,
the function returns and what it has appended to the backend output is exactly the
message followed by CR LF, once. -/
theorem sendNTPConfigToBackend_message (s : Sys) (h : s.ntpConfig.ntpServer1 ≠ []) :
    pushMessage s =
      lit "NTP_UPDATE;" ++ s.ntpConfig.ntpServer1 ++ lit ";" ++ s.ntpConfig.ntpServer2 ∧
    (128 < (pushMessage s).length →
      sendNTPConfigToBackend s = .ok (.tooLong, { s with log := s.log ++ [tooLongEntry] })) ∧
    ((pushMessage s).length ≤ 128 →
      ∃ o s', sendNTPConfigToBackend s = .ok (o, s') ∧
        s'.backendSerial.tx = s.backendSerial.tx ++ pushMessage s ++ ['\r', '\n']) := by
  refine ⟨rfl, ?_, ?_⟩
  · intro hlong
    have hne : ¬ s.ntpConfig.ntpServer1.length = 0 := by
      intro h0
      exact h (List.length_eq_zero.mp h0)
    have hbig : (lit "NTP_UPDATE;" ++ s.ntpConfig.ntpServer1 ++ lit ";" ++
        s.ntpConfig.ntpServer2).length > MAX_MESSAGE_LENGTH := by
      unfold pushMessage at hlong
      simp only [MAX_MESSAGE_LENGTH]
      omega
    unfold sendNTPConfigToBackend
    rw [if_neg hne]
    dsimp only
    rw [if_pos hbig]
    rfl
  · intro hfit
    obtain ⟨o, s1, g1, g2⟩ := sendNTPConfigToBackend_sent s h hfit
    obtain ⟨o', s1', t1, t2, _⟩ := ackLoop_total s.clock 301
      { sys := addLog { s with backendSerial := s.backendSerial.println (pushMessage s) }
          (pushedEntry (pushMessage s)).message .INFO (lit "NTP"),
        responseBuffer := [] } (le_refl _) (by show s.clock < s.clock + 3010; omega)
      (by show s.clock + 3010 ≤ 10 * 301 + s.clock; omega)
    rw [g1] at t1
    simp only [Except.ok.injEq, Prod.mk.injEq] at t1
    obtain ⟨rfl, rfl⟩ := t1
    refine ⟨o, _, g2, ?_⟩
    have htx : s1.backendSerial.tx = s.backendSerial.tx ++ pushMessage s ++ ['\r', '\n'] := t2
    by_cases ho : o = .timedOut
    · rw [if_pos ho]
      exact htx
    · rw [if_neg ho]
      exact htx

theorem sendNTPConfigToBackend_message_witness :
    (∃ o s', sendNTPConfigToBackend (configured 5 []) = .ok (o, s') ∧
      s'.backendSerial.tx = (configured 5 []).backendSerial.tx ++
        pushMessage (configured 5 []) ++ ['\r', '\n']) ∧
    sendNTPConfigToBackend overlong =
      .ok (.tooLong, { overlong with log := overlong.log ++ [tooLongEntry] }) :=
  ⟨(sendNTPConfigToBackend_message (configured 5 []) (by decide)).2.2 (by decide),
    (sendNTPConfigToBackend_message overlong (by decide)).2.1 (by decide)⟩

theorem ackLoop_token (a : Nat) :
    ∀ (fuel : Nat) (st : AckState) (o : PushOutcome) (s' : Sys),
      ackLoop a fuel st = .ok (o, s') →
      (o = .ack → ∃ tok ∈ tokensFrom st.responseBuffer (st.sys.backendSerial.rx.map Prod.snd),
        eqLit (trim tok) (lit "ACK") = true) ∧
      (o = .nack → ∃ tok ∈ tokensFrom st.responseBuffer (st.sys.backendSerial.rx.map Prod.snd),
        eqLit (trim tok) (lit "NACK") = true) := by
  intro fuel
  induction fuel with
  | zero =>
    intro st o s' h
    simp [ackLoop] at h
  | succ fuel ih =>
    intro st o s' h
    by_cases ht : u32sub (millis st.sys) a < 3000
    swap
    · rw [ackLoop_exit _ _ _ _ _ (ackBody_timeout _ st ht)] at h
      simp only [Except.ok.injEq, Prod.mk.injEq] at h
      rw [← h.1]
      exact ⟨fun hh => absurd hh (by decide), fun hh => absurd hh (by decide)⟩
    cases hrx : st.sys.backendSerial.rx with
    | nil =>
      rw [ackLoop_next _ _ _ _ (ackBody_wait _ st ht (by rw [hrx]; simp))] at h
      have := ih { st with sys := delay st.sys 10 } o s' h
      have hsame : ({ st with sys := delay st.sys 10 } : AckState).sys.backendSerial.rx = [] := hrx
      rw [hsame] at this
      exact this
    | cons x rest =>
      obtain ⟨t, c⟩ := x
      by_cases ha : t ≤ st.sys.clock
      swap
      · rw [ackLoop_next _ _ _ _ (ackBody_wait _ st ht (by
          rw [hrx]
          intro y hy
          simp only [List.head?_cons, Option.mem_def, Option.some.injEq] at hy
          rw [← hy]
          show st.sys.clock < t
          omega))] at h
        have := ih { st with sys := delay st.sys 10 } o s' h
        have hsame : ({ st with sys := delay st.sys 10 } : AckState).sys.backendSerial.rx =
            (t, c) :: rest := hrx
        rw [hsame] at this
        exact this
      have hbody := ackBody_take a st t c rest ht hrx ha
      have hmap : ((t, c) :: rest).map Prod.snd = c :: rest.map Prod.snd := rfl
      rw [hmap]
      by_cases hterm : IsTerminator c
      · rw [if_pos hterm] at hbody
        have htok : tokensFrom st.responseBuffer (c :: rest.map Prod.snd) =
            st.responseBuffer :: tokensFrom [] (rest.map Prod.snd) := by
          rw [tokensFrom, if_pos hterm]
        rw [htok]
        by_cases hack : eqLit (trim st.responseBuffer) (lit "ACK") = true
        · rw [if_pos hack] at hbody
          rw [ackLoop_exit _ _ _ _ _ hbody] at h
          simp only [Except.ok.injEq, Prod.mk.injEq] at h
          rw [← h.1]
          exact ⟨fun _ => ⟨st.responseBuffer, List.mem_cons_self _ _, hack⟩,
            fun hh => absurd hh (by decide)⟩
        · rw [if_neg hack] at hbody
          by_cases hnack : eqLit (trim st.responseBuffer) (lit "NACK") = true
          · rw [if_pos hnack] at hbody
            rw [ackLoop_exit _ _ _ _ _ hbody] at h
            simp only [Except.ok.injEq, Prod.mk.injEq] at h
            rw [← h.1]
            exact ⟨fun hh => absurd hh (by decide),
              fun _ => ⟨st.responseBuffer, List.mem_cons_self _ _, hnack⟩⟩
          · rw [if_neg hnack] at hbody
            rw [ackLoop_next _ _ _ _ hbody] at h
            obtain ⟨g1, g2⟩ := ih _ o s' h
            constructor
            · intro ho
              obtain ⟨tok, m, e⟩ := g1 ho
              exact ⟨tok, List.mem_cons_of_mem _ m, e⟩
            · intro ho
              obtain ⟨tok, m, e⟩ := g2 ho
              exact ⟨tok, List.mem_cons_of_mem _ m, e⟩
      · rw [if_neg hterm] at hbody
        by_cases hov : (st.responseBuffer ++ [c]).length > 10
        · rw [if_pos hov] at hbody
          rw [ackLoop_next _ _ _ _ hbody] at h
          have htok : tokensFrom st.responseBuffer (c :: rest.map Prod.snd) =
              tokensFrom [] (rest.map Prod.snd) := by
            rw [tokensFrom, if_neg hterm, if_pos hov]
          rw [htok]
          exact ih _ o s' h
        · rw [if_neg hov] at hbody
          rw [ackLoop_next _ _ _ _ hbody] at h
          have htok : tokensFrom st.responseBuffer (c :: rest.map Prod.snd) =
              tokensFrom (st.responseBuffer ++ [c]) (rest.map Prod.snd) := by
            rw [tokensFrom, if_neg hterm, if_neg hov]
          rw [htok]
          exact ih _ o s' h


theorem sendNTPConfigToBackend_cases (s : Sys) :
    sendNTPConfigToBackend s = .ok (.noServer, addLog s
        (lit "NTP sunucu adresi bo\xC5\x9F, arka porta g\xC3\xB6nderilmiyor.") .WARN (lit "NTP")) ∨
    sendNTPConfigToBackend s = .ok (.tooLong, { s with log := s.log ++ [tooLongEntry] }) ∨
    (s.ntpConfig.ntpServer1 ≠ [] ∧ (pushMessage s).length ≤ 128) := by
  by_cases h1 : s.ntpConfig.ntpServer1.length = 0
  · left
    unfold sendNTPConfigToBackend
    rw [if_pos h1]
  · by_cases h2 : (pushMessage s).length ≤ 128
    · right
      right
      exact ⟨fun h => h1 (by rw [h]; rfl), h2⟩
    · right
      left
      have hbig : (lit "NTP_UPDATE;" ++ s.ntpConfig.ntpServer1 ++ lit ";" ++
          s.ntpConfig.ntpServer2).length > MAX_MESSAGE_LENGTH := by
        unfold pushMessage at h2
        simp only [MAX_MESSAGE_LENGTH]
        omega
      unfold sendNTPConfigToBackend
      rw [if_neg h1]
      dsimp only
      rw [if_pos hbig]
      rfl

theorem tokensFrom_short : ∀ (bytes : List Char) (buf : AString), buf.length ≤ 10 →
    (∀ c ∈ buf, ¬ IsTerminator c) →
    ∀ tok ∈ tokensFrom buf bytes, tok.length ≤ 10 ∧ ∀ c ∈ tok, ¬ IsTerminator c := by
  intro bytes
  induction bytes with
  | nil =>
    intro buf _ _ tok m
    simp [tokensFrom] at m
  | cons c cs ih =>
    intro buf hlen hnt tok m
    rw [tokensFrom] at m
    by_cases hterm : IsTerminator c
    · rw [if_pos hterm] at m
      rcases List.mem_cons.mp m with e | e
      · rw [e]
        exact ⟨hlen, hnt⟩
      · exact ih [] (Nat.zero_le _) (fun x hx => absurd hx (List.not_mem_nil x)) tok e
    · rw [if_neg hterm] at m
      by_cases hov : (buf ++ [c]).length > 10
      · rw [if_pos hov] at m
        exact ih [] (Nat.zero_le _) (fun x hx => absurd hx (List.not_mem_nil x)) tok m
      · rw [if_neg hov] at m
        refine ih (buf ++ [c]) (by omega) ?_ tok m
        intro x hx
        rcases List.mem_append.mp hx with hx | hx
        · exact hnt x hx
        · rw [List.mem_singleton.mp hx]
          exact hterm

/-- C18, as stated, fails twice.  A token padded with white space is accepted: the
stream " ACK \n" ends in the ACK outcome, because the buffer is trimmed before it is
compared.  And a token longer than 10 bytes that merely ends in "ACK" is accepted: in
"XXXXXXXXXXXACK\n" the eleventh byte resets the buffer, which then holds just "ACK" at
the terminator. -/
theorem sendNTPConfigToBackend_token_counterexample :
    (sendNTPConfigToBackend (configured 5 (arriving 7 " ACK \n"))).toOption.map Prod.fst =
      some PushOutcome.ack ∧
    (sendNTPConfigToBackend (configured 5 (arriving 7 "XXXXXXXXXXXACK\n"))).toOption.map
      Prod.fst = some PushOutcome.ack := by
  decide

/-- C18, amended: for every inbound byte stream, `sendNTPConfigToBackend` returns, and
it ends with the ACK outcome only if the stream has a terminator at which the token,
that is the bytes received since the previous terminator or since the byte that
exceeded the cap of 10, compares equal to "ACK" once the white space at both ends is
removed; likewise the NACK outcome and "NACK".  A token is never longer than 10 bytes
and holds no terminator. -/
theorem sendNTPConfigToBackend_token (s : Sys) :
    (∃ o s', sendNTPConfigToBackend s = .ok (o, s') ∧
      (o = .ack → HasToken (s.backendSerial.rx.map Prod.snd) (lit "ACK")) ∧
      (o = .nack → HasToken (s.backendSerial.rx.map Prod.snd) (lit "NACK"))) ∧
    (∀ tok ∈ tokensFrom [] (s.backendSerial.rx.map Prod.snd),
      tok.length ≤ 10 ∧ ∀ c ∈ tok, ¬ IsTerminator c) := by
  refine ⟨?_, fun tok m => tokensFrom_short _ [] (Nat.zero_le _)
    (fun x hx => absurd hx (List.not_mem_nil x)) tok m⟩
  rcases sendNTPConfigToBackend_cases s with h | h | ⟨h1, h2⟩
  · exact ⟨_, _, h, fun hh => absurd hh (by decide), fun hh => absurd hh (by decide)⟩
  · exact ⟨_, _, h, fun hh => absurd hh (by decide), fun hh => absurd hh (by decide)⟩
  · obtain ⟨o, s1, g1, g2⟩ := sendNTPConfigToBackend_sent s h1 h2
    have := ackLoop_token (s.clock % 4294967296) 301 (pushed s) o s1 g1
    exact ⟨o, _, g2, this.1, this.2⟩

theorem sendNTPConfigToBackend_token_witness :
    ((∃ o s', sendNTPConfigToBackend (configured 5 (arriving 7 "NACK\r")) = .ok (o, s') ∧
      (o = .ack →
        HasToken ((configured 5 (arriving 7 "NACK\r")).backendSerial.rx.map Prod.snd)
          (lit "ACK")) ∧
      (o = .nack →
        HasToken ((configured 5 (arriving 7 "NACK\r")).backendSerial.rx.map Prod.snd)
          (lit "NACK"))) ∧
    (∀ tok ∈ tokensFrom [] ((configured 5 (arriving 7 "NACK\r")).backendSerial.rx.map Prod.snd),
      tok.length ≤ 10 ∧ ∀ c ∈ tok, ¬ IsTerminator c)) ∧
    (sendNTPConfigToBackend (configured 5 (arriving 7 "NACK\r"))).toOption.map Prod.fst =
      some PushOutcome.nack ∧
    HasToken (lit "NACK\r") (lit "NACK") ∧ ¬ HasToken (lit "NACK\r") (lit "ACK") ∧
    ¬ HasToken (lit "XACK\n") (lit "ACK") ∧ ¬ HasToken (lit "ACKX\n") (lit "ACK") ∧
    ¬ HasToken (lit "ACK") (lit "ACK") ∧ ¬ HasToken (lit "XXXXXXXXACK\n") (lit "ACK") ∧
    HasToken (lit " ACK \n") (lit "ACK") ∧ HasToken (lit "XXXXXXXXXXXACK\n") (lit "ACK") ∧
    tokensFrom [] (lit "NACK\r\nXXXXXXXXXXXACK\n") = [lit "NACK", [], lit "ACK"] :=
  ⟨sendNTPConfigToBackend_token (configured 5 (arriving 7 "NACK\r")), by decide, by decide,
    by decide, by decide, by decide, by decide, by decide, by decide, by decide, by decide⟩


theorem le_ackFinish (l : List (Nat × Char)) : ∀ now, now ≤ ackFinish now l := by
  induction l with
  | nil => intro now; exact le_refl _
  | cons x rest ih =>
    intro now
    have h1 := ih (ackPass now x.1 + 10)
    have h2 : now ≤ ackPass now x.1 := by
      unfold ackPass
      split <;> omega
    simp only [ackFinish]
    omega

theorem ackFinish_cons_ge (now : Nat) (x : Nat × Char) (l : List (Nat × Char)) :
    now + 10 ≤ ackFinish now (x :: l) := by
  have h1 := le_ackFinish l (ackPass now x.1 + 10)
  have h2 : now ≤ ackPass now x.1 := by
    unfold ackPass
    split <;> omega
  simp only [ackFinish]
  omega

theorem ackLoop_run (start : Nat) :
    ∀ (fuel : Nat) (st : AckState) (X : List (Nat × Char)) (e : Nat × Char)
      (R : List (Nat × Char)),
      st.sys.backendSerial.rx = X ++ e :: R → (∀ x ∈ X, ¬ IsTerminator x.2) →
      st.responseBuffer.length + X.length ≤ 10 → start ≤ st.sys.clock →
      ackFinish st.sys.clock (X ++ [e]) ≤ start + 3000 →
      start + 3010 ≤ 10 * fuel + st.sys.clock →
      ∃ fuel' st', ackLoop (start % 4294967296) fuel st =
          ackLoop (start % 4294967296) (fuel' + 1) st' ∧
        st'.responseBuffer = st.responseBuffer ++ X.map Prod.snd ∧
        st'.sys.backendSerial.rx = e :: R ∧ e.1 ≤ st'.sys.clock ∧ start ≤ st'.sys.clock ∧
        st'.sys.clock + 10 = ackFinish st.sys.clock (X ++ [e]) ∧
        st'.sys.log = st.sys.log ∧ st'.sys.backendSerial.tx = st.sys.backendSerial.tx := by
  intro fuel
  induction fuel with
  | zero =>
    intro st X e R _ _ _ _ hfin hfuel
    have hX : ∃ h tl, X ++ [e] = h :: tl := by
      cases X with
      | nil => exact ⟨e, [], rfl⟩
      | cons x l => exact ⟨x, l ++ [e], rfl⟩
    obtain ⟨h, tl, hX⟩ := hX
    have := ackFinish_cons_ge st.sys.clock h tl
    rw [hX] at hfin
    omega
  | succ fuel ih =>
    intro st X e R hrx hX hroom hstart hfin hfuel
    have hlt : st.sys.clock + 10 ≤ start + 3000 := by
      have hX' : ∃ h tl, X ++ [e] = h :: tl := by
        cases X with
        | nil => exact ⟨e, [], rfl⟩
        | cons x l => exact ⟨x, l ++ [e], rfl⟩
      obtain ⟨h, tl, hX'⟩ := hX'
      have := ackFinish_cons_ge st.sys.clock h tl
      rw [hX'] at hfin
      omega
    have hel : u32sub (millis st.sys) (start % 4294967296) < 3000 := by
      have := elapsed_eq start st.sys.clock hstart (by omega)
      show u32sub (st.sys.clock % 4294967296) (start % 4294967296) < 3000
      omega
    have hwait : ∀ (a : Nat) (c : Char) (tl tl2 : List (Nat × Char)),
        st.sys.backendSerial.rx = (a, c) :: tl → X ++ [e] = (a, c) :: tl2 →
        ¬ a ≤ st.sys.clock →
        ∃ fuel' st', ackLoop (start % 4294967296) (fuel + 1) st =
            ackLoop (start % 4294967296) (fuel' + 1) st' ∧
          st'.responseBuffer = st.responseBuffer ++ X.map Prod.snd ∧
          st'.sys.backendSerial.rx = e :: R ∧ e.1 ≤ st'.sys.clock ∧ start ≤ st'.sys.clock ∧
          st'.sys.clock + 10 = ackFinish st.sys.clock (X ++ [e]) ∧
          st'.sys.log = st.sys.log ∧
          st'.sys.backendSerial.tx = st.sys.backendSerial.tx := by
      intro a c tl tl2 hrx' hXe hna
      have hb := ackBody_wait (start % 4294967296) st hel (by
        rw [hrx']
        intro y hy
        simp only [List.head?_cons, Option.mem_def, Option.some.injEq] at hy
        rw [← hy]
        show st.sys.clock < a
        omega)
      have hsame : ackFinish (st.sys.clock + 10) (X ++ [e]) =
          ackFinish st.sys.clock (X ++ [e]) := by
        rw [hXe]
        simp only [ackFinish]
        have e1 : ackPass (st.sys.clock + 10) a = ackPass st.sys.clock a := by
          unfold ackPass
          rw [if_neg hna]
          split <;> omega
        rw [e1]
      obtain ⟨fuel', st', g1, g2, g3, g4, g5, g6, g7, g8⟩ :=
        ih { st with sys := delay st.sys 10 } X e R hrx hX hroom
          (by show start ≤ st.sys.clock + 10; omega) (by rw [← hsame] at hfin; exact hfin)
          (by show start + 3010 ≤ 10 * fuel + (st.sys.clock + 10); omega)
      exact ⟨fuel', st', by rw [ackLoop_next _ _ _ _ hb]; exact g1, g2, g3, g4, g5,
        by rw [g6]; exact hsame, g7, g8⟩
    cases X with
    | nil =>
      obtain ⟨a, c⟩ := e
      have hrx' : st.sys.backendSerial.rx = (a, c) :: R := by
        rw [hrx]
        rfl
      by_cases ha : a ≤ st.sys.clock
      · refine ⟨fuel, st, rfl, by simp, hrx', ha, hstart, ?_, rfl, rfl⟩
        simp only [List.nil_append, ackFinish, ackPass]
        rw [if_pos ha]
      · exact hwait a c _ [] hrx' rfl ha
    | cons x X' =>
      obtain ⟨a, c⟩ := x
      have hrx' : st.sys.backendSerial.rx = (a, c) :: (X' ++ e :: R) := by
        rw [hrx]
        rfl
      by_cases ha : a ≤ st.sys.clock
      · have hnt : ¬ IsTerminator c := hX (a, c) (List.mem_cons_self _ _)
        simp only [List.length_cons] at hroom
        have hfit : ¬ (st.responseBuffer ++ [c]).length > 10 := by
          simp only [List.length_append, List.length_cons, List.length_nil]
          omega
        have hb := ackBody_take (start % 4294967296) st a c _ hel hrx' ha
        rw [if_neg hnt, if_neg hfit] at hb
        have hstepfin : ackFinish st.sys.clock ((a, c) :: X' ++ [e]) =
            ackFinish (st.sys.clock + 10) (X' ++ [e]) := by
          simp only [List.cons_append, ackFinish, ackPass]
          rw [if_pos ha]
          rfl
        obtain ⟨fuel', st', g1, g2, g3, g4, g5, g6, g7, g8⟩ :=
          ih { sys := delay (backendPopped st.sys (X' ++ e :: R)) 10,
               responseBuffer := st.responseBuffer ++ [c] } X' e R rfl
            (fun y hy => hX y (List.mem_cons_of_mem _ hy))
            (by
              show (st.responseBuffer ++ [c]).length + X'.length ≤ 10
              simp only [List.length_append, List.length_cons, List.length_nil]
              omega)
            (by show start ≤ st.sys.clock + 10; omega)
            (by
              show ackFinish (st.sys.clock + 10) (X' ++ [e]) ≤ start + 3000
              rw [← hstepfin]
              exact hfin)
            (by show start + 3010 ≤ 10 * fuel + (st.sys.clock + 10); omega)
        refine ⟨fuel', st', by rw [ackLoop_next _ _ _ _ hb]; exact g1, ?_, g3, g4, g5, ?_, g7, g8⟩
        · rw [g2]
          simp
        · rw [g6, hstepfin]
          rfl
      · exact hwait a c _ (X' ++ [e]) hrx' rfl ha


theorem ackLoop_quiet (start : Nat) :
    ∀ (fuel : Nat) (st : AckState) (o : PushOutcome) (s' : Sys),
      (∀ x ∈ st.sys.backendSerial.rx.head?, start + 3000 ≤ x.1) →
      start ≤ st.sys.clock → st.sys.clock < start + 3010 →
      ackLoop (start % 4294967296) fuel st = .ok (o, s') → o = .timedOut := by
  intro fuel
  induction fuel with
  | zero =>
    intro st o s' _ _ _ h
    simp [ackLoop] at h
  | succ fuel ih =>
    intro st o s' hrx h1 h2 h
    have hel := elapsed_eq start st.sys.clock h1 (by omega)
    have hm : millis st.sys = st.sys.clock % 4294967296 := rfl
    by_cases ht : u32sub (millis st.sys) (start % 4294967296) < 3000
    · have hlt : st.sys.clock < start + 3000 := by
        rw [hm, hel] at ht
        omega
      rw [ackLoop_next _ _ _ _ (ackBody_wait _ st ht (by
        intro y hy
        have := hrx y hy
        omega))] at h
      exact ih { st with sys := delay st.sys 10 } o s' hrx
        (by show start ≤ st.sys.clock + 10; omega)
        (by show st.sys.clock + 10 < start + 3010; omega) h
    · rw [ackLoop_exit _ _ _ _ _ (ackBody_timeout _ st ht)] at h
      simp only [Except.ok.injEq, Prod.mk.injEq] at h
      exact h.1.symm

/-- C19: for a configuration with a non-empty `ntpServer1` whose message fits in 128
bytes: when the backend channel delivers "ACK\n" in time (the pass that takes the
terminator begins before the 3000 ms are over, the loop polling every 10 ms),
`sendNTPConfigToBackend` ends in the ACK outcome at that very pass, reads nothing
further, and has logged the sent entry and the success entry; when no byte arrives for
3000 ms it returns with the timed-out outcome after at least 3000 ms, having logged the
sent entry and exactly one timeout warning.  In both cases what it has appended to the
backend output is the message followed by CR LF, once. -/
theorem sendNTPConfigToBackend_scenarios (s : Sys) (a1 a2 a3 a4 : Nat)
    (R : List (Nat × Char)) (h1 : s.ntpConfig.ntpServer1 ≠ [])
    (h2 : (pushMessage s).length ≤ 128) :
    (s.backendSerial.rx = [(a1, 'A'), (a2, 'C'), (a3, 'K'), (a4, '\n')] ++ R →
      ackFinish s.clock [(a1, 'A'), (a2, 'C'), (a3, 'K'), (a4, '\n')] ≤ s.clock + 3000 →
      ∃ s', sendNTPConfigToBackend s = .ok (.ack, s') ∧
        s'.log = s.log ++ [pushedEntry (pushMessage s), ackEntry] ∧
        s'.backendSerial.tx = s.backendSerial.tx ++ pushMessage s ++ ['\r', '\n'] ∧
        s'.backendSerial.rx = R ∧
        s'.clock + 10 = ackFinish s.clock [(a1, 'A'), (a2, 'C'), (a3, 'K'), (a4, '\n')]) ∧
    ((∀ x ∈ s.backendSerial.rx.head?, s.clock + 3000 ≤ x.1) →
      ∃ s', sendNTPConfigToBackend s = .ok (.timedOut, s') ∧
        s'.log = s.log ++ [pushedEntry (pushMessage s), timeoutEntry] ∧
        s'.backendSerial.tx = s.backendSerial.tx ++ pushMessage s ++ ['\r', '\n'] ∧
        s.clock + 3000 ≤ s'.clock) := by
  obtain ⟨o, s1, g1, g2⟩ := sendNTPConfigToBackend_sent s h1 h2
  have g1' : ackLoop (s.clock % 4294967296) 301 (pushed s) = .ok (o, s1) := g1
  constructor
  · intro hrx hfin
    obtain ⟨fuel', st', r1, r2, r3, r4, r5, r6, r7, r8⟩ :=
      ackLoop_run s.clock 301 (pushed s) [(a1, 'A'), (a2, 'C'), (a3, 'K')] (a4, '\n') R
        hrx
        (by
          intro x hx
          simp only [List.mem_cons, List.mem_singleton, List.not_mem_nil, or_false] at hx
          rcases hx with hx | hx | hx
          · rw [hx]
            show ¬ IsTerminator 'A'
            decide
          · rw [hx]
            show ¬ IsTerminator 'C'
            decide
          · rw [hx]
            show ¬ IsTerminator 'K'
            decide)
        (by show (0 : Nat) + 3 ≤ 10; omega) (le_refl _) hfin
        (by show s.clock + 3010 ≤ 10 * 301 + s.clock; omega)
    have hfin' : ackFinish s.clock [(a1, 'A'), (a2, 'C'), (a3, 'K'), (a4, '\n')] ≤
        s.clock + 3000 := hfin
    have r6' : st'.sys.clock + 10 =
        ackFinish s.clock [(a1, 'A'), (a2, 'C'), (a3, 'K'), (a4, '\n')] := r6
    have hel : u32sub (millis st'.sys) (s.clock % 4294967296) < 3000 := by
      have := elapsed_eq s.clock st'.sys.clock r5 (by omega)
      show u32sub (st'.sys.clock % 4294967296) (s.clock % 4294967296) < 3000
      omega
    have hb := ackBody_take (s.clock % 4294967296) st' a4 '\n' R hel r3 r4
    have hbuf : st'.responseBuffer = ['A', 'C', 'K'] := r2
    rw [if_pos (show IsTerminator '\n' from Or.inl rfl), hbuf,
      if_pos (show eqLit (trim ['A', 'C', 'K']) (lit "ACK") = true by decide)] at hb
    rw [r1, ackLoop_exit _ _ _ _ _ hb] at g1'
    simp only [Except.ok.injEq, Prod.mk.injEq] at g1'
    obtain ⟨ho, hs1⟩ := g1'
    subst ho
    subst hs1
    refine ⟨_, g2, ?_, ?_, rfl, r6'⟩
    · show st'.sys.log ++ [ackEntry] = _
      rw [r7]
      simp [pushed, addLog, pushedEntry]
    · show st'.sys.backendSerial.tx = _
      rw [r8]
      simp [pushed, addLog, Serial.println]
  · intro hquiet
    have ho := ackLoop_quiet s.clock 301 (pushed s) o s1 hquiet (le_refl _)
      (by show s.clock < s.clock + 3010; omega) g1'
    obtain ⟨o', s1', t1, t2, t3, _, t5, _⟩ := ackLoop_total s.clock 301 (pushed s) (le_refl _)
      (by show s.clock < s.clock + 3010; omega)
      (by show s.clock + 3010 ≤ 10 * 301 + s.clock; omega)
    rw [g1'] at t1
    simp only [Except.ok.injEq, Prod.mk.injEq] at t1
    obtain ⟨ho', hs1'⟩ := t1
    subst ho'
    subst hs1'
    subst ho
    rw [if_pos rfl] at g2
    refine ⟨_, g2, ?_, ?_, t5 rfl⟩
    · show s1.log ++ [timeoutEntry] = _
      rw [t3]
      simp [pushed, addLog, pushedEntry, outcomeLog]
    · show s1.backendSerial.tx = _
      rw [t2]
      simp [pushed, addLog, Serial.println]

theorem sendNTPConfigToBackend_scenarios_witness :
    (∃ s', sendNTPConfigToBackend (configured 5 (arriving 7 "ACK\n")) = .ok (.ack, s') ∧
      s'.log = (configured 5 (arriving 7 "ACK\n")).log ++
        [pushedEntry (pushMessage (configured 5 (arriving 7 "ACK\n"))), ackEntry] ∧
      s'.backendSerial.tx = (configured 5 (arriving 7 "ACK\n")).backendSerial.tx ++
        pushMessage (configured 5 (arriving 7 "ACK\n")) ++ ['\r', '\n'] ∧
      s'.backendSerial.rx = [] ∧
      s'.clock + 10 = ackFinish (configured 5 (arriving 7 "ACK\n")).clock
        [(7, 'A'), (7, 'C'), (7, 'K'), (7, '\n')]) ∧
    (∃ s', sendNTPConfigToBackend (configured 5 []) = .ok (.timedOut, s') ∧
      s'.log = (configured 5 []).log ++
        [pushedEntry (pushMessage (configured 5 [])), timeoutEntry] ∧
      s'.backendSerial.tx = (configured 5 []).backendSerial.tx ++
        pushMessage (configured 5 []) ++ ['\r', '\n'] ∧
      (configured 5 []).clock + 3000 ≤ s'.clock) :=
  ⟨(sendNTPConfigToBackend_scenarios (configured 5 (arriving 7 "ACK\n")) 7 7 7 7 []
      (by decide) (by decide)).1 rfl (by decide),
    (sendNTPConfigToBackend_scenarios (configured 5 []) 0 0 0 0 [] (by decide)
      (by decide)).2 (by decide)⟩

/-! ## The stored NTP settings -/

theorem ackBody_config (start : Nat) (st : AckState) :
    (∀ o s', ackBody start st = .exit o s' → s'.ntpConfig = st.sys.ntpConfig ∧
      s'.ntpConfigured = st.sys.ntpConfigured ∧ s'.ntpPrefs = st.sys.ntpPrefs) ∧
    (∀ st', ackBody start st = .next st' → st'.sys.ntpConfig = st.sys.ntpConfig ∧
      st'.sys.ntpConfigured = st.sys.ntpConfigured ∧ st'.sys.ntpPrefs = st.sys.ntpPrefs) := by
  constructor
  · intro o s' h
    unfold ackBody at h
    dsimp only at h
    split_ifs at h <;> cases h <;> exact ⟨rfl, rfl, rfl⟩
  · intro st' h
    unfold ackBody at h
    dsimp only at h
    split_ifs at h <;> cases h <;> exact ⟨rfl, rfl, rfl⟩

theorem ackLoop_config (start : Nat) :
    ∀ (fuel : Nat) (st : AckState) (o : PushOutcome) (s' : Sys),
      ackLoop start fuel st = .ok (o, s') → s'.ntpConfig = st.sys.ntpConfig ∧
        s'.ntpConfigured = st.sys.ntpConfigured ∧ s'.ntpPrefs = st.sys.ntpPrefs := by
  intro fuel
  induction fuel with
  | zero =>
    intro st o s' h
    simp [ackLoop] at h
  | succ fuel ih =>
    intro st o s' h
    cases hb : ackBody start st with
    | exit o1 s1 =>
      rw [ackLoop_exit _ _ _ _ _ hb] at h
      simp only [Except.ok.injEq, Prod.mk.injEq] at h
      obtain ⟨h1, h2⟩ := h
      subst h1
      subst h2
      exact (ackBody_config start st).1 _ _ hb
    | next st1 =>
      rw [ackLoop_next _ _ _ _ hb] at h
      obtain ⟨a1, a2, a3⟩ := ih st1 o s' h
      obtain ⟨b1, b2, b3⟩ := (ackBody_config start st).2 _ hb
      exact ⟨a1.trans b1, a2.trans b2, a3.trans b3⟩

theorem sendNTPConfigToBackend_config (s : Sys) :
    ∃ o s', sendNTPConfigToBackend s = .ok (o, s') ∧ s'.ntpConfig = s.ntpConfig ∧
      s'.ntpConfigured = s.ntpConfigured ∧ s'.ntpPrefs = s.ntpPrefs := by
  rcases sendNTPConfigToBackend_cases s with h | h | ⟨h1, h2⟩
  · exact ⟨_, _, h, rfl, rfl, rfl⟩
  · exact ⟨_, _, h, rfl, rfl, rfl⟩
  · obtain ⟨o, s1, g1, g2⟩ := sendNTPConfigToBackend_sent s h1 h2
    obtain ⟨c1, c2, c3⟩ := ackLoop_config _ _ _ _ _ g1
    refine ⟨_, _, g2, ?_⟩
    split
    · exact ⟨c1, c2, c3⟩
    · exact ⟨c1, c2, c3⟩

/-- C21: `saveNTPSettings` returns false, with `ntpConfig`, `ntpConfigured`, the stored
preferences and the backend channel all as they were, whenever the first server name
fails `isValidIPOrDomain`, or the second one is not empty and fails it, or the time zone
is below -12 or above 14; in every other case it returns true with
`ntpConfig.timezone` equal to the argument and `ntpConfig.enabled` true, so that the
stored time zone lies in -12..14, and both -12 and 14 are stored. -/
theorem saveNTPSettings_validates (s : Sys) (server1 server2 : AString) (timezone : Int) :
    (Refused server1 server2 timezone →
      ∃ s', saveNTPSettings s server1 server2 timezone = .ok (false, s') ∧
        s'.ntpConfig = s.ntpConfig ∧ s'.ntpConfigured = s.ntpConfigured ∧
        s'.ntpPrefs = s.ntpPrefs ∧ s'.backendSerial = s.backendSerial) ∧
    (¬ Refused server1 server2 timezone →
      ∃ s', saveNTPSettings s server1 server2 timezone = .ok (true, s') ∧
        s'.ntpConfig.timezone = timezone ∧ s'.ntpConfig.enabled = true ∧
        s'.ntpPrefs.timezone = some timezone ∧
        -12 ≤ s'.ntpConfig.timezone ∧ s'.ntpConfig.timezone ≤ 14) := by
  have key : ∀ m : AString,
      saveNTPSettings s server1 server2 timezone = .ok (false, addLog s m .ERROR (lit "NTP")) →
      ∃ s', saveNTPSettings s server1 server2 timezone = .ok (false, s') ∧
        s'.ntpConfig = s.ntpConfig ∧ s'.ntpConfigured = s.ntpConfigured ∧
        s'.ntpPrefs = s.ntpPrefs ∧ s'.backendSerial = s.backendSerial :=
    fun m h => ⟨_, h, rfl, rfl, rfl, rfl⟩
  by_cases v1 : isValidIPOrDomain server1 = true
  swap
  · have hr : Refused server1 server2 timezone := Or.inl (by simpa using v1)
    refine ⟨fun _ => ?_, fun hn => absurd hr hn⟩
    apply key
    unfold saveNTPSettings
    rw [if_pos (by simpa using v1)]
  by_cases v2 : (decide (server2.length > 0) && !isValidIPOrDomain server2) = true
  · have hr : Refused server1 server2 timezone := by
      simp only [Bool.and_eq_true, decide_eq_true_eq, Bool.not_eq_true'] at v2
      refine Or.inr (Or.inl ⟨?_, v2.2⟩)
      intro h
      rw [h] at v2
      exact absurd v2.1 (by decide)
    refine ⟨fun _ => ?_, fun hn => absurd hr hn⟩
    apply key
    unfold saveNTPSettings
    rw [if_neg (by simpa using v1), if_pos v2]
  by_cases v3 : (decide (timezone < -12) || decide (timezone > 14)) = true
  · have hr : Refused server1 server2 timezone := by
      simp only [Bool.or_eq_true, decide_eq_true_eq] at v3
      rcases v3 with h | h
      · exact Or.inr (Or.inr (Or.inl h))
      · exact Or.inr (Or.inr (Or.inr h))
    refine ⟨fun _ => ?_, fun hn => absurd hr hn⟩
    apply key
    unfold saveNTPSettings
    rw [if_neg (by simpa using v1), if_neg v2, if_pos v3]
  have hz : -12 ≤ timezone ∧ timezone ≤ 14 := by
    simp only [Bool.or_eq_true, decide_eq_true_eq, not_or] at v3
    omega
  have hn : ¬ Refused server1 server2 timezone := by
    rintro (h | ⟨h1, h2⟩ | h | h)
    · rw [h] at v1
      exact absurd v1 (by decide)
    · apply v2
      simp only [Bool.and_eq_true, decide_eq_true_eq, Bool.not_eq_true']
      refine ⟨?_, h2⟩
      cases server2 with
      | nil => exact absurd rfl h1
      | cons c cs => simp
    · omega
    · omega
  refine ⟨fun hr => absurd hr hn, fun _ => ?_⟩
  obtain ⟨o, s', g, c1, _, c3⟩ := sendNTPConfigToBackend_config
    (addLog { s with
        ntpPrefs := { ntp_server1 := some server1, ntp_server2 := some server2,
                      timezone := some timezone, enabled := some true }
        ntpConfig := { ntpServer1 := toCharArray server1 NTP_SERVER_SIZE,
                       ntpServer2 := toCharArray server2 NTP_SERVER_SIZE,
                       timezone := timezone, enabled := true }
        ntpConfigured := true }
      (lit "\xE2\x9C\x85 NTP ayarlar\xC4\xB1 kaydedildi: " ++ server1 ++ lit ", " ++ server2)
      .SUCCESS (lit "NTP"))
  refine ⟨s', ?_, ?_, ?_, ?_, ?_, ?_⟩
  · unfold saveNTPSettings
    rw [if_neg (by simpa using v1), if_neg v2, if_neg v3]
    dsimp only
    show Except.bind (sendNTPConfigToBackend _) _ = _
    rw [g]
    rfl
  · rw [c1]
    rfl
  · rw [c1]
    rfl
  · rw [c3]
    rfl
  · rw [c1]
    exact hz.1
  · rw [c1]
    exact hz.2

theorem saveNTPSettings_validates_witness :
    (Refused (lit "pool.ntp.org") [] 15 ∧
      ∃ s', saveNTPSettings (idle 5) (lit "pool.ntp.org") [] 15 = .ok (false, s') ∧
        s'.ntpConfig = (idle 5).ntpConfig ∧ s'.ntpConfigured = (idle 5).ntpConfigured ∧
        s'.ntpPrefs = (idle 5).ntpPrefs ∧ s'.backendSerial = (idle 5).backendSerial) ∧
    (¬ Refused (lit "pool.ntp.org") (lit "10.0.0.1") (-12) ∧
      ∃ s', saveNTPSettings (idle 5) (lit "pool.ntp.org") (lit "10.0.0.1") (-12) = .ok (true, s') ∧
        s'.ntpConfig.timezone = -12 ∧ s'.ntpConfig.enabled = true ∧
        s'.ntpPrefs.timezone = some (-12) ∧
        -12 ≤ s'.ntpConfig.timezone ∧ s'.ntpConfig.timezone ≤ 14) :=
  ⟨⟨Or.inr (Or.inr (Or.inr (by decide))),
      (saveNTPSettings_validates (idle 5) (lit "pool.ntp.org") [] 15).1
        (Or.inr (Or.inr (Or.inr (by decide))))⟩,
    ⟨by unfold Refused; decide,
      (saveNTPSettings_validates (idle 5) (lit "pool.ntp.org") (lit "10.0.0.1") (-12)).2
        (by unfold Refused; decide)⟩⟩

/-! ## The server name check -/

theorem isDigit_iff (c : Char) : c.isDigit = true ↔ 48 ≤ c.toNat ∧ c.toNat ≤ 57 := by
  simp only [Char.isDigit, Bool.and_eq_true, decide_eq_true_eq]
  exact Iff.rfl

theorem notDigit_iff (c : Char) : (c < '0' ∨ c > '9') ↔ c.isDigit = false := by
  have h := isDigit_iff c
  constructor
  · intro hc
    cases hd : c.isDigit with
    | false => rfl
    | true =>
      have h1 := h.mp hd
      rcases hc with a | a
      · have a1 : c.toNat < 48 := a
        omega
      · have a1 : 57 < c.toNat := a
        omega
  · intro hd
    by_cases h1 : c.toNat < 48
    · left
      exact h1
    · right
      show 57 < c.toNat
      by_contra h2
      have := h.mpr ⟨by omega, by omega⟩
      rw [hd] at this
      exact absurd this (by decide)

theorem digit_not_dot (c : Char) (h : c.isDigit = true) : c ≠ '.' := by
  intro e
  subst e
  exact absurd h (by decide)

theorem digit_not_nul (c : Char) (h : c.isDigit = true) : c ≠ Char.ofNat 0 := by
  intro e
  subst e
  exact absurd h (by decide)

theorem scanAddress_dot (cs : List Char) (d : Int) :
    scanAddress ('.' :: cs) d = scanAddress cs (d + 1) := by
  rw [scanAddress, if_pos rfl]

theorem scanAddress_digit (c : Char) (cs : List Char) (d : Int) (h : c.isDigit = true) :
    scanAddress (c :: cs) d = scanAddress cs d := by
  have hr : ¬ ((decide (c < '0') || decide (c > '9')) = true) := by
    simp only [Bool.or_eq_true, decide_eq_true_eq]
    intro hc
    rw [(notDigit_iff c).mp hc] at h
    exact absurd h (by decide)
  rw [scanAddress, if_neg (digit_not_dot c h), if_neg hr]

theorem scanAddress_other (c : Char) (cs : List Char) (d : Int) (h1 : c ≠ '.')
    (h2 : c.isDigit = false) : scanAddress (c :: cs) d = (d, false) := by
  have hr : (decide (c < '0') || decide (c > '9')) = true := by
    simp only [Bool.or_eq_true, decide_eq_true_eq]
    exact (notDigit_iff c).mpr h2
  rw [scanAddress, if_neg h1, if_pos hr]

theorem scanAddress_all : ∀ (l : List Char) (d : Int), DigitsAndDots l →
    scanAddress l d = (d + (l.count '.' : Nat), true) := by
  intro l
  induction l with
  | nil =>
    intro d _
    simp [scanAddress]
  | cons c cs ih =>
    intro d h
    have hcs : DigitsAndDots cs := fun x hx => h x (List.mem_cons_of_mem c hx)
    rcases h c (List.mem_cons_self c cs) with e | e
    · subst e
      rw [scanAddress_dot, ih (d + 1) hcs, List.count_cons_self]
      push_cast
      rw [add_assoc, add_comm 1]
    · rw [scanAddress_digit c cs d e, ih d hcs, List.count_cons_of_ne (digit_not_dot c e).symm]

theorem scanAddress_bad : ∀ (l : List Char) (d : Int) (c : Char), c ∈ l → c ≠ '.' →
    c.isDigit = false → (scanAddress l d).2 = false := by
  intro l
  induction l with
  | nil =>
    intro d c h
    simp at h
  | cons x xs ih =>
    intro d c hc h1 h2
    by_cases e : x = '.'
    · subst e
      rw [scanAddress_dot]
      rcases List.mem_cons.mp hc with a | a
      · exact absurd a h1
      · exact ih _ c a h1 h2
    · cases hx : x.isDigit with
      | false => rw [scanAddress_other x xs d e hx]
      | true =>
        rw [scanAddress_digit x xs d hx]
        rcases List.mem_cons.mp hc with a | a
        · rw [a, hx] at h2
          exact absurd h2 (by decide)
        · exact ih _ c a h1 h2

theorem scanAddress_isIP (l : List Char) (d : Int) (h : (scanAddress l d).2 = true) :
    DigitsAndDots l := by
  intro c hc
  by_cases e : c = '.'
  · exact Or.inl e
  · right
    cases hd : c.isDigit with
    | true => rfl
    | false =>
      rw [scanAddress_bad l d c hc e hd] at h
      exact absurd h (by decide)

theorem indexOfFrom_absent : ∀ (l : List Char) (c : Char) (i : Nat), c ∉ l →
    indexOfFrom l c i = -1 := by
  intro l
  induction l with
  | nil =>
    intro c i _
    rfl
  | cons x xs ih =>
    intro c i h
    have h1 : x ≠ c := fun e => h (by rw [e]; exact List.mem_cons_self c xs)
    have h2 : c ∉ xs := fun e => h (List.mem_cons_of_mem x e)
    rw [indexOfFrom, if_neg h1, ih c (i + 1) h2]
    split <;> rfl

theorem indexOfFrom_present : ∀ (l : List Char) (c : Char) (i : Nat),
    c ∈ l.takeWhile (fun x => x ≠ Char.ofNat 0) → (i : Int) ≤ indexOfFrom l c i := by
  intro l
  induction l with
  | nil =>
    intro c i h
    simp at h
  | cons x xs ih =>
    intro c i h
    rw [indexOfFrom]
    by_cases h1 : x = c
    · rw [if_pos h1]
    · rw [if_neg h1]
      by_cases h2 : x = Char.ofNat 0
      · rw [List.takeWhile_cons_of_neg (by simpa using h2)] at h
        simp at h
      · rw [if_neg h2]
        rw [List.takeWhile_cons_of_pos (by simpa using h2)] at h
        rcases List.mem_cons.mp h with a | a
        · exact absurd a.symm h1
        · have := ih c (i + 1) a
          omega

theorem isValidIPOrDomain_length (address : AString)
    (h : address.length < 7 ∨ 253 < address.length) : isValidIPOrDomain address = false := by
  unfold isValidIPOrDomain
  rw [if_pos (by simpa using h)]

theorem isValidIPOrDomain_ip (address : AString) (h1 : 7 ≤ address.length)
    (h2 : address.length ≤ 253) (hd : DigitsAndDots address) (h3 : address.count '.' = 3) :
    isValidIPOrDomain address = IPAddress.fromString address := by
  have hr : ¬ ((decide (address.length < 7) || decide (address.length > 253)) = true) := by
    simp only [Bool.or_eq_true, decide_eq_true_eq]
    omega
  unfold isValidIPOrDomain
  rw [if_neg hr]
  dsimp only
  rw [scanAddress_all address 0 hd, h3]
  rw [if_pos (by decide)]

theorem isValidIPOrDomain_name (address : AString) (h1 : 7 ≤ address.length)
    (h2 : address.length ≤ 253)
    (h3 : ¬ ((scanAddress address 0).2 = true ∧ (scanAddress address 0).1 = 3)) :
    isValidIPOrDomain address =
      (decide (indexOf address '.' > 0) && decide (indexOf address ' ' = -1)) := by
  have hr : ¬ ((decide (address.length < 7) || decide (address.length > 253)) = true) := by
    simp only [Bool.or_eq_true, decide_eq_true_eq]
    omega
  have hq : ¬ (((scanAddress address 0).2 && (scanAddress address 0).1 == 3) = true) := by
    simp only [Bool.and_eq_true, beq_iff_eq]
    exact h3
  unfold isValidIPOrDomain
  rw [if_neg hr]
  dsimp only
  rw [if_neg hq]
  by_cases hc : (decide (indexOf address '.' > 0) && indexOf address ' ' == -1) = true
  · rw [if_pos hc]
    simp only [Bool.and_eq_true, decide_eq_true_eq, beq_iff_eq] at hc
    simp [hc.1, hc.2]
  · rw [if_neg hc]
    simp only [Bool.and_eq_true, decide_eq_true_eq, beq_iff_eq] at hc
    symm
    simpa using hc

theorem fromStringLoop_digit (c : Char) (cs : List Char) (acc dots : Nat)
    (h : c.isDigit = true) :
    fromStringLoop (c :: cs) acc dots =
      if acc * 10 + (c.toNat - 48) > 255 then false
      else fromStringLoop cs (acc * 10 + (c.toNat - 48)) dots := by
  have hr : ('0' ≤ c && c ≤ '9') = true := by
    have h1 := (isDigit_iff c).mp h
    simp only [Bool.and_eq_true, decide_eq_true_eq]
    exact ⟨h1.1, h1.2⟩
  rw [fromStringLoop, if_neg (digit_not_nul c h), if_pos hr]

theorem fromStringLoop_dot (cs : List Char) (acc dots : Nat) :
    fromStringLoop ('.' :: cs) acc dots =
      if dots = 3 then false else fromStringLoop cs 0 (dots + 1) := by
  rw [fromStringLoop, if_neg (by decide), if_neg (by decide), if_pos rfl]

theorem octetFrom_mono : ∀ (g : List Char) (a b : Nat), a ≤ b →
    octetFrom a g ≤ octetFrom b g := by
  intro g
  induction g with
  | nil =>
    intro a b h
    exact h
  | cons c cs ih =>
    intro a b h
    show octetFrom (a * 10 + (c.toNat - 48)) cs ≤ octetFrom (b * 10 + (c.toNat - 48)) cs
    exact ih _ _ (by omega)

theorem fromStringLoop_octet : ∀ (g : List Char) (acc dots : Nat) (rest : List Char),
    (∀ c ∈ g, c.isDigit = true) → acc ≤ 255 → 255 < octetFrom acc g →
    fromStringLoop (g ++ rest) acc dots = false := by
  intro g
  induction g with
  | nil =>
    intro acc dots rest _ h1 h2
    have h3 : 255 < acc := h2
    omega
  | cons c cs ih =>
    intro acc dots rest hd h1 h2
    rw [List.cons_append, fromStringLoop_digit c _ acc dots (hd c (List.mem_cons_self c cs))]
    split
    · rfl
    · rename_i hle
      exact ih _ dots rest (fun x hx => hd x (List.mem_cons_of_mem c hx)) (by omega) h2

theorem fromStringLoop_skip : ∀ (pre : List Char) (acc dots : Nat) (tail : List Char),
    DigitsAndDots pre → acc ≤ 255 →
    fromStringLoop (pre ++ tail) acc dots = false ∨
      ∃ acc1 dots1, acc1 ≤ 255 ∧
        fromStringLoop (pre ++ tail) acc dots = fromStringLoop tail acc1 dots1 := by
  intro pre
  induction pre with
  | nil =>
    intro acc dots tail _ h
    exact Or.inr ⟨acc, dots, h, rfl⟩
  | cons c cs ih =>
    intro acc dots tail hd h
    have hcs : DigitsAndDots cs := fun x hx => hd x (List.mem_cons_of_mem c hx)
    rw [List.cons_append]
    rcases hd c (List.mem_cons_self c cs) with e | e
    · subst e
      rw [fromStringLoop_dot]
      split
      · exact Or.inl rfl
      · exact ih 0 (dots + 1) tail hcs (by omega)
    · rw [fromStringLoop_digit c _ acc dots e]
      split
      · exact Or.inl rfl
      · exact ih _ dots tail hcs (by omega)

theorem fromString_octet (pre g post : List Char) (hp : DigitsAndDots pre)
    (hg : ∀ c ∈ g, c.isDigit = true) (h : 255 < octet g) :
    IPAddress.fromString (pre ++ g ++ post) = false := by
  unfold IPAddress.fromString
  rw [List.append_assoc]
  rcases fromStringLoop_skip pre 0 0 (g ++ post) hp (by omega) with e | ⟨acc1, dots1, h1, e⟩
  · exact e
  · rw [e]
    exact fromStringLoop_octet g acc1 dots1 post hg h1
      (lt_of_lt_of_le h (octetFrom_mono g 0 acc1 (by omega)))

/-- C22, as stated, fails: "1.2.3.4.5" is made only of digits and dots and has four
dots, so it is no dotted quad, and `isValidIPOrDomain` accepts it; so does "999.999.9"
with two dots and an octet above 255. -/
theorem isValidIPOrDomain_quad_counterexample :
    DigitsAndDots (lit "1.2.3.4.5") ∧ (lit "1.2.3.4.5").count '.' = 4 ∧
    isValidIPOrDomain (lit "1.2.3.4.5") = true ∧
    DigitsAndDots (lit "999.999.9") ∧ isValidIPOrDomain (lit "999.999.9") = true :=
  ⟨by unfold DigitsAndDots; decide, by decide, by decide, by unfold DigitsAndDots; decide,
    by decide⟩

/-- C22, amended: every string that `isValidIPOrDomain` accepts has 7 to 253
characters; the function returns false for every string without a '.' after its first
character, for every string with a space before any NUL byte, and for every string made
only of digits and dots that has exactly three dots and a group of digits above 255.
A string made only of digits and dots with any other number of dots is judged by the
host name rule alone: with 7 to 253 characters, a dot in it and none in front, it is
accepted. -/
theorem isValidIPOrDomain_rejects (address : AString) :
    (isValidIPOrDomain address = true → 7 ≤ address.length ∧ address.length ≤ 253) ∧
    ((∀ c rest, address = c :: rest → '.' ∉ rest) → isValidIPOrDomain address = false) ∧
    (' ' ∈ address.takeWhile (fun c => c ≠ Char.ofNat 0) →
      isValidIPOrDomain address = false) ∧
    (DigitsAndDots address → address.count '.' = 3 →
      (∃ pre g post, address = pre ++ g ++ post ∧ (∀ c ∈ g, c.isDigit = true) ∧
        255 < octet g) →
      isValidIPOrDomain address = false) ∧
    (DigitsAndDots address → address.count '.' ≠ 3 → 7 ≤ address.length →
      address.length ≤ 253 → '.' ∈ address → address.head? ≠ some '.' →
      isValidIPOrDomain address = true) := by
  by_cases hlen : address.length < 7 ∨ 253 < address.length
  · have hf := isValidIPOrDomain_length address hlen
    refine ⟨?_, fun _ => hf, fun _ => hf, fun _ _ _ => hf, ?_⟩
    · intro h
      rw [hf] at h
      exact absurd h (by decide)
    · intro _ _ h1 h2
      omega
  have h1 : 7 ≤ address.length := by omega
  have h2 : address.length ≤ 253 := by omega
  refine ⟨fun _ => ⟨h1, h2⟩, ?_, ?_, ?_, ?_⟩
  · intro hno
    cases address with
    | nil => simp at h1
    | cons a rest =>
      have hrest : '.' ∉ rest := hno a rest rfl
      have hcount : (a :: rest).count '.' ≤ 1 := by
        rw [List.count_cons, List.count_eq_zero_of_not_mem hrest]
        split <;> omega
      have hnot : ¬ ((scanAddress (a :: rest) 0).2 = true ∧ (scanAddress (a :: rest) 0).1 = 3) := by
        rintro ⟨p, q⟩
        rw [scanAddress_all _ 0 (scanAddress_isIP _ 0 p)] at q
        have q1 : (0 : Int) + (((a :: rest).count '.' : Nat) : Int) = 3 := q
        omega
      rw [isValidIPOrDomain_name _ h1 h2 hnot]
      have hidx : indexOf (a :: rest) '.' ≤ 0 := by
        unfold indexOf
        rw [indexOfFrom]
        split
        · simp
        · split
          · omega
          · rw [indexOfFrom_absent rest '.' _ hrest]
            omega
      simp only [Bool.and_eq_false_imp, decide_eq_true_eq, decide_eq_false_iff_not]
      intro hgt
      omega
  · intro hsp
    have hmem : ' ' ∈ address := (List.takeWhile_sublist _).subset hsp
    have hnot : ¬ ((scanAddress address 0).2 = true ∧ (scanAddress address 0).1 = 3) := by
      rintro ⟨p, _⟩
      rw [scanAddress_bad address 0 ' ' hmem (by decide) (by decide)] at p
      exact absurd p (by decide)
    rw [isValidIPOrDomain_name _ h1 h2 hnot]
    have hidx := indexOfFrom_present address ' ' 0 hsp
    have hidx1 : (0 : Int) ≤ indexOf address ' ' := hidx
    simp only [Bool.and_eq_false_imp, decide_eq_true_eq, decide_eq_false_iff_not]
    intro _
    omega
  · rintro hd h3 ⟨pre, g, post, e, hg, hbig⟩
    rw [isValidIPOrDomain_ip address h1 h2 hd h3, e]
    refine fromString_octet pre g post ?_ hg hbig
    intro c hc
    exact hd c (by rw [e]; simp [hc])
  · intro hd h3 _ _ hdot hhead
    have hnot : ¬ ((scanAddress address 0).2 = true ∧ (scanAddress address 0).1 = 3) := by
      rintro ⟨_, q⟩
      rw [scanAddress_all _ 0 hd] at q
      have q1 : (0 : Int) + ((address.count '.' : Nat) : Int) = 3 := q
      omega
    rw [isValidIPOrDomain_name _ h1 h2 hnot]
    have hnul : ∀ l : List Char, DigitsAndDots l → l.takeWhile (fun c => c ≠ Char.ofNat 0) = l := by
      intro l hl
      rw [List.takeWhile_eq_self_iff]
      intro c hc
      rcases hl c hc with e | e
      · subst e
        decide
      · simpa using digit_not_nul c e
    have hsp : ' ' ∉ address := by
      intro hc
      rcases hd ' ' hc with e | e
      · exact absurd e (by decide)
      · exact absurd e (by decide)
    have hidx2 : indexOf address ' ' = -1 := indexOfFrom_absent address ' ' 0 hsp
    cases address with
    | nil => simp at hdot
    | cons a rest =>
      have ha : a ≠ '.' := by
        intro e
        apply hhead
        rw [e]
        rfl
      have hrest : '.' ∈ rest := by
        rcases List.mem_cons.mp hdot with e | e
        · exact absurd e.symm ha
        · exact e
      have hdr : DigitsAndDots rest := fun x hx => hd x (List.mem_cons_of_mem a hx)
      have hanul : a ≠ Char.ofNat 0 := by
        rcases hd a (List.mem_cons_self a rest) with e | e
        · exact absurd e ha
        · exact digit_not_nul a e
      have hidx : (1 : Int) ≤ indexOf (a :: rest) '.' := by
        unfold indexOf
        rw [indexOfFrom, if_neg ha, if_neg hanul]
        have := indexOfFrom_present rest '.' (0 + 1) (by rw [hnul rest hdr]; exact hrest)
        simpa using this
      rw [hidx2]
      simp only [Bool.and_eq_true, decide_eq_true_eq]
      exact ⟨by omega, trivial⟩

theorem isValidIPOrDomain_rejects_witness :
    (isValidIPOrDomain (lit "pool.ntp.org") = true ∧
      7 ≤ (lit "pool.ntp.org").length ∧ (lit "pool.ntp.org").length ≤ 253) ∧
    ((∀ c rest, lit ".poolntporg" = c :: rest → '.' ∉ rest) ∧
      isValidIPOrDomain (lit ".poolntporg") = false) ∧
    (' ' ∈ (lit "pool ntp.org").takeWhile (fun c => c ≠ Char.ofNat 0) ∧
      isValidIPOrDomain (lit "pool ntp.org") = false) ∧
    (DigitsAndDots (lit "10.0.0.256") ∧ (lit "10.0.0.256").count '.' = 3 ∧
      255 < octet (lit "256") ∧ isValidIPOrDomain (lit "10.0.0.256") = false) ∧
    (DigitsAndDots (lit "1.2.3.4.5") ∧ (lit "1.2.3.4.5").count '.' ≠ 3 ∧
      isValidIPOrDomain (lit "1.2.3.4.5") = true) :=
  ⟨⟨by decide, (isValidIPOrDomain_rejects (lit "pool.ntp.org")).1 (by decide)⟩,
    ⟨fun c rest h => by cases h; decide,
      (isValidIPOrDomain_rejects (lit ".poolntporg")).2.1 (fun c rest h => by cases h; decide)⟩,
    ⟨by decide, (isValidIPOrDomain_rejects (lit "pool ntp.org")).2.2.1 (by decide)⟩,
    ⟨by unfold DigitsAndDots; decide, by decide, by decide,
      (isValidIPOrDomain_rejects (lit "10.0.0.256")).2.2.2.1 (by unfold DigitsAndDots; decide)
        (by decide) ⟨lit "10.0.0.", lit "256", [], by decide, by decide, by decide⟩⟩,
    ⟨by unfold DigitsAndDots; decide, by decide,
      (isValidIPOrDomain_rejects (lit "1.2.3.4.5")).2.2.2.2 (by unfold DigitsAndDots; decide)
        (by decide) (by decide) (by decide) (by decide) (by decide)⟩⟩

/-! ## Frames with other bytes than digits -/

/-- C23 fails on the code: `parseTimeData` does not look at whether the six bytes of
the payload are digits, it only converts them with `toInt`.  From the initial state the
7-character frame "abcdefz" stores "abcdef" as the time and sets `isValid`, and the
frame " 1 125A" stores " 1 125" as the date. -/
theorem parseTimeData_stores_letters :
    (parseTimeData (idle 5) (lit "abcdefz")).receivedTime.time = lit "abcdef" ∧
    (parseTimeData (idle 5) (lit "abcdefz")).receivedTime.isValid = true ∧
    formatTime (parseTimeData (idle 5) (lit "abcdefz")).receivedTime.time = lit "00:00:00" ∧
    (parseTimeData (idle 5) (lit " 1 125A")).receivedTime.date = lit " 1 125" ∧
    formatDate (parseTimeData (idle 5) (lit " 1 125A")).receivedTime.date = lit "01.01.2025" := by
  decide

/-! ## The periodic processor -/

/-- C24 fails on the code at the boundary: with the last frame decoded exactly 60000 ms
ago and no inbound bytes, `processReceivedData` leaves `isValid` true and logs nothing,
while `isTimeDataValid` returns false; one millisecond later the flag is cleared and the
timeout line is logged once, and a second call logs nothing more. -/
theorem processReceivedData_boundary :
    (processReceivedData (heard 60000)).receivedTime.isValid = true ∧
    (processReceivedData (heard 60000)).log = [] ∧
    (isTimeDataValid (processReceivedData (heard 60000))).1 = false ∧
    (processReceivedData (heard 60001)).receivedTime.isValid = false ∧
    (processReceivedData (heard 60001)).log = [staleEntry] ∧
    (processReceivedData (processReceivedData (heard 60001))).log = [staleEntry] := by
  decide

/-! ## Custom commands and the error count -/

theorem sendCustomCommand_silent (s : Sys) (command response : AString) (t : Nat)
    (h1 : 1 ≤ command.length) (h2 : command.length ≤ 50) (ht : t < 4294967296)
    (hrx : s.uart.rx = []) :
    ∃ s', sendCustomCommand s command response t = .ok (false, [], s') ∧
      s'.uartErrorCount = s.uartErrorCount := by
  obtain ⟨r, s1, hr, s', g, _, _, gc, _⟩ := sendCustomCommand_spec s command response t h1 h2 ht
  have hl : r = [] := by
    refine readLoop_silent _ _ _ _ r s1 ?_ hr
    show (beginExchange s command (lit "\xC3\x96zel UART komut: ")).uart.rx = []
    rw [(beginExchange_frame s command (lit "\xC3\x96zel UART komut: ")).2.2.2, hrx]
    rfl
  subst hl
  exact ⟨s', by simpa using g, gc⟩

/-- C25 fails on the code: for an accepted command (1 to 50 characters) and a fault
channel on which nothing arrives, `sendCustomCommand` returns failure and leaves
`uartErrorCount` as it was, while `requestFirstFault` on the same machine returns
failure with `uartErrorCount` one greater. -/
theorem sendCustomCommand_error_count (s : Sys) (command response : AString) (t : Nat)
    (h1 : 1 ≤ command.length) (h2 : command.length ≤ 50) (ht : t < 4294967296)
    (hrx : s.uart.rx = []) (h : s.uartErrorCount < 2147483647) :
    (∃ s', sendCustomCommand s command response t = .ok (false, [], s') ∧
      s'.uartErrorCount = s.uartErrorCount) ∧
    (∃ s', requestFirstFault s = .ok (false, s') ∧
      s'.uartErrorCount = s.uartErrorCount + 1) := by
  refine ⟨sendCustomCommand_silent s command response t h1 h2 ht hrx, ?_⟩
  obtain ⟨s', g1, _, g3⟩ := requestFault_silent (lit "12345v")
    (lit "\xE2\x9D\x8C \xC4\xB0lk ar\xC4\xB1za bilgisi i\xC3\xA7in yan\xC4\xB1t al\xC4\xB1namad\xC4\xB1.") s hrx h
  exact ⟨s', g1, g3⟩

theorem sendCustomCommand_error_count_witness :
    (∃ s', sendCustomCommand (idle 7) (lit "STATUS") [] 0 = .ok (false, [], s') ∧
      s'.uartErrorCount = (idle 7).uartErrorCount) ∧
    (∃ s', requestFirstFault (idle 7) = .ok (false, s') ∧
      s'.uartErrorCount = (idle 7).uartErrorCount + 1) :=
  sendCustomCommand_error_count (idle 7) (lit "STATUS") [] 0 (by decide) (by decide)
    (by decide) rfl (by decide)

/-! ## Framing on the backend channel -/

theorem backendByte_take (s : Sys) (c : Char) (hc : ¬ IsTerminator c)
    (h : s.dataBuffer.length < 32) :
    backendByte s c =
      { s with lastActivity := some (millis s), dataBuffer := s.dataBuffer ++ [c] } := by
  have h1 : ¬ (decide (c = '\n') || decide (c = '\r')) = true := by
    intro h
    simp only [Bool.or_eq_true, decide_eq_true_eq] at h
    exact hc h
  have h2 : ¬ (s.dataBuffer ++ [c]).length > MAX_DATA_BUFFER := by
    simp only [MAX_DATA_BUFFER, List.length_append, List.length_singleton]
    omega
  unfold backendByte
  dsimp only
  rw [if_neg h1, if_neg h2]

theorem backendByte_line (s : Sys) (c : Char) (hc : IsTerminator c) (h : s.dataBuffer ≠ []) :
    backendByte s c =
      { parseTimeData { s with lastActivity := some (millis s) } s.dataBuffer with
        dataBuffer := [] } := by
  have h1 : (decide (c = '\n') || decide (c = '\r')) = true := by
    simp only [Bool.or_eq_true, decide_eq_true_eq]
    exact hc
  have h2 : s.dataBuffer.length > 0 := List.length_pos.mpr h
  unfold backendByte
  dsimp only
  rw [if_pos h1, if_pos h2]

theorem backendLoop_take : ∀ (bs : List (Nat × Char)) (b : Nat × Char) (s : Sys)
    (rest : List (Nat × Char)),
    (∀ x ∈ b :: bs, x.1 ≤ s.clock ∧ ¬ IsTerminator x.2) →
    s.dataBuffer.length + (b :: bs).length ≤ 32 →
    backendLoop (b :: bs ++ rest) s =
      backendLoop rest { s with backendSerial := { s.backendSerial with rx := rest },
                                lastActivity := some (millis s),
                                dataBuffer := s.dataBuffer ++ (b :: bs).map Prod.snd } := by
  intro bs
  induction bs with
  | nil =>
    intro b s rest hall hlen
    obtain ⟨t, c⟩ := b
    have hb := hall (t, c) (List.mem_cons_self _ _)
    have hl : s.dataBuffer.length < 32 := by
      simp only [List.length_cons, List.length_nil] at hlen
      omega
    show backendLoop ((t, c) :: rest) s = _
    rw [backendLoop, if_pos hb.1,
      backendByte_take { s with backendSerial := { s.backendSerial with rx := rest } } c hb.2 hl]
    rfl
  | cons b2 bs ih =>
    intro b s rest hall hlen
    obtain ⟨t, c⟩ := b
    have hb := hall (t, c) (List.mem_cons_self _ _)
    have hl : s.dataBuffer.length + (bs.length + 2) ≤ 32 := by
      simp only [List.length_cons] at hlen
      omega
    show backendLoop ((t, c) :: (b2 :: bs ++ rest)) s = _
    rw [backendLoop, if_pos hb.1,
      backendByte_take { s with backendSerial := { s.backendSerial with rx := b2 :: bs ++ rest } }
        c hb.2 (by show s.dataBuffer.length < 32; omega)]
    refine (ih b2 _ rest ?_ ?_).trans ?_
    · intro x hx
      exact hall x (List.mem_cons_of_mem _ hx)
    · show (s.dataBuffer ++ [c]).length + (b2 :: bs).length ≤ 32
      simp only [List.length_append, List.length_cons, List.length_nil]
      omega
    · simp only [List.map_cons, List.append_assoc, List.singleton_append]
      rfl

theorem parseTimeData_receivedTime (s s0 : Sys) (data : AString)
    (h1 : s.receivedTime = s0.receivedTime) (h2 : s.clock = s0.clock) :
    (parseTimeData s data).receivedTime = (parseTimeData s0 data).receivedTime := by
  have hm : millis s = millis s0 := by
    unfold millis
    rw [h2]
  by_cases hl : data.length = 7
  · obtain ⟨a, b, c, d, e, f, k, hd⟩ := length_seven data hl
    subst hd
    rw [parseTimeData_seven, parseTimeData_seven]
    split
    · split
      · simp only [h1, hm]
      · exact h1
    · split
      · split
        · simp only [h1, hm]
        · exact h1
      · exact h1
  · unfold parseTimeData
    rw [if_pos hl, if_pos hl]
    exact h1

theorem readBackendData_init (s : Sys) :
    ∃ la, readBackendData s =
      if (backendLoop s.backendSerial.rx { s with lastActivity := some la }).dataBuffer.length > 0 &&
          u32sub (millis (backendLoop s.backendSerial.rx { s with lastActivity := some la }))
            ((backendLoop s.backendSerial.rx { s with lastActivity := some la }).lastActivity.getD 0)
            > 5000 then
        { backendLoop s.backendSerial.rx { s with lastActivity := some la } with dataBuffer := [] }
      else backendLoop s.backendSerial.rx { s with lastActivity := some la } := by
  cases h : s.lastActivity with
  | none =>
    refine ⟨millis s, ?_⟩
    unfold readBackendData
    rw [h]
  | some v =>
    refine ⟨v, ?_⟩
    have e : { s with lastActivity := some v } = s := by
      rw [← h]
    unfold readBackendData
    rw [h, e]

theorem readBackendData_pending (s : Sys) (b : Nat × Char) (bs : List (Nat × Char))
    (hbuf : s.dataBuffer = []) (hrx : s.backendSerial.rx = b :: bs)
    (hall : ∀ x ∈ b :: bs, x.1 ≤ s.clock ∧ ¬ IsTerminator x.2) (hlen : (b :: bs).length ≤ 32) :
    (readBackendData s).receivedTime = s.receivedTime ∧ (readBackendData s).log = s.log ∧
    (readBackendData s).dataBuffer = (b :: bs).map Prod.snd := by
  obtain ⟨la, e⟩ := readBackendData_init s
  have hloop : backendLoop s.backendSerial.rx { s with lastActivity := some la } =
      { s with backendSerial := { s.backendSerial with rx := [] },
               lastActivity := some (millis s),
               dataBuffer := (b :: bs).map Prod.snd } := by
    rw [hrx]
    have := backendLoop_take bs b { s with lastActivity := some la } [] hall
      (by show s.dataBuffer.length + (b :: bs).length ≤ 32; rw [hbuf]; simpa using hlen)
    rw [List.append_nil] at this
    rw [this]
    show _ = _
    simp only [backendLoop, hbuf, List.nil_append]
    rfl
  rw [hloop] at e
  have hz : u32sub (millis s) (millis s) = 0 := by
    unfold u32sub millis
    omega
  rw [if_neg (by
    show ¬ ((decide (((b :: bs).map Prod.snd).length > 0) &&
      decide (u32sub (millis s) (millis s) > 5000)) = true)
    rw [hz]
    simp)] at e
  rw [e]
  exact ⟨rfl, rfl, rfl⟩

theorem readBackendData_line (s : Sys) (b : Nat × Char) (bs : List (Nat × Char)) (a : Nat)
    (t : Char) (hbuf : s.dataBuffer = []) (hrx : s.backendSerial.rx = b :: bs ++ [(a, t)])
    (hall : ∀ x ∈ b :: bs, x.1 ≤ s.clock ∧ ¬ IsTerminator x.2) (hlen : (b :: bs).length ≤ 32)
    (ha : a ≤ s.clock) (ht : IsTerminator t) :
    ∃ x : Sys, x.receivedTime = s.receivedTime ∧ x.clock = s.clock ∧ x.log = s.log ∧
      readBackendData s = { parseTimeData x ((b :: bs).map Prod.snd) with dataBuffer := [] } := by
  obtain ⟨la, e⟩ := readBackendData_init s
  have hloop : backendLoop s.backendSerial.rx { s with lastActivity := some la } =
      { parseTimeData
          { s with backendSerial := { s.backendSerial with rx := [] },
                   lastActivity := some (millis s),
                   dataBuffer := (b :: bs).map Prod.snd } ((b :: bs).map Prod.snd) with
        dataBuffer := [] } := by
    rw [hrx]
    rw [backendLoop_take bs b { s with lastActivity := some la } [(a, t)] hall
      (by show s.dataBuffer.length + (b :: bs).length ≤ 32; rw [hbuf]; simpa using hlen)]
    rw [backendLoop, if_pos (by exact ha), backendByte_line _ t ht (by
      show s.dataBuffer ++ (b :: bs).map Prod.snd ≠ []
      simp)]
    simp only [backendLoop, hbuf, List.nil_append]
    rfl
  rw [hloop] at e
  rw [if_neg (by simp)] at e
  exact ⟨{ s with backendSerial := { s.backendSerial with rx := [] },
                  lastActivity := some (millis s),
                  dataBuffer := (b :: bs).map Prod.snd }, rfl, rfl, rfl, e⟩

/-- C26, as stated, fails: the bytes of the valid frame "150325A" with no terminator
after them stay in the accumulation buffer and no date is stored; the two valid frames
"150325A153045b" back to back store neither the date nor the time, also when a
terminator follows them. -/
theorem readBackendData_terminator_counterexample :
    (readBackendData (fed 5 "150325A")).receivedTime.date = [] ∧
    (readBackendData (fed 5 "150325A")).dataBuffer = lit "150325A" ∧
    (readBackendData (fed 5 "150325A153045b")).receivedTime.date = [] ∧
    (readBackendData (fed 5 "150325A153045b")).receivedTime.time = [] ∧
    (readBackendData (fed 5 "150325A153045b\n")).receivedTime.date = [] ∧
    (readBackendData (fed 5 "150325A153045b\n")).receivedTime.time = [] := by
  decide

/-- C26, amended: backend frames are closed by a terminator.  For the 7 bytes of a
frame F that have arrived on an empty accumulation buffer: when a terminator follows
them, `readBackendData` leaves in `receivedTime` what `parseTimeData` makes of F; with
no terminator after them nothing is stored or logged and the 7 bytes stay in the
buffer; and two frames back to back with a terminator after the second reach
`parseTimeData` as one line of 14 bytes, which is logged as badly formatted and stores
nothing. -/
theorem readBackendData_framing (s : Sys) (stream : List (Nat × Char))
    (hbuf : s.dataBuffer = []) (hlen : stream.length = 7)
    (hall : ∀ x ∈ stream, x.1 ≤ s.clock ∧ ¬ IsTerminator x.2) :
    (∀ a t, s.backendSerial.rx = stream ++ [(a, t)] → a ≤ s.clock → IsTerminator t →
      (readBackendData s).receivedTime = (parseTimeData s (stream.map Prod.snd)).receivedTime ∧
      (readBackendData s).dataBuffer = []) ∧
    (s.backendSerial.rx = stream →
      (readBackendData s).receivedTime = s.receivedTime ∧ (readBackendData s).log = s.log ∧
      (readBackendData s).dataBuffer = stream.map Prod.snd) ∧
    (∀ second a t, s.backendSerial.rx = stream ++ second ++ [(a, t)] → second.length = 7 →
      (∀ x ∈ second, x.1 ≤ s.clock ∧ ¬ IsTerminator x.2) → a ≤ s.clock → IsTerminator t →
      (readBackendData s).receivedTime = s.receivedTime ∧
      (readBackendData s).log = s.log ++ [formatEntry ((stream ++ second).map Prod.snd)] ∧
      (readBackendData s).dataBuffer = []) := by
  cases stream with
  | nil => simp at hlen
  | cons b bs =>
    have h32 : (b :: bs).length ≤ 32 := by
      rw [hlen]
      decide
    refine ⟨?_, ?_, ?_⟩
    · intro a t hrx ha ht
      obtain ⟨x, x1, x2, _, e⟩ := readBackendData_line s b bs a t hbuf hrx hall h32 ha ht
      rw [e]
      exact ⟨parseTimeData_receivedTime x s _ x1 x2, rfl⟩
    · intro hrx
      exact readBackendData_pending s b bs hbuf hrx hall h32
    · intro second a t hrx hsec hall2 ha ht
      have hall3 : ∀ x ∈ b :: (bs ++ second), x.1 ≤ s.clock ∧ ¬ IsTerminator x.2 := by
        intro x hx
        have hx1 : x ∈ (b :: bs) ++ second := hx
        rcases List.mem_append.mp hx1 with m | m
        · exact hall x m
        · exact hall2 x m
      have h14 : (b :: (bs ++ second)).length = 14 := by
        show ((b :: bs) ++ second).length = 14
        rw [List.length_append, hlen, hsec]
      obtain ⟨x, x1, _, x3, e⟩ := readBackendData_line s b (bs ++ second) a t hbuf hrx hall3
        (by rw [h14]; decide) ha ht
      have hne : ((b :: (bs ++ second)).map Prod.snd).length ≠ 7 := by
        rw [List.length_map, h14]
        decide
      have hp : parseTimeData x ((b :: (bs ++ second)).map Prod.snd) =
          addLog x (lit "Arka porttan ge\xC3\xA7ersiz formatta veri: " ++
            (b :: (bs ++ second)).map Prod.snd) .WARN (lit "NTP") := by
        unfold parseTimeData
        rw [if_pos hne]
      rw [e, hp]
      refine ⟨x1, ?_, rfl⟩
      show x.log ++ _ = _
      rw [x3]
      rfl

theorem readBackendData_framing_witness :
    ((readBackendData (fed 5 "150325A\n")).receivedTime =
        (parseTimeData (fed 5 "150325A\n") ((arriving 0 "150325A").map Prod.snd)).receivedTime ∧
      (readBackendData (fed 5 "150325A\n")).dataBuffer = []) ∧
    ((readBackendData (fed 5 "150325A")).receivedTime = (fed 5 "150325A").receivedTime ∧
      (readBackendData (fed 5 "150325A")).log = (fed 5 "150325A").log ∧
      (readBackendData (fed 5 "150325A")).dataBuffer = (arriving 0 "150325A").map Prod.snd) ∧
    ((readBackendData (fed 5 "150325A153045b\r")).receivedTime =
        (fed 5 "150325A153045b\r").receivedTime ∧
      (readBackendData (fed 5 "150325A153045b\r")).log = (fed 5 "150325A153045b\r").log ++
        [formatEntry ((arriving 0 "150325A" ++ arriving 0 "153045b").map Prod.snd)] ∧
      (readBackendData (fed 5 "150325A153045b\r")).dataBuffer = []) :=
  ⟨(readBackendData_framing (fed 5 "150325A\n") (arriving 0 "150325A") rfl (by decide)
      (by decide)).1 0 '\n' (by decide) (by decide) (by decide),
    (readBackendData_framing (fed 5 "150325A") (arriving 0 "150325A") rfl (by decide)
      (by decide)).2.1 (by decide),
    (readBackendData_framing (fed 5 "150325A153045b\r") (arriving 0 "150325A") rfl (by decide)
      (by decide)).2.2 (arriving 0 "153045b") 0 '\r' (by decide) (by decide) (by decide)
      (by decide) (by decide)⟩

/-! ## The error count over a run of fault requests -/

theorem requestFault_count (command failure : AString) (s : Sys)
    (h : s.uartErrorCount < 2147483647) :
    ∃ ok s', requestFault command failure s = .ok (ok, s') ∧
      s'.uartErrorCount = s.uartErrorCount + (([ok].count false : Nat) : Int) := by
  obtain ⟨line, s1, s', _, h2, h3, h4, _⟩ := requestFault_spec command failure s h
  by_cases hl : line = []
  · refine ⟨false, s', by simpa [hl] using h2, ?_⟩
    rw [(h4 hl).1]
    rfl
  · refine ⟨true, s', by simpa [hl] using h2, ?_⟩
    rw [(h3 hl).2.2]
    simp

theorem requestFault_kept (command failure : AString) (s s1 : Sys)
    (h : s.uartErrorCount < 2147483647)
    (hok : requestFault command failure s = .ok (true, s1)) :
    s1.uartErrorCount = s.uartErrorCount := by
  obtain ⟨line, _, s', _, h2, h3, _, _⟩ := requestFault_spec command failure s h
  rw [hok] at h2
  simp only [Except.ok.injEq, Prod.mk.injEq] at h2
  obtain ⟨a, b⟩ := h2
  have hl : line ≠ [] := by
    intro e
    rw [e] at a
    simp at a
  rw [b]
  exact (h3 hl).2.2

theorem runFaults_count : ∀ (steps : List FaultStep) (s : Sys),
    s.uartErrorCount + (steps.length : Int) < 2147483647 →
    ∃ oks s', runFaults steps s = .ok (oks, s') ∧
      s'.uartErrorCount = s.uartErrorCount + ((oks.count false : Nat) : Int) := by
  intro steps
  induction steps with
  | nil =>
    intro s _
    exact ⟨[], s, rfl, by simp⟩
  | cons step rest ih =>
    intro s h
    have hlen : ((step :: rest).length : Int) = (rest.length : Int) + 1 := by
      simp
    rw [hlen] at h
    have hpos : (0 : Int) ≤ (rest.length : Int) := Int.natCast_nonneg _
    have hcall : ∀ command failure : AString,
        ∃ oks s', ((requestFault command failure s).bind fun (ok, s) =>
            (runFaults rest s).bind fun (oks, s) => .ok (ok :: oks, s)) = .ok (oks, s') ∧
          s'.uartErrorCount = s.uartErrorCount + ((oks.count false : Nat) : Int) := by
      intro command failure
      obtain ⟨ok, s1, g1, g2⟩ := requestFault_count command failure s (by omega)
      have hc : (([ok].count false : Nat) : Int) ≤ 1 := by
        cases ok <;> simp
      obtain ⟨oks, s2, k1, k2⟩ := ih s1 (by omega)
      refine ⟨ok :: oks, s2, ?_, ?_⟩
      · rw [g1]
        show Except.bind (runFaults rest s1) _ = _
        rw [k1]
        rfl
      · rw [k2, g2]
        cases ok
        · rw [List.count_cons_self]
          simp only [List.count_cons_self, List.count_nil]
          push_cast
          omega
        · rw [List.count_cons_of_ne (by decide)]
          simp
    cases step with
    | first => exact hcall _ _
    | next => exact hcall _ _
    | wait ms =>
      obtain ⟨oks, s2, k1, k2⟩ := ih (delay s ms) (by show s.uartErrorCount + _ < _; omega)
      exact ⟨oks, s2, k1, k2⟩

/-- C27: a `requestFirstFault` or `requestNextFault` that returns true leaves
`uartErrorCount` as it was; over any run of fault requests with nothing in between but
the passing of time, begun with a count that is not negative, the count grows by the
number of requests that returned false, however many returned true in between; and
once six of them have returned false the next `checkUARTHealth` starts the port again
and clears the count. -/
theorem runFaults_forces_reinit (steps : List FaultStep) (s : Sys)
    (h0 : 0 ≤ s.uartErrorCount)
    (h : s.uartErrorCount + (steps.length : Int) < 2147483647) :
    (∀ s1, requestFirstFault s = .ok (true, s1) → s1.uartErrorCount = s.uartErrorCount) ∧
    (∀ s1, requestNextFault s = .ok (true, s1) → s1.uartErrorCount = s.uartErrorCount) ∧
    ∃ oks s', runFaults steps s = .ok (oks, s') ∧
      s'.uartErrorCount = s.uartErrorCount + ((oks.count false : Nat) : Int) ∧
      (6 ≤ oks.count false →
        (checkUARTHealth s').uart.begins = s'.uart.begins + 1 ∧
        (checkUARTHealth s').uartErrorCount = 0) := by
  have hpos : (0 : Int) ≤ (steps.length : Int) := Int.natCast_nonneg _
  refine ⟨fun s1 hok => requestFault_kept _ _ s s1 (by omega) hok,
    fun s1 hok => requestFault_kept _ _ s s1 (by omega) hok, ?_⟩
  obtain ⟨oks, s', g1, g2⟩ := runFaults_count steps s h
  refine ⟨oks, s', g1, g2, ?_⟩
  intro h6
  have hbig : s'.uartErrorCount > 5 := by
    rw [g2]
    omega
  obtain ⟨c1, c2, _, _⟩ := checkUARTHealth_forced s' hbig
  exact ⟨c1, c2⟩

theorem runFaults_forces_reinit_witness :
    (0 : Int) ≤ (idle 0).uartErrorCount ∧
    ((∀ s1, requestFirstFault (idle 0) = .ok (true, s1) →
        s1.uartErrorCount = (idle 0).uartErrorCount) ∧
      (∀ s1, requestNextFault (idle 0) = .ok (true, s1) →
        s1.uartErrorCount = (idle 0).uartErrorCount) ∧
      ∃ oks s', runFaults [.first, .next, .wait 20, .next, .next, .next, .next] (idle 0) =
          .ok (oks, s') ∧
        s'.uartErrorCount = (idle 0).uartErrorCount + ((oks.count false : Nat) : Int) ∧
        (6 ≤ oks.count false →
          (checkUARTHealth s').uart.begins = s'.uart.begins + 1 ∧
          (checkUARTHealth s').uartErrorCount = 0)) :=
  ⟨by decide, runFaults_forces_reinit [.first, .next, .wait 20, .next, .next, .next, .next]
    (idle 0) (by decide) (by decide)⟩

/-! ## Date frames and the freshness window -/

theorem validTime_accepted (s : Sys) (frame : AString) (h : ValidTimeFrame frame) :
    (parseTimeData s frame).receivedTime.isValid = true ∧
    (parseTimeData s frame).receivedTime.lastUpdate = millis s ∧
    (parseTimeData s frame).clock = s.clock := by
  obtain ⟨a1, a2, m1, m2, s1, s2, c, e, h1, h2, h3, h4, h5, h6, hHH, hMM, hSS, hc⟩ := h
  subst e
  have hf : formatTime [a1, a2, m1, m2, s1, s2] = [a1, a2, ':', m1, m2, ':', s1, s2] := by
    rw [formatTime_digits a1 a2 m1 m2 s1 s2 h1 h2 h3 h4 h5 h6, if_neg (by omega)]
  have hne : formatTime [a1, a2, m1, m2, s1, s2] ≠ invalidTime := by
    intro h
    have := congrArg List.length h
    rw [hf, invalidTime_length] at this
    simp at this
  rw [parseTimeData_seven, if_neg (lower_not_upper c hc), if_pos hc, if_pos hne]
  exact ⟨rfl, rfl, rfl⟩

theorem validDate_accepted (s : Sys) (frame : AString) (h : ValidDateFrame frame) :
    (parseTimeData s frame).receivedTime.isValid = s.receivedTime.isValid ∧
    (parseTimeData s frame).receivedTime.lastUpdate = millis s ∧
    (parseTimeData s frame).clock = s.clock := by
  obtain ⟨d1, d2, m1, m2, y1, y2, c, e, h1, h2, h3, h4, h5, h6, hDD, hMM, hYY, hc⟩ := h
  subst e
  have hf : formatDate [d1, d2, m1, m2, y1, y2] = [d1, d2, '.', m1, m2, '.', '2', '0', y1, y2] := by
    rw [formatDate_digits d1 d2 m1 m2 y1 y2 h1 h2 h3 h4 h5 h6, if_neg (by omega)]
  have hne : formatDate [d1, d2, m1, m2, y1, y2] ≠ invalidDate := by
    intro h
    have := congrArg List.length h
    rw [hf, invalidDate_length] at this
    simp at this
  rw [parseTimeData_seven, if_pos hc, if_pos hne]
  exact ⟨rfl, rfl, rfl⟩

theorem dateFrame_flag (s : Sys) (frame : AString) (h : DateFrame frame) :
    (parseTimeData s frame).receivedTime.isValid = s.receivedTime.isValid := by
  obtain ⟨hl, hc⟩ := h
  obtain ⟨a, b, c, d, e, f, k, hd⟩ := length_seven frame hl
  subst hd
  have hk : 'A' ≤ k ∧ k ≤ 'Z' := hc
  rw [parseTimeData_seven, if_pos hk]
  split <;> rfl

theorem feedFrames_flag : ∀ (frames : List (Nat × AString)) (s : Sys),
    (∀ f ∈ frames, DateFrame f.2) →
    (feedFrames frames s).receivedTime.isValid = s.receivedTime.isValid := by
  intro frames
  induction frames with
  | nil =>
    intro s _
    rfl
  | cons f rest ih =>
    intro s h
    obtain ⟨d, frame⟩ := f
    show (feedFrames rest (parseTimeData (delay s d) frame)).receivedTime.isValid = _
    rw [ih _ (fun g hg => h g (List.mem_cons_of_mem _ hg)),
      dateFrame_flag _ frame (h (d, frame) (List.mem_cons_self _ _))]
    rfl

/-- C28: after a valid time frame has been decoded, a valid date frame decoded `d1` ms
later leaves `isValid` true and moves `lastUpdate` to its own `millis()`, so that
`isTimeDataValid` is true at every moment less than 60000 ms after the date frame,
however long ago the time frame was; without the date frame it would be false from
60000 ms after the time frame on.  And from a machine with `isValid` false no run of
date frames, valid or not, makes `isTimeDataValid` true. -/
theorem date_frame_refreshes (s : Sys) (timeFrame dateFrame : AString) (d1 d2 : Nat)
    (ht : ValidTimeFrame timeFrame) (hd : ValidDateFrame dateFrame) :
    (parseTimeData (delay (parseTimeData s timeFrame) d1) dateFrame).receivedTime.isValid = true ∧
    (parseTimeData (delay (parseTimeData s timeFrame) d1) dateFrame).receivedTime.lastUpdate =
      millis (delay (parseTimeData s timeFrame) d1) ∧
    (d2 < 60000 →
      (isTimeDataValid (delay (parseTimeData (delay (parseTimeData s timeFrame) d1) dateFrame)
        d2)).1 = true) ∧
    (60000 ≤ d1 + d2 → d1 + d2 < 4294967296 →
      (isTimeDataValid (delay (parseTimeData s timeFrame) (d1 + d2))).1 = false) ∧
    (∀ (frames : List (Nat × AString)) (s0 : Sys) (d : Nat),
      s0.receivedTime.isValid = false → (∀ f ∈ frames, DateFrame f.2) →
      (isTimeDataValid (delay (feedFrames frames s0) d)).1 = false) := by
  obtain ⟨t1, t2, t3⟩ := validTime_accepted s timeFrame ht
  obtain ⟨e1, e2, e3⟩ := validDate_accepted (delay (parseTimeData s timeFrame) d1) dateFrame hd
  have e1' : (parseTimeData (delay (parseTimeData s timeFrame) d1) dateFrame).receivedTime.isValid
      = true := by
    rw [e1]
    exact t1
  refine ⟨e1', e2, ?_, ?_, ?_⟩
  · intro h2
    unfold isTimeDataValid
    show ((parseTimeData (delay (parseTimeData s timeFrame) d1) dateFrame).receivedTime.isValid &&
      decide (u32sub
        (((parseTimeData (delay (parseTimeData s timeFrame) d1) dateFrame).clock + d2) % 4294967296)
        (parseTimeData (delay (parseTimeData s timeFrame) d1) dateFrame).receivedTime.lastUpdate
        < 60000)) = true
    rw [e1', e2, e3]
    have hm : millis (delay (parseTimeData s timeFrame) d1) =
        ((parseTimeData s timeFrame).clock + d1) % 4294967296 := rfl
    have hk : (delay (parseTimeData s timeFrame) d1).clock =
        (parseTimeData s timeFrame).clock + d1 := rfl
    rw [hm, hk]
    simp only [Bool.true_and, decide_eq_true_eq]
    unfold u32sub
    omega
  · intro h1 h2
    unfold isTimeDataValid
    show ((parseTimeData s timeFrame).receivedTime.isValid &&
      decide (u32sub (((parseTimeData s timeFrame).clock + (d1 + d2)) % 4294967296)
        (parseTimeData s timeFrame).receivedTime.lastUpdate < 60000)) = false
    rw [t1, t2, t3]
    have hm : millis s = s.clock % 4294967296 := rfl
    rw [hm]
    simp only [Bool.true_and, decide_eq_false_iff_not]
    unfold u32sub
    omega
  · intro frames s0 d h0 hall
    unfold isTimeDataValid
    show ((feedFrames frames s0).receivedTime.isValid && _) = false
    rw [feedFrames_flag frames s0 hall, h0]
    rfl

theorem date_frame_refreshes_witness :
    (parseTimeData (delay (parseTimeData (idle 5) (lit "153045b")) 50000)
      (lit "150325A")).receivedTime.isValid = true ∧
    (parseTimeData (delay (parseTimeData (idle 5) (lit "153045b")) 50000)
      (lit "150325A")).receivedTime.lastUpdate =
      millis (delay (parseTimeData (idle 5) (lit "153045b")) 50000) ∧
    (59999 < 60000 →
      (isTimeDataValid (delay (parseTimeData (delay (parseTimeData (idle 5) (lit "153045b")) 50000)
        (lit "150325A")) 59999)).1 = true) ∧
    (60000 ≤ 50000 + 59999 → 50000 + 59999 < 4294967296 →
      (isTimeDataValid (delay (parseTimeData (idle 5) (lit "153045b")) (50000 + 59999))).1 = false) ∧
    (∀ (frames : List (Nat × AString)) (s0 : Sys) (d : Nat),
      s0.receivedTime.isValid = false → (∀ f ∈ frames, DateFrame f.2) →
      (isTimeDataValid (delay (feedFrames frames s0) d)).1 = false) :=
  date_frame_refreshes (idle 5) (lit "153045b") (lit "150325A") 50000 59999
    ⟨'1', '5', '3', '0', '4', '5', 'b', rfl, by decide, by decide, by decide, by decide,
      by decide, by decide, by decide, by decide, by decide, by decide⟩
    ⟨'1', '5', '0', '3', '2', '5', 'A', rfl, by decide, by decide, by decide, by decide,
      by decide, by decide, by decide, by decide, by decide, by decide⟩

end T43DR
